import Mathlib

/-! Karaoke vocal engine: shallow embedding and verified properties.

Embedding of `autotune-app/simple_noise_suppression.cpp` and of the audio
callback, the parameter channel and the melody loader of `autotune-app/karaoke.cpp`.

Conventions of the embedding

* `float` values are elements of an arbitrary linearly ordered field `α` with a
  floor function (`ℚ` makes every definition executable, `ℝ` gives the usual
  analytic functions).  In the resampling ratio and the resampling index, where the
  rounding decides which sample is read on ordinary inputs, every operation is followed
  by `toFloat`, the rounding to the nearest binary32 value (each operation rounded on its
  own, no fused multiply-add); the other computations are in exact arithmetic.  Overflow
  to infinity and NaN are not modelled.
* The `<cmath>` functions the program calls (`sqrt`, `exp`, `pow`, `sin`) and the
  constant `M_PI` are not code of the repository; they are passed in as a
  `CMath` record and theorems state the facts about them that they use.
* `int` is `Int`; an operation whose C++ behaviour is undefined (conversion of an
  out-of-range float, overflow, division by zero, a read or write outside a
  buffer) makes the enclosing function return `none`.  So does an exception that
  nothing catches (`std::stof` on a parameter line it cannot convert).
* Buffers are lists; the debug counters and console output are omitted.
* Text lines are represented by what the code observes of them through the string
  library (`find`, `substr`, `std::stof`).
-/

namespace Karaoke

set_option linter.unusedSectionVars false

variable {α : Type} [LinearOrderedField α] [FloorRing α]

/-! ## Library functions and machine arithmetic -/

/-- The `<cmath>` functions and the constant `M_PI` used by the program. -/
structure CMath (α : Type) where
  sqrt : α → α
  exp : α → α
  pow : α → α → α
  sin : α → α
  M_PI : α

def INT_MIN : Int := -2147483648

def INT_MAX : Int := 2147483647

/-- An `int` result: `none` when the mathematical value does not fit. -/
def checkInt (z : Int) : Option Int :=
  if INT_MIN ≤ z ∧ z ≤ INT_MAX then some z else none

/-- Truncation toward zero, the value of a C++ float-to-int conversion. -/
def truncate (x : α) : Int :=
  if 0 ≤ x then ⌊x⌋ else ⌈x⌉

/-- The cast `(int)x`: undefined when the truncated value is out of range. -/
def floatToInt (x : α) : Option Int :=
  checkInt (truncate x)

/-- The exponent of the binade of `x` in the binary32 format: the `e` with
`2 ^ e ≤ |x| < 2 ^ (e + 1)`, and `-126`, the least normal exponent, below that. -/
def floatExponent (x : α) : Int :=
  max (Int.log 2 |x|) (-126)

/-- Rounding to the nearest integer, a tie going to the even one. -/
def roundHalfEven (y : α) : Int :=
  if y - ⌊y⌋ < 1 / 2 then ⌊y⌋
  else if 1 / 2 < y - ⌊y⌋ then ⌊y⌋ + 1
  else if ⌊y⌋ % 2 = 0 then ⌊y⌋ else ⌊y⌋ + 1

/-- The result of a `float` operation whose exact value is `x`: the nearest multiple of
the spacing `2 ^ (e - 23)` of the binade of `x` (24 significant bits, round to nearest,
ties to even). -/
def toFloat (x : α) : α :=
  (roundHalfEven (x / 2 ^ (floatExponent x - 23)) : α) * 2 ^ (floatExponent x - 23)

/-- The function `std::clamp(v, lo, hi)`. -/
def clamp (v lo hi : α) : α :=
  if v < lo then lo else if hi < v then hi else v

/-- A read `buf[idx]`: `none` outside the buffer. -/
def readAt {β : Type} (buf : List β) (idx : Int) : Option β :=
  if 0 ≤ idx then buf[idx.toNat]? else none

/-- Runs the per-sample results of a loop: the loop faults when an iteration does. -/
def collect {β : Type} : List (Option β) → Option (List β)
  | [] => some []
  | none :: _ => none
  | some a :: rest => (collect rest).map (fun r => a :: r)

/-! ## `simple_noise_suppression.cpp` -/

def NOISE_HISTORY_SIZE : Nat := 1000

def MIN_NOISE_LEVEL : α := 0.001

def MAX_NOISE_LEVEL : α := 0.5

/-- The fields of `class SimpleNoiseSuppressor` that the code reads or writes, and
`prevSample`, the function-static variable of `applySpectralNoiseReduction`. -/
structure SimpleNoiseSuppressor (α : Type) where
  m_sampleRate : Int
  m_noiseGateThreshold : α
  m_vadThreshold : α
  m_gracePeriod : Int
  m_noiseReductionStrength : α
  m_noiseHistory : List α
  m_noiseLevel : α
  m_signalLevel : α
  m_vadProbability : α
  m_voiceActive : Bool
  m_graceCounter : Int
  m_inGracePeriod : Bool
  m_spectrum : List α
  prevSample : α

namespace SimpleNoiseSuppressor

set_option linter.dupNamespace false in
/-- The constructor (with `prevSample` at its static initial value). -/
def SimpleNoiseSuppressor : SimpleNoiseSuppressor α where
  m_sampleRate := 48000
  m_noiseGateThreshold := 0.01
  m_vadThreshold := 0.3
  m_gracePeriod := 200
  m_noiseReductionStrength := 0.5
  m_noiseHistory := List.replicate NOISE_HISTORY_SIZE 0
  m_noiseLevel := 0.001
  m_signalLevel := 0
  m_vadProbability := 0
  m_voiceActive := false
  m_graceCounter := 0
  m_inGracePeriod := false
  m_spectrum := List.replicate 256 0
  prevSample := 0

def reset (s : Karaoke.SimpleNoiseSuppressor α) : Karaoke.SimpleNoiseSuppressor α :=
  { s with
    m_noiseLevel := MIN_NOISE_LEVEL
    m_signalLevel := 0
    m_vadProbability := 0
    m_voiceActive := false
    m_graceCounter := 0
    m_inGracePeriod := false
    m_noiseHistory := s.m_noiseHistory.map (fun _ => 0)
    m_spectrum := s.m_spectrum.map (fun _ => 0) }

def init (s : Karaoke.SimpleNoiseSuppressor α) (sampleRate : Int) :
    Karaoke.SimpleNoiseSuppressor α :=
  reset { s with m_sampleRate := sampleRate }

def setNoiseGateThreshold (s : Karaoke.SimpleNoiseSuppressor α) (threshold : α) :
    Karaoke.SimpleNoiseSuppressor α :=
  { s with m_noiseGateThreshold := clamp threshold 0 1 }

def setVADThreshold (s : Karaoke.SimpleNoiseSuppressor α) (threshold : α) :
    Karaoke.SimpleNoiseSuppressor α :=
  { s with m_vadThreshold := clamp threshold 0 1 }

def setGracePeriod (s : Karaoke.SimpleNoiseSuppressor α) (ms : Int) :
    Karaoke.SimpleNoiseSuppressor α :=
  { s with m_gracePeriod := max 0 ms }

def setNoiseReductionStrength (s : Karaoke.SimpleNoiseSuppressor α) (strength : α) :
    Karaoke.SimpleNoiseSuppressor α :=
  { s with m_noiseReductionStrength := clamp strength 0 1 }

def getVADProbability (s : Karaoke.SimpleNoiseSuppressor α) : α :=
  s.m_vadProbability

def getNoiseLevel (s : Karaoke.SimpleNoiseSuppressor α) : α :=
  s.m_noiseLevel

def isVoiceActive (s : Karaoke.SimpleNoiseSuppressor α) : Bool :=
  s.m_voiceActive || s.m_inGracePeriod

/-- The loop `sum += samples[i] * samples[i]` over the frame. -/
def sumSquares (samples : List α) : α :=
  samples.foldl (fun sum x => sum + x * x) 0

/-- The value `std::sqrt(sum / numSamples)` computed by both level estimators. -/
def frameRms (m : CMath α) (samples : List α) (numSamples : Int) : α :=
  m.sqrt (sumSquares samples / (numSamples : α))

/-- The function `estimateNoiseLevel`; `samples` holds the `numSamples` samples of the
frame.  Faults when the history is empty (the index `size / 2` is then outside
`sortedNoise`). -/
def estimateNoiseLevel (m : CMath α) (s : Karaoke.SimpleNoiseSuppressor α)
    (samples : List α) (numSamples : Int) :
    Option (Karaoke.SimpleNoiseSuppressor α × α) :=
  let rms := frameRms m samples numSamples
  let history := (s.m_noiseHistory ++ [rms]).tail
  let sortedNoise := history.insertionSort (fun a b => a ≤ b)
  match sortedNoise[sortedNoise.length / 2]? with
  | none => none
  | some medianNoise =>
    let level := clamp (0.95 * s.m_noiseLevel + 0.05 * medianNoise)
      MIN_NOISE_LEVEL MAX_NOISE_LEVEL
    some ({ s with m_noiseHistory := history, m_noiseLevel := level }, level)

def estimateSignalLevel (m : CMath α) (s : Karaoke.SimpleNoiseSuppressor α)
    (samples : List α) (numSamples : Int) : Karaoke.SimpleNoiseSuppressor α × α :=
  let rms := frameRms m samples numSamples
  let level := 0.9 * s.m_signalLevel + 0.1 * rms
  ({ s with m_signalLevel := level }, level)

def calculateVADProbability (m : CMath α) (signalLevel noiseLevel : α) : α :=
  if noiseLevel < MIN_NOISE_LEVEL then 1
  else
    let snr := signalLevel / noiseLevel
    let probability := 1 / (1 + m.exp (-5 * (snr - 2)))
    clamp probability 0 1

def applyNoiseGate (s : Karaoke.SimpleNoiseSuppressor α) (samples : List α) : List α :=
  samples.map (fun x => if |x| < s.m_noiseGateThreshold then 0 else x)

/-- The filter loop of `applySpectralNoiseReduction`, started with `prevSample = prev`:
the filtered samples and the final `prevSample`. -/
def highPassLoop (alpha : α) : α → List α → List α × α
  | prev, [] => ([], prev)
  | prev, currentSample :: rest =>
    let r := highPassLoop alpha currentSample rest
    (alpha * (prev + currentSample - prev) :: r.1, r.2)

/-- The coefficient `alpha` of the filter. -/
def highPassAlpha (m : CMath α) (sampleRate : Int) : α :=
  let cutoffFreq : α := 80
  let rc := 1 / (2 * m.M_PI * cutoffFreq)
  let dt := 1 / (sampleRate : α)
  rc / (rc + dt)

def applySpectralNoiseReduction (m : CMath α) (s : Karaoke.SimpleNoiseSuppressor α)
    (samples : List α) : Karaoke.SimpleNoiseSuppressor α × List α :=
  let alpha := highPassAlpha m s.m_sampleRate
  let filtered := highPassLoop alpha s.prevSample samples
  let s1 := { s with prevSample := filtered.2 }
  if !s.m_voiceActive then
    let reductionFactor := 1 - s.m_noiseReductionStrength
    (s1, filtered.1.map (fun x => x * reductionFactor))
  else (s1, filtered.1)

/-- The block "Handle grace period" of `processAudio`. -/
def handleGracePeriod (s : Karaoke.SimpleNoiseSuppressor α) (numSamples : Int) :
    Option (Karaoke.SimpleNoiseSuppressor α) :=
  if s.m_voiceActive then
    some { s with m_graceCounter := s.m_gracePeriod, m_inGracePeriod := true }
  else if s.m_inGracePeriod then
    match checkInt (numSamples * 1000) with
    | none => none
    | some ms1000 =>
      if s.m_sampleRate = 0 then none
      else
        match checkInt (s.m_graceCounter - ms1000.tdiv s.m_sampleRate) with
        | none => none
        | some counter =>
          some { s with
            m_graceCounter := counter
            m_inGracePeriod := if counter ≤ 0 then false else s.m_inGracePeriod }
  else some s

/-- The block of `processAudio` that estimates the levels and updates the VAD
probability and the voice-activity flag. -/
def updateLevels (m : CMath α) (s : Karaoke.SimpleNoiseSuppressor α)
    (samples : List α) (numSamples : Int) : Option (Karaoke.SimpleNoiseSuppressor α) :=
  match estimateNoiseLevel m s samples numSamples with
  | none => none
  | some (s1, noiseLevel) =>
    let s2 := { s1 with m_noiseLevel := noiseLevel }
    let r := estimateSignalLevel m s2 samples numSamples
    let s4 := { r.1 with m_signalLevel := r.2 }
    let s5 := { s4 with
      m_vadProbability := calculateVADProbability m s4.m_signalLevel s4.m_noiseLevel }
    some { s5 with m_voiceActive := decide (s5.m_vadProbability > s5.m_vadThreshold) }

/-- The blocks "Apply noise gate if no voice activity" and "Apply spectral noise
reduction" of `processAudio`, on the copy of the frame in the output buffer. -/
def gateAndReduce (m : CMath α) (s : Karaoke.SimpleNoiseSuppressor α) (samples : List α) :
    Karaoke.SimpleNoiseSuppressor α × List α :=
  let gated :=
    if !s.m_voiceActive && !s.m_inGracePeriod then applyNoiseGate s samples else samples
  if s.m_noiseReductionStrength > 0 then applySpectralNoiseReduction m s gated
  else (s, gated)

/-- The function `processAudio(input, output, numSamples)`: the new state and the new
contents of the output buffer.  The estimators read `input` before `output` is
modified, so the result is the same when both pointers are equal. -/
def processAudio (m : CMath α) (s : Karaoke.SimpleNoiseSuppressor α)
    (input output : List α) (numSamples : Int) :
    Option (Karaoke.SimpleNoiseSuppressor α × List α) :=
  if numSamples ≤ 0 then some (s, output)
  else if input.length < numSamples.toNat ∨ output.length < numSamples.toNat then none
  else
    let samples := input.take numSamples.toNat
    match updateLevels m s samples numSamples with
    | none => none
    | some s6 =>
      match handleGracePeriod s6 numSamples with
      | none => none
      | some s7 =>
        let r := gateAndReduce m s7 samples
        some (r.1, r.2 ++ output.drop numSamples.toNat)

/-- The states the public interface produces and `processAudio` runs on without fault:
the history has its fixed size, the sample rate is positive, and the grace period and
a running grace counter are non-negative `int`s. -/
def WellFormed (s : Karaoke.SimpleNoiseSuppressor α) : Prop :=
  s.m_noiseHistory.length = NOISE_HISTORY_SIZE ∧ 0 < s.m_sampleRate ∧
    0 ≤ s.m_gracePeriod ∧ s.m_gracePeriod ≤ INT_MAX ∧
    (s.m_inGracePeriod = true → 0 ≤ s.m_graceCounter ∧ s.m_graceCounter ≤ INT_MAX)

instance (s : Karaoke.SimpleNoiseSuppressor α) : Decidable (WellFormed s) := by
  unfold WellFormed
  infer_instance

/-- A history of non-negative values of which at least `k` are 0. -/
def QuietHistory (l : List α) (k : Nat) : Prop :=
  l.length = NOISE_HISTORY_SIZE ∧ (∀ x ∈ l, 0 ≤ x) ∧ k ≤ l.count 0

instance (l : List α) (k : Nat) : Decidable (QuietHistory l k) := by
  unfold QuietHistory
  infer_instance

/-- A suppressor constructed, initialised with `init(sampleRate)` and given a grace period
with `setGracePeriod(gracePeriod)`. -/
def configured (sampleRate gracePeriod : Int) : Karaoke.SimpleNoiseSuppressor α :=
  setGracePeriod (init SimpleNoiseSuppressor sampleRate) gracePeriod

/-- A sequence of one-sample frames: the sample `x`, then `y` for ever. -/
def burstThen (x y : α) : Nat → List α
  | 0 => [x]
  | _ + 1 => [y]

/-- The state after the first `j` calls `processAudio(frame, frame, numSamples)` on the
frames `frames 0, frames 1, ...`, each buffer being input and output as in
`audioCallback`. -/
def stateAfter (m : CMath α) (s : Karaoke.SimpleNoiseSuppressor α) (frames : Nat → List α)
    (numSamples : Int) : Nat → Option (Karaoke.SimpleNoiseSuppressor α)
  | 0 => some s
  | j + 1 =>
    match stateAfter m s frames numSamples j with
    | none => none
    | some t =>
      match processAudio m t (frames j) (frames j) numSamples with
      | none => none
      | some r => some r.1

end SimpleNoiseSuppressor

/-! ## `karaoke.cpp`: the audio callback -/

def SAMPLE_RATE : Int := 48000

def FRAMES_PER_BUFFER : Nat := 256

def PLOT_HISTORY : Nat := 200

/-- The fields of `struct AudioData` that the callback reads or writes (the handle of the
external pitch detector is left out), and `last_check`, the function-static variable of
`checkParameterUpdates`.  A null `noise_suppressor` pointer is `none`. -/
structure AudioData (α : Type) where
  pitch_history : List α
  melody_map : List (α × α)
  current_time : α
  instrumental : List α
  instrumental_pos : Nat
  last_pitch : α
  last_confidence : α
  target_history : List α
  time_history : List α
  recording_frames : List α
  recording_enabled : Bool
  noise_suppressor : Option (SimpleNoiseSuppressor α)
  autotune_strength : α
  pitch_shift_amount : α
  voice_volume : α
  instrument_volume : α
  enable_chorus : Bool
  chorus_depth : α
  enable_reverb : Bool
  reverb_wetness : α
  last_check : Int

/-- A line of `voice_params.txt` as `checkParameterUpdates` classifies it: the key it
starts with and the value `std::stof` converts after the key; `malformed` for a line that
starts with one of the four keys and whose remainder `std::stof` cannot convert (no
number at its start, or a number outside the `float` range), where `std::stof` throws;
`other` for a line with none of the four keys.  A value that converts to NaN or to an
infinity fails every range test, as any out-of-range value does. -/
inductive ParamLine (α : Type) where
  | voice_volume (v : α)
  | autotune_strength (v : α)
  | pitch_shift (v : α)
  | instrument_volume (v : α)
  | malformed
  | other

/-- The body of the `while (std::getline ...)` loop of `checkParameterUpdates`: `none`
when `std::stof` throws. -/
def applyParamLine (data : AudioData α) : ParamLine α → Option (AudioData α)
  | .voice_volume new_volume =>
    some (if new_volume ≥ 0 ∧ new_volume ≤ 5 then { data with voice_volume := new_volume }
      else data)
  | .autotune_strength new_strength =>
    some (if new_strength ≥ 0 ∧ new_strength ≤ 2 then
        { data with autotune_strength := new_strength }
      else data)
  | .pitch_shift new_shift =>
    some (if new_shift ≥ -12 ∧ new_shift ≤ 12 then { data with pitch_shift_amount := new_shift }
      else data)
  | .instrument_volume new_volume =>
    some (if new_volume ≥ 0 ∧ new_volume ≤ 5 then { data with instrument_volume := new_volume }
      else data)
  | .malformed => none
  | .other => some data

/-- The loop `while (std::getline(param_file, line))`: the session state when the loop is
left, and whether it is left by the exception of `std::stof` (`true`) rather than at the
end of the file.  No line after a malformed one is read. -/
def paramLoop (data : AudioData α) : List (ParamLine α) → AudioData α × Bool
  | [] => (data, false)
  | line :: rest =>
    match applyParamLine data line with
    | none => (data, true)
    | some data1 => paramLoop data1 rest

/-- The function `checkParameterUpdates`: `now` is the value of `time(nullptr)` and
`paramFile` the lines of `voice_params.txt`, `none` when the file cannot be opened.  The
result is the session state when the call is left and whether it is left by an exception
(the function has no handler) rather than by returning. -/
def checkParameterUpdatesExit (data : AudioData α) (now : Int)
    (paramFile : Option (List (ParamLine α))) : AudioData α × Bool :=
  if ((now - data.last_check : Int) : α) < 0.1 then (data, false)
  else
    let data1 := { data with last_check := now }
    match paramFile with
    | none => (data1, false)
    | some lines => paramLoop data1 lines

/-- The session state in which a call of `checkParameterUpdates` leaves the session. -/
def checkParameterUpdates (data : AudioData α) (now : Int)
    (paramFile : Option (List (ParamLine α))) : AudioData α :=
  (checkParameterUpdatesExit data now paramFile).1

/-- Whether a call of `checkParameterUpdates` is left by the exception of `std::stof`. -/
def checkParameterUpdatesThrows (data : AudioData α) (now : Int)
    (paramFile : Option (List (ParamLine α))) : Bool :=
  (checkParameterUpdatesExit data now paramFile).2

/-- What the environment supplies to one invocation of `audioCallback`: the input buffer,
the clock and parameter file read by `checkParameterUpdates`, and the result of the
external pitch detector on this frame. -/
structure CallbackInput (α : Type) where
  inputBuffer : List α
  now : Int
  paramFile : Option (List (ParamLine α))
  pitch : α
  confidence : α

/-- The loop "Get instrumental chunk", run for `n` iterations from cursor `pos`: the
chunk and the final cursor.  The read is inside `instrumental` whenever it is not empty. -/
def instrumentalLoop (instrumental : List α) : Nat → Nat → List α × Nat
  | 0, pos => ([], pos)
  | n + 1, pos =>
    let pos1 := if pos ≥ instrumental.length then 0 else pos
    if instrumental.isEmpty then
      let r := instrumentalLoop instrumental n pos1
      (0 :: r.1, r.2)
    else
      let r := instrumentalLoop instrumental n (pos1 + 1)
      (instrumental.getD pos1 0 :: r.1, r.2)

/-- The sticky update of the stored pitch estimate. -/
def updatePitchEstimate (data : AudioData α) (pitch confidence : α) : AudioData α :=
  if confidence > 0.3 ∧ pitch > 50 then
    { data with last_pitch := pitch, last_confidence := confidence }
  else data

/-- The body of the loop over `melody_map`, on the pair `(best_time_diff, target_pitch)`. -/
def melodyStep (current_time : α) (acc : α × α) (note : α × α) : α × α :=
  let time_diff := |note.1 - current_time|
  if time_diff < acc.1 then (time_diff, note.2) else acc

/-- The target melody frequency computed by the callback. -/
def lookupTargetPitch (melody_map : List (α × α)) (current_time : α) : α :=
  (melody_map.foldl (melodyStep current_time) (0.5, 0)).2

/-- The final `shift_ratio` of the autotune branch, each `float` operation rounded. -/
def shiftRatio (m : CMath α) (data : AudioData α) (target_pitch : α) : α :=
  let base_shift_ratio := toFloat (target_pitch / data.last_pitch)
  let shift_ratio :=
    toFloat (1 + toFloat (toFloat (base_shift_ratio - 1) * data.autotune_strength))
  let semitone_shift := toFloat (m.pow 2 (toFloat (data.pitch_shift_amount / 12)))
  toFloat (shift_ratio * semitone_shift)

/-- The index `shifted_idx` of iteration `i` of the resampling loop: the cast of the
rounded `float` product `i * shift_ratio`. -/
def shiftedIdx (shift_ratio : α) (i : Nat) : Option Int :=
  floatToInt (toFloat ((i : α) * shift_ratio))

/-- Iteration `i` of the resampling loop: the value stored in `processed_audio[i]`. -/
def resampleSample (inBuf : List α) (shift_ratio : α) (i : Nat) : Option α :=
  match shiftedIdx shift_ratio i with
  | none => none
  | some shifted_idx =>
    if shifted_idx < FRAMES_PER_BUFFER then readAt inBuf shifted_idx else some 0

/-- The test guarding the autotune branch. -/
def correctionApplies (data : AudioData α) (target_pitch : α) : Bool :=
  decide (data.last_confidence > 0.5 ∧ data.last_pitch > 0 ∧ target_pitch > 0)

/-- The block "Apply autotune with variable strength": the contents of `processed_audio`
before noise suppression. -/
def correctVoice (m : CMath α) (data : AudioData α) (inBuf : List α) (target_pitch : α) :
    Option (List α) :=
  if correctionApplies data target_pitch then
    collect ((List.range FRAMES_PER_BUFFER).map
      (resampleSample inBuf (shiftRatio m data target_pitch)))
  else
    collect ((List.range FRAMES_PER_BUFFER).map (fun (i : Nat) => readAt inBuf (i : Int)))

/-- The index `chorus_idx` of iteration `i` of the mixing loop. -/
def chorusIdx (m : CMath α) (data : AudioData α) (i : Nat) : Option Int :=
  let chorus_offset := m.sin (data.current_time * 2 * m.M_PI * 0.5) * data.chorus_depth
  match floatToInt ((i : α) + chorus_offset) with
  | none => none
  | some c => some (c.tmod FRAMES_PER_BUFFER)

/-- The block "Apply chorus effect if enabled" of iteration `i` of the mixing loop, on the
value `out0` of `out[i]` before it. -/
def applyChorus (m : CMath α) (data : AudioData α) (processed_audio : List α) (i : Nat)
    (out0 : α) : Option α :=
  if data.enable_chorus then
    match chorusIdx m data i with
    | none => none
    | some chorus_idx =>
      match readAt processed_audio chorus_idx with
      | none => none
      | some tap => some (out0 + 0.3 * tap)
  else some out0

/-- The block "Clamp to prevent clipping" of the mixing loop. -/
def clampOutput (x : α) : α :=
  let out1 := if x > 1 then 1 else x
  if out1 < -1 then -1 else out1

/-- Iteration `i` of the mixing loop: the value left in `out[i]`. -/
def mixSample (m : CMath α) (data : AudioData α) (instrumental_chunk processed_audio : List α)
    (i : Nat) : Option α :=
  match readAt instrumental_chunk (i : Int), readAt processed_audio (i : Int) with
  | some inst, some voice =>
    (applyChorus m data processed_audio i
      (data.instrument_volume * inst + data.voice_volume * voice)).map clampOutput
  | _, _ => none

/-- The block "Update history for plotting". -/
def updateHistory (data : AudioData α) (target_pitch : α) : AudioData α :=
  let pitch_history := data.pitch_history ++ [data.last_pitch]
  let target_history := data.target_history ++ [target_pitch]
  let time_history := data.time_history ++ [data.current_time]
  if pitch_history.length > PLOT_HISTORY then
    { data with
      pitch_history := pitch_history.tail
      target_history := target_history.tail
      time_history := time_history.tail }
  else
    { data with
      pitch_history := pitch_history
      target_history := target_history
      time_history := time_history }

/-- The noise-suppression step of the callback, skipped for a null suppressor. -/
def suppressNoise (m : CMath α) (data : AudioData α) (processed_audio : List α) :
    Option (AudioData α × List α) :=
  match data.noise_suppressor with
  | none => some (data, processed_audio)
  | some ns =>
    match ns.processAudio m processed_audio processed_audio FRAMES_PER_BUFFER with
    | none => none
    | some (ns1, voice) => some ({ data with noise_suppressor := some ns1 }, voice)

/-- The first part of `audioCallback`, up to the sticky update of the pitch estimate, when
`checkParameterUpdates` returns: the session state at that point and
`instrumental_chunk`. -/
def frameSetup (data : AudioData α) (inp : CallbackInput α) : AudioData α × List α :=
  let data1 := checkParameterUpdates data inp.now inp.paramFile
  let chunk := instrumentalLoop data1.instrumental FRAMES_PER_BUFFER data1.instrumental_pos
  let data2 := { data1 with instrumental_pos := chunk.2 }
  (updatePitchEstimate data2 inp.pitch inp.confidence, chunk.1)

/-- The last part of `audioCallback`: the clock advance and the history update. -/
def frameFinish (data : AudioData α) (target_pitch : α) : AudioData α :=
  updateHistory
    { data with
      current_time := data.current_time + (FRAMES_PER_BUFFER : α) / (SAMPLE_RATE : α) }
    target_pitch

/-- The function `audioCallback` on non-null buffers: the new session state and the
`FRAMES_PER_BUFFER` samples written to the output buffer.  The callback does not return
(`none`) when `checkParameterUpdates` is left by the exception of `std::stof`, which
nothing on the way out of the callback catches. -/
def audioCallback (m : CMath α) (data : AudioData α) (inp : CallbackInput α) :
    Option (AudioData α × List α) :=
  if checkParameterUpdatesThrows data inp.now inp.paramFile then none
  else
    let setup := frameSetup data inp
    match collect ((List.range FRAMES_PER_BUFFER).map
        (fun (i : Nat) => readAt inp.inputBuffer (i : Int))) with
    | none => none
    | some _input_vec =>
      let target_pitch := lookupTargetPitch setup.1.melody_map setup.1.current_time
      match correctVoice m setup.1 inp.inputBuffer target_pitch with
      | none => none
      | some processed_audio =>
        match suppressNoise m setup.1 processed_audio with
        | none => none
        | some (data4, voice) =>
          match collect ((List.range FRAMES_PER_BUFFER).map
              (mixSample m data4 setup.2 voice)) with
          | none => none
          | some out => some (frameFinish data4 target_pitch, out)

/-- The suppressor as `main` creates and configures it. -/
def mainSuppressor : SimpleNoiseSuppressor α :=
  SimpleNoiseSuppressor.setNoiseReductionStrength
    (SimpleNoiseSuppressor.setGracePeriod
      (SimpleNoiseSuppressor.setVADThreshold
        (SimpleNoiseSuppressor.setNoiseGateThreshold
          (SimpleNoiseSuppressor.init SimpleNoiseSuppressor.SimpleNoiseSuppressor SAMPLE_RATE)
          0.01)
        0.3)
      200)
    0.6

/-- The session state `main` builds before the stream starts, with the default effect
parameters. -/
def initialAudioData (instrumental : List α) (melody_map : List (α × α)) : AudioData α where
  pitch_history := []
  melody_map := melody_map
  current_time := 0
  instrumental := instrumental
  instrumental_pos := 0
  last_pitch := 0
  last_confidence := 0
  target_history := []
  time_history := []
  recording_frames := []
  recording_enabled := true
  noise_suppressor := some mainSuppressor
  autotune_strength := 1
  pitch_shift_amount := 0
  voice_volume := 1.1
  instrument_volume := 2
  enable_chorus := false
  chorus_depth := 0.1
  enable_reverb := false
  reverb_wetness := 0.3
  last_check := 0

/-- The session state after the first `n` invocations of `audioCallback`, on the inputs
`inps 0, inps 1, ...`. -/
def sessionAfter (m : CMath α) (data : AudioData α) (inps : Nat → CallbackInput α) :
    Nat → Option (AudioData α)
  | 0 => some data
  | n + 1 =>
    match sessionAfter m data inps n with
    | none => none
    | some d =>
      match audioCallback m d (inps n) with
      | none => none
      | some r => some r.1

/-- The instrumental cursor after `k` runs of the loop "Get instrumental chunk" with a
frame size of `F` samples, from cursor 0. -/
def cursorAfter (instrumental : List α) (F : Nat) : Nat → Nat
  | 0 => 0
  | k + 1 => (instrumentalLoop instrumental F (cursorAfter instrumental F k)).2

/-- A callback input with a silent frame, nothing detected and no parameter file. -/
def silentInput : CallbackInput α where
  inputBuffer := List.replicate FRAMES_PER_BUFFER 0
  now := 0
  paramFile := none
  pitch := 0
  confidence := 0

/-! ## `karaoke.cpp`: the melody loader -/

/-- What `loadMelodyMap` observes of one line of the melody file: the test
`line[0] == '#'`, the test `line.empty()`, and, when `line.find(',')` finds a comma, the
pair of values that `std::stof` returns on the text before and after it (`some none` when
`std::stof` throws, `none` when the line has no comma). -/
structure MelodyLine (α : Type) where
  startsWithHash : Bool
  isEmpty : Bool
  fields : Option (Option (α × α))

/-- The loop "Skip header lines", `while (std::getline(file, line) && line[0] == '#')`:
what is left of the file when the loop ends.  The line on which the test fails has been
read by `std::getline` and is not read again. -/
def skipHeaderLines : List (MelodyLine α) → List (MelodyLine α)
  | [] => []
  | line :: rest => if line.startsWithHash then skipHeaderLines rest else rest

/-- The loop "Read melody data" on what is left of the file: the points pushed on
`melody_map`, `none` when `std::stof` throws. -/
def readMelodyData : List (MelodyLine α) → Option (List (α × α))
  | [] => some []
  | line :: rest =>
    if line.isEmpty then readMelodyData rest
    else
      match line.fields with
      | none => readMelodyData rest
      | some none => none
      | some (some point) => (readMelodyData rest).map (fun r => point :: r)

/-- The test `filename.length() >= 4 && filename.substr(filename.length() - 4) == ext`. -/
def hasExtension (filename ext : List Char) : Bool :=
  decide (filename.length ≥ 4) && (filename.drop (filename.length - 4) == ext)

/-- The function `loadMelodyMap`: `file` holds the lines of the file, `none` when it
cannot be opened. -/
def loadMelodyMap (filename : List Char) (file : Option (List (MelodyLine α))) :
    Option (List (α × α)) :=
  if hasExtension filename ['.', 'n', 'p', 'z'] then some []
  else if hasExtension filename ['.', 't', 'x', 't'] then
    match file with
    | none => some []
    | some lines => readMelodyData (skipHeaderLines lines)
  else some []

/-- A well-formed data line `time,frequency` as `loadMelodyMap` observes it. -/
def dataLine (point : α × α) : MelodyLine α where
  startsWithHash := false
  isEmpty := false
  fields := some (some point)

/-! ## Definitions that follow the wording of the specification -/

/-- The statistical median of a list of values: the middle value of the sorted list, and
the mean of the two middle values when the number of values is even. -/
def statisticalMedian (l : List α) : α :=
  let sorted := l.insertionSort (fun a b => a ≤ b)
  if l.length % 2 = 0 then
    (sorted.getD (l.length / 2 - 1) 0 + sorted.getD (l.length / 2) 0) / 2
  else sorted.getD (l.length / 2) 0

/-- The value of a line whose key is `voice_volume`. -/
def ParamLine.voiceVolumeValue : ParamLine α → Option α
  | .voice_volume v => some v
  | _ => none

/-- The value of a line whose key is `autotune_strength`. -/
def ParamLine.autotuneStrengthValue : ParamLine α → Option α
  | .autotune_strength v => some v
  | _ => none

/-- The value of a line whose key is `pitch_shift`. -/
def ParamLine.pitchShiftValue : ParamLine α → Option α
  | .pitch_shift v => some v
  | _ => none

/-- The value of a line whose key is `instrument_volume`. -/
def ParamLine.instrumentVolumeValue : ParamLine α → Option α
  | .instrument_volume v => some v
  | _ => none

/-- Reject-and-retain for one parameter over a whole file: the value of the last line that
names the parameter (`sel` gives the value of such a line) with a value in `[lo, hi]`, and
the previous value `prev` when the file has no such line. -/
def retainedValue (sel : ParamLine α → Option α) (lo hi prev : α)
    (lines : List (ParamLine α)) : α :=
  (((lines.filterMap sel).filter (fun v => decide (lo ≤ v ∧ v ≤ hi))).getLast?).getD prev

/-! ## Auxiliary lemmas: loops over a frame -/

theorem collect_map_some {β : Type} (l : List β) : collect (l.map some) = some l := by
  induction l with
  | nil => rfl
  | cons a t ih => simp [collect, ih]

theorem collect_eq_some_iff {β : Type} (l : List (Option β)) (r : List β) :
    collect l = some r ↔ l = r.map some := by
  induction l generalizing r with
  | nil => cases r <;> simp [collect]
  | cons a t ih =>
    cases a with
    | none => cases r <;> simp [collect]
    | some a =>
      cases r with
      | nil => simp [collect]
      | cons b r =>
        simp only [collect, Option.map_eq_some', List.map_cons, List.cons.injEq,
          Option.some.injEq]
        constructor
        · rintro ⟨r1, h1, h2, h3⟩
          exact ⟨h2, by rw [← h3]; exact (ih r1).1 h1⟩
        · rintro ⟨h1, h2⟩
          exact ⟨r, (ih r).2 h2, h1, rfl⟩

theorem collect_eq_none_of_mem {β : Type} (l : List (Option β)) (h : none ∈ l) :
    collect l = none := by
  cases hc : collect l with
  | none => rfl
  | some r =>
    rw [collect_eq_some_iff] at hc
    rw [hc] at h
    simp at h

theorem collect_map_range {β : Type} (n : Nat) (f : Nat → Option β) (g : Nat → β)
    (h : ∀ i, i < n → f i = some (g i)) :
    collect ((List.range n).map f) = some ((List.range n).map g) := by
  rw [collect_eq_some_iff, List.map_map]
  apply List.map_congr_left
  intro i hi
  exact h i (List.mem_range.1 hi)

theorem collect_map_range_getElem? {β : Type} (n : Nat) (f : Nat → Option β) (r : List β)
    (h : collect ((List.range n).map f) = some r) :
    r.length = n ∧ ∀ i, i < n → f i = r[i]? := by
  rw [collect_eq_some_iff] at h
  have hl : r.length = n := by
    have := congrArg List.length h
    simpa using this.symm
  refine ⟨hl, fun i hi => ?_⟩
  have := congrArg (fun l => l[i]?) h
  simp only [List.getElem?_map, List.getElem?_range hi, Option.map_some'] at this
  cases hr : r[i]? with
  | none => simp [hr] at this
  | some v => simpa [hr] using this

theorem readAt_natCast {β : Type} (buf : List β) (i : Nat) :
    readAt buf (i : Int) = buf[i]? := by
  simp [readAt]

theorem map_range_getElem? {β : Type} (l : List β) :
    (List.range l.length).map (fun i => l[i]?) = l.map some := by
  apply List.ext_getElem?
  intro i
  by_cases hi : i < l.length
  · simp [List.getElem?_range hi, List.getElem?_eq_getElem hi, hi]
  · have h1 : l.length ≤ i := Nat.le_of_not_lt hi
    simp [List.getElem?_eq_none, h1]

/-- Copying a whole buffer of `FRAMES_PER_BUFFER` samples reads every sample once. -/
theorem collect_copy {β : Type} (buf : List β) (hlen : buf.length = FRAMES_PER_BUFFER) :
    collect ((List.range FRAMES_PER_BUFFER).map (fun (i : Nat) => readAt buf (i : Int))) = some buf := by
  simp only [readAt_natCast]
  rw [← hlen, map_range_getElem?, collect_map_some]

theorem truncate_natCast (i : Nat) : truncate ((i : α)) = (i : Int) := by
  simp [truncate]

theorem floatToInt_natCast (i : Nat) (hi : i < FRAMES_PER_BUFFER) :
    floatToInt ((i : α)) = some (i : Int) := by
  unfold FRAMES_PER_BUFFER at hi
  simp only [floatToInt, truncate_natCast, checkInt, INT_MIN, INT_MAX]
  rw [if_pos]
  constructor <;> omega

/-! ## Float rounding -/

theorem two_zpow_pos (e : Int) : (0 : α) < 2 ^ e := zpow_pos (by norm_num) e

theorem roundHalfEven_intCast (n : Int) : roundHalfEven ((n : α)) = n := by
  unfold roundHalfEven
  rw [Int.floor_intCast, sub_self, if_pos (by norm_num)]

theorem roundHalfEven_nonneg (y : α) (hy : 0 ≤ y) : 0 ≤ roundHalfEven y := by
  have hf : 0 ≤ ⌊y⌋ := Int.floor_nonneg.2 hy
  unfold roundHalfEven
  split_ifs <;> omega

theorem roundHalfEven_le (y : α) : (roundHalfEven y : α) ≤ y + 1 := by
  have hf : (⌊y⌋ : α) ≤ y := Int.floor_le y
  unfold roundHalfEven
  split_ifs <;> push_cast <;> linarith

/-- The binade exponent of a value with `2^e ≤ |x| < 2^(e+1)`. -/
theorem log_abs_eq (x : α) (e : Int) (h1 : 2 ^ e ≤ |x|) (h2 : |x| < 2 ^ (e + 1)) :
    Int.log 2 |x| = e := by
  have hpos : 0 < |x| := lt_of_lt_of_le (two_zpow_pos e) h1
  have ha : e ≤ Int.log 2 |x| := by
    rw [← Int.zpow_le_iff_le_log (by norm_num) hpos]
    exact_mod_cast h1
  have hb : Int.log 2 |x| < e + 1 := by
    rw [← Int.lt_zpow_iff_log_lt (by norm_num) hpos]
    exact_mod_cast h2
  omega

theorem toFloat_zero : toFloat (0 : α) = 0 := by
  unfold toFloat
  rw [zero_div]
  have : roundHalfEven (0 : α) = 0 := by
    have := roundHalfEven_intCast (α := α) 0
    simpa using this
  rw [this]
  simp

theorem toFloat_nonneg (x : α) (hx : 0 ≤ x) : 0 ≤ toFloat x := by
  unfold toFloat
  apply mul_nonneg _ (le_of_lt (two_zpow_pos _))
  have := roundHalfEven_nonneg (x / 2 ^ (floatExponent x - 23))
    (div_nonneg hx (le_of_lt (two_zpow_pos _)))
  exact_mod_cast this

/-- The spacing of the `float` values around `x ≥ 0` is at most `x + 1`. -/
theorem floatSpacing_le (x : α) (hx : 0 ≤ x) : (2 : α) ^ (floatExponent x - 23) ≤ x + 1 := by
  unfold floatExponent
  rcases le_total (Int.log 2 |x|) (-126) with h | h
  · rw [max_eq_right h]
    have : (2 : α) ^ ((-126 : Int) - 23) ≤ 1 := zpow_le_one_of_nonpos₀ (by norm_num) (by norm_num)
    linarith
  · rw [max_eq_left h]
    rcases eq_or_lt_of_le hx with h0 | h0
    · rw [← h0, abs_zero, Int.log_zero_right]
      have : (2 : α) ^ ((0 : Int) - 23) ≤ 1 := zpow_le_one_of_nonpos₀ (by norm_num) (by norm_num)
      linarith
    · have hax : |x| = x := abs_of_pos h0
      have h1 : (2 : α) ^ (Int.log 2 |x| - 23) ≤ 2 ^ Int.log 2 |x| :=
        zpow_le_zpow_right₀ (by norm_num) (by omega)
      have h2 : ((2 : Nat) : α) ^ Int.log 2 |x| ≤ |x| :=
        Int.zpow_log_le_self (by norm_num) (by rw [hax]; exact h0)
      have h3 : (2 : α) ^ Int.log 2 |x| ≤ |x| := by exact_mod_cast h2
      rw [hax] at h3 h1 ⊢
      linarith

/-- A rounded non-negative value is at most twice the value plus one. -/
theorem toFloat_le (x : α) (hx : 0 ≤ x) : toFloat x ≤ 2 * x + 1 := by
  have hq := two_zpow_pos (α := α) (floatExponent x - 23)
  have h1 := roundHalfEven_le (x / 2 ^ (floatExponent x - 23))
  have h2 := floatSpacing_le x hx
  unfold toFloat
  calc (roundHalfEven (x / 2 ^ (floatExponent x - 23)) : α) * 2 ^ (floatExponent x - 23)
      ≤ (x / 2 ^ (floatExponent x - 23) + 1) * 2 ^ (floatExponent x - 23) :=
        mul_le_mul_of_nonneg_right h1 (le_of_lt hq)
    _ = x + 2 ^ (floatExponent x - 23) := by
        rw [add_mul, div_mul_cancel₀ _ (ne_of_gt hq), one_mul]
    _ ≤ 2 * x + 1 := by linarith

/-- A value with `2^e ≤ |x| < 2^(e+1)`, `e ≥ -126`, is rounded on the grid of spacing
`2^(e-23)`. -/
theorem toFloat_of_binade (x : α) (e n : Int) (he : -126 ≤ e) (h1 : 2 ^ e ≤ |x|)
    (h2 : |x| < 2 ^ (e + 1)) (hr : roundHalfEven (x / 2 ^ (e - 23)) = n) :
    toFloat x = (n : α) * 2 ^ (e - 23) := by
  unfold toFloat floatExponent
  rw [log_abs_eq x e h1 h2, max_eq_left he, hr]

/-- A value `k * 2^j` with `|k| < 2^24` and `j ≥ -149` is a `float`: rounding leaves it
unchanged. -/
theorem toFloat_representable (k j : Int) (hk : |k| < 16777216) (hj : -149 ≤ j) :
    toFloat ((k : α) * 2 ^ j) = (k : α) * 2 ^ j := by
  rcases eq_or_ne k 0 with rfl | hk0
  · simp [toFloat_zero]
  have hkabs : (1 : α) ≤ |(k : α)| := by
    have : (1 : Int) ≤ |k| := Int.one_le_abs hk0
    exact_mod_cast this
  have hkabs2 : |(k : α)| < 16777216 := by exact_mod_cast hk
  have habs : |(k : α) * 2 ^ j| = |(k : α)| * 2 ^ j := by
    rw [abs_mul, abs_of_pos (two_zpow_pos (α := α) j)]
  have hpos : 0 < |(k : α) * 2 ^ j| := by
    rw [habs]
    exact mul_pos (lt_of_lt_of_le zero_lt_one hkabs) (two_zpow_pos j)
  have hL1 : Int.log 2 |(k : α) * 2 ^ j| < j + 24 := by
    rw [← Int.lt_zpow_iff_log_lt (by norm_num) hpos, habs]
    have h24 : ((2 : Nat) : α) ^ (j + 24) = 16777216 * 2 ^ j := by
      rw [Nat.cast_ofNat, zpow_add₀ (by norm_num)]
      norm_num
      ring
    rw [h24]
    exact mul_lt_mul_of_pos_right hkabs2 (two_zpow_pos j)
  have hE : floatExponent ((k : α) * 2 ^ j) - 23 ≤ j := by
    unfold floatExponent
    rcases le_total (Int.log 2 |(k : α) * 2 ^ j|) (-126) with h | h
    · rw [max_eq_right h]; omega
    · rw [max_eq_left h]; omega
  obtain ⟨d, hd⟩ : ∃ d : Nat, j = (floatExponent ((k : α) * 2 ^ j) - 23) + d :=
    ⟨(j - (floatExponent ((k : α) * 2 ^ j) - 23)).toNat, by omega⟩
  have hquot : (k : α) * 2 ^ j / 2 ^ (floatExponent ((k : α) * 2 ^ j) - 23) =
      ((k * 2 ^ d : Int) : α) := by
    have hq := two_zpow_pos (α := α) (floatExponent ((k : α) * 2 ^ j) - 23)
    rw [div_eq_iff (ne_of_gt hq)]
    push_cast
    conv_lhs => rw [hd]
    rw [zpow_add₀ (by norm_num), zpow_natCast]
    ring
  unfold toFloat
  rw [hquot, roundHalfEven_intCast]
  push_cast
  have hq := two_zpow_pos (α := α) (floatExponent ((k : α) * 2 ^ j) - 23)
  conv_rhs => rw [hd]
  rw [zpow_add₀ (by norm_num), zpow_natCast]
  ring

theorem toFloat_natCast (n : Nat) (hn : n < 16777216) : toFloat ((n : α)) = n := by
  have h := toFloat_representable (α := α) (n : Int) 0 (by
    rw [abs_of_nonneg (Int.ofNat_nonneg n)]
    exact_mod_cast hn) (by norm_num)
  simpa using h

theorem toFloat_one : toFloat (1 : α) = 1 := by
  have := toFloat_natCast (α := α) 1 (by norm_num)
  simpa using this


theorem toFloat_eq_self (x : α) (k j : Int) (hx : x = (k : α) * 2 ^ j) (hk : |k| < 16777216)
    (hj : -149 ≤ j) : toFloat x = x := by
  rw [hx]
  exact toFloat_representable k j hk hj

/-- A value given as `k * 2^j` with `|k| < 2^24` and `j ≥ -149` is not changed by
rounding, whatever expression denotes it. -/
theorem toFloat_eq (x y : α) (k j : Int) (hx : x = (k : α) * 2 ^ j) (hy : y = (k : α) * 2 ^ j)
    (hk : |k| < 16777216) (hj : -149 ≤ j) : toFloat x = y := by
  rw [hy, hx]
  exact toFloat_representable k j hk hj

/-- A value in the lower half of the interval between `n` and `n + 1` is rounded to `n`. -/
theorem roundHalfEven_of_lt (y : α) (n : Int) (h1 : (n : α) ≤ y) (h2 : y < n + 1 / 2) :
    roundHalfEven y = n := by
  have hf : ⌊y⌋ = n := by
    rw [Int.floor_eq_iff]
    exact ⟨h1, by linarith⟩
  unfold roundHalfEven
  rw [hf, if_pos (by linarith)]

/-! ## Pitch correction -/

/-- C1. Pass-through identity: when the stored estimate has confidence at most 0.5, or a
frequency at most 0, or the target pitch is at most 0, the corrected voice frame
(`processed_audio` before noise suppression) is the input frame, sample for sample. -/
theorem passthrough_identity (m : CMath α) (data : AudioData α) (inBuf : List α)
    (target_pitch : α) (hlen : inBuf.length = FRAMES_PER_BUFFER)
    (h : data.last_confidence ≤ 0.5 ∨ data.last_pitch ≤ 0 ∨ target_pitch ≤ 0) :
    correctVoice m data inBuf target_pitch = some inBuf := by
  have hgate : correctionApplies data target_pitch = false := by
    simp only [correctionApplies, decide_eq_false_iff_not, not_and, not_lt, gt_iff_lt]
    intro h1 h2
    rcases h with h | h | h
    · exact absurd h1 (not_lt.2 h)
    · exact absurd h2 (not_lt.2 h)
    · exact h
  simp only [correctVoice, hgate, Bool.false_eq_true, if_false]
  exact collect_copy inBuf hlen

/-- C1, at the first frame of a session: nothing has been detected yet, the stored
confidence is 0 and the silent input frame is passed through. -/
theorem passthrough_identity_witness :
    (List.replicate 256 (0 : ℝ)).length = FRAMES_PER_BUFFER ∧
    ((initialAudioData [] [] : AudioData ℝ).last_confidence ≤ 0.5 ∨
      (initialAudioData [] [] : AudioData ℝ).last_pitch ≤ 0 ∨ (0 : ℝ) ≤ 0) ∧
    correctVoice (CMath.mk Real.sqrt Real.exp (fun x y => x ^ y) Real.sin Real.pi)
      (initialAudioData [] []) (List.replicate 256 (0 : ℝ)) 0 =
      some (List.replicate 256 (0 : ℝ)) :=
  ⟨by simp only [List.length_replicate, FRAMES_PER_BUFFER], Or.inr (Or.inr le_rfl),
    passthrough_identity _ _ _ _ (by simp only [List.length_replicate, FRAMES_PER_BUFFER])
      (Or.inr (Or.inr le_rfl))⟩

theorem collect_map_exists {β γ : Type} (l : List γ) (f : γ → Option β)
    (h : ∀ x, x ∈ l → ∃ v, f x = some v) : ∃ r, collect (l.map f) = some r := by
  induction l with
  | nil => exact ⟨[], rfl⟩
  | cons a t ih =>
    obtain ⟨v, hv⟩ := h a (List.mem_cons_self a t)
    obtain ⟨r, hr⟩ := ih (fun x hx => h x (List.mem_cons_of_mem a hx))
    exact ⟨v :: r, by simp [collect, hv, hr]⟩

/-- With ratio 1 the resampling loop reads sample `i` at iteration `i`. -/
theorem resampleSample_one (inBuf : List α) (i : Nat) (hi : i < FRAMES_PER_BUFFER) :
    resampleSample inBuf 1 i = inBuf[i]? := by
  have hlt : (i : Int) < (FRAMES_PER_BUFFER : Int) := by exact_mod_cast hi
  have hfl : toFloat ((i : α)) = i :=
    toFloat_natCast i (by unfold FRAMES_PER_BUFFER at hi; omega)
  simp only [resampleSample, shiftedIdx, mul_one, hfl, floatToInt_natCast i hi, hlt, if_true,
    readAt_natCast]

/-- The truncated index of a non-negative product that fits in an `int`. -/
theorem floatToInt_of_nonneg (x : α) (h0 : 0 ≤ x) (h1 : x < 2147483648) :
    floatToInt x = some (truncate x) ∧ 0 ≤ truncate x := by
  have ht : truncate x = ⌊x⌋ := by simp [truncate, h0]
  have hf0 : 0 ≤ ⌊x⌋ := Int.floor_nonneg.2 h0
  have hf1 : ⌊x⌋ < 2147483648 := by
    rw [Int.floor_lt]
    exact_mod_cast h1
  refine ⟨?_, ht ▸ hf0⟩
  simp only [floatToInt, checkInt, INT_MIN, INT_MAX, ht]
  rw [if_pos]
  constructor <;> omega

/-- One iteration of the resampling loop for a non-negative ratio: the index is the
truncated `float` product, read from the frame when it is below the frame size. -/
theorem resampleSample_of_nonneg (inBuf : List α) (r : α) (i : Nat)
    (hr0 : 0 ≤ r) (hr1 : toFloat ((i : α) * r) < 2147483648) :
    resampleSample inBuf r i =
      if truncate (toFloat ((i : α) * r)) < (FRAMES_PER_BUFFER : Int) then
        inBuf[(truncate (toFloat ((i : α) * r))).toNat]?
      else some 0 := by
  have h0 : 0 ≤ toFloat ((i : α) * r) :=
    toFloat_nonneg _ (mul_nonneg (Nat.cast_nonneg i) hr0)
  obtain ⟨hf, hnn⟩ := floatToInt_of_nonneg _ h0 hr1
  simp only [resampleSample, shiftedIdx, hf, readAt, hnn, if_true]

/-- The `float` products of the resampling loop stay in the `int` range when the exact
product of 255 and the ratio is below `2 ^ 30 - 1`. -/
theorem floatProduct_lt (r : α) (i : Nat) (hi : i < FRAMES_PER_BUFFER) (hr0 : 0 ≤ r)
    (hr1 : 255 * r < 1073741823) : toFloat ((i : α) * r) < 2147483648 := by
  have hi255 : (i : α) ≤ 255 := by
    unfold FRAMES_PER_BUFFER at hi
    have : i ≤ 255 := by omega
    exact_mod_cast this
  have h0 : 0 ≤ (i : α) * r := mul_nonneg (Nat.cast_nonneg i) hr0
  have h1 : (i : α) * r ≤ 255 * r := mul_le_mul_of_nonneg_right hi255 hr0
  have h2 := toFloat_le ((i : α) * r) h0
  linarith

/-- The resampling loop of the autotune branch for a non-negative ratio that keeps every
index inside the `int` range faults nowhere. -/
theorem correctVoice_total_of_nonneg (m : CMath α) (data : AudioData α) (inBuf : List α)
    (target_pitch : α) (hlen : inBuf.length = FRAMES_PER_BUFFER)
    (hgate : correctionApplies data target_pitch = true)
    (hr0 : 0 ≤ shiftRatio m data target_pitch)
    (hr1 : ∀ i, i < FRAMES_PER_BUFFER →
      toFloat ((i : α) * shiftRatio m data target_pitch) < 2147483648) :
    ∃ out, correctVoice m data inBuf target_pitch = some out ∧
      out.length = FRAMES_PER_BUFFER ∧
      ∀ i, i < FRAMES_PER_BUFFER →
        out[i]? = resampleSample inBuf (shiftRatio m data target_pitch) i := by
  have hsome : ∀ i, i ∈ List.range FRAMES_PER_BUFFER →
      ∃ v, resampleSample inBuf (shiftRatio m data target_pitch) i = some v := by
    intro i hi
    have hi1 := List.mem_range.1 hi
    rw [resampleSample_of_nonneg inBuf _ i hr0 (hr1 i hi1)]
    split_ifs with hlt
    · have h0 : 0 ≤ toFloat ((i : α) * shiftRatio m data target_pitch) :=
        toFloat_nonneg _ (mul_nonneg (Nat.cast_nonneg i) hr0)
      have hnn := (floatToInt_of_nonneg _ h0 (hr1 i hi1)).2
      have hb : (truncate (toFloat ((i : α) * shiftRatio m data target_pitch))).toNat <
          inBuf.length := by
        rw [hlen]
        omega
      exact ⟨_, List.getElem?_eq_getElem hb⟩
    · exact ⟨0, rfl⟩
  obtain ⟨out, hout⟩ := collect_map_exists _ _ hsome
  have hget := collect_map_range_getElem? _ _ _ hout
  refine ⟨out, ?_, hget.1, ?_⟩
  · simp only [correctVoice, hgate, if_true, hout]
  · intro i hi
    rw [← hget.2 i hi]

/-- A faulting iteration makes the autotune branch fault. -/
theorem correctVoice_eq_none (m : CMath α) (data : AudioData α) (inBuf : List α)
    (target_pitch : α) (i : Nat) (hgate : correctionApplies data target_pitch = true)
    (hi : i < FRAMES_PER_BUFFER)
    (hnone : resampleSample inBuf (shiftRatio m data target_pitch) i = none) :
    correctVoice m data inBuf target_pitch = none := by
  simp only [correctVoice, hgate, if_true]
  apply collect_eq_none_of_mem
  rw [List.mem_map]
  exact ⟨i, List.mem_range.2 hi, hnone⟩

/-- The ratio without pitch shift when the intermediate results after the division are
`float` values: with `b` the rounded quotient of target and detected pitch and `s` the
autotune strength it is `1 + (b - 1) * s`. -/
theorem shiftRatio_of_exact (m : CMath α) (data : AudioData α) (target_pitch p s b : α)
    (hpow : m.pow 2 0 = 1) (hshift : data.pitch_shift_amount = 0)
    (hp : data.last_pitch = p) (hs : data.autotune_strength = s)
    (hb : toFloat (target_pitch / p) = b)
    (h1 : toFloat (b - 1) = b - 1)
    (h2 : toFloat ((b - 1) * s) = (b - 1) * s)
    (h3 : toFloat (1 + (b - 1) * s) = 1 + (b - 1) * s) :
    shiftRatio m data target_pitch = 1 + (b - 1) * s := by
  simp only [shiftRatio, hshift, hp, hs, zero_div, toFloat_zero, hpow, toFloat_one, mul_one,
    hb, h1, h2, h3]

/-- C7. Ratio-1 identity: when the acceptance test passes, the pitch shift is 0 semitones
and either the autotune strength is 0 or the target equals the detected pitch, the final
resample ratio is exactly 1 and the corrected frame is the input frame.  The library
fact used is `pow(2, 0) = 1`. -/
theorem ratio_one_identity (m : CMath α) (data : AudioData α) (inBuf : List α)
    (target_pitch : α) (hpow : m.pow 2 0 = 1) (hlen : inBuf.length = FRAMES_PER_BUFFER)
    (hgate : data.last_confidence > 0.5 ∧ data.last_pitch > 0 ∧ target_pitch > 0)
    (hshift : data.pitch_shift_amount = 0)
    (h : data.autotune_strength = 0 ∨ target_pitch = data.last_pitch) :
    shiftRatio m data target_pitch = 1 ∧
      correctVoice m data inBuf target_pitch = some inBuf := by
  have hratio : shiftRatio m data target_pitch = 1 := by
    simp only [shiftRatio, hshift, zero_div, toFloat_zero, hpow, toFloat_one, mul_one]
    rcases h with h | h
    · rw [h, mul_zero, toFloat_zero, add_zero, toFloat_one, toFloat_one]
    · rw [h, div_self (ne_of_gt hgate.2.1), toFloat_one, sub_self, toFloat_zero, zero_mul,
        toFloat_zero, add_zero, toFloat_one, toFloat_one]
  refine ⟨hratio, ?_⟩
  have hg : correctionApplies data target_pitch = true := by
    simp only [correctionApplies, decide_eq_true_eq]
    exact hgate
  simp only [correctVoice, hg, if_true, hratio]
  rw [collect_eq_some_iff, ← map_range_getElem?, hlen]
  apply List.map_congr_left
  intro i hi
  exact resampleSample_one inBuf i (List.mem_range.1 hi)

/-- C7, with detected pitch and target both at 440 Hz and full autotune strength. -/
theorem ratio_one_identity_witness :
    shiftRatio (CMath.mk Real.sqrt Real.exp (fun x y => x ^ y) Real.sin Real.pi)
        { (initialAudioData [] [] : AudioData ℝ) with last_pitch := 440, last_confidence := 0.9 }
        440 = 1 ∧
      correctVoice (CMath.mk Real.sqrt Real.exp (fun x y => x ^ y) Real.sin Real.pi)
        { (initialAudioData [] [] : AudioData ℝ) with last_pitch := 440, last_confidence := 0.9 }
        (List.replicate 256 (0 : ℝ)) 440 = some (List.replicate 256 (0 : ℝ)) :=
  ratio_one_identity _ _ _ _ (Real.rpow_zero 2)
    (by simp only [List.length_replicate, FRAMES_PER_BUFFER])
    (by norm_num) (by simp [initialAudioData]) (Or.inr rfl)

/-- C8 (amended). Resampling rule: when correction applies with a final ratio `r ≥ 0`
whose `float` products `i * r` stay below `2 ^ 31`, the loop faults nowhere and for every
sample index `i` the corrected sample is `input[trunc(fl(i * r))]`, where `fl(i * r)` is
the product as the `float` multiplication rounds it and `trunc` is truncation toward zero
(not rounding to the nearest integer), if that index is below the frame size, and 0
otherwise. -/
theorem resampling_rule (m : CMath α) (data : AudioData α) (inBuf : List α)
    (target_pitch : α) (hlen : inBuf.length = FRAMES_PER_BUFFER)
    (hgate : correctionApplies data target_pitch = true)
    (hr0 : 0 ≤ shiftRatio m data target_pitch)
    (hr1 : ∀ i, i < FRAMES_PER_BUFFER →
      toFloat ((i : α) * shiftRatio m data target_pitch) < 2147483648) :
    ∃ out, correctVoice m data inBuf target_pitch = some out ∧
      out.length = FRAMES_PER_BUFFER ∧
      ∀ i, i < FRAMES_PER_BUFFER →
        out[i]? =
          if truncate (toFloat ((i : α) * shiftRatio m data target_pitch)) <
              (FRAMES_PER_BUFFER : Int)
          then inBuf[(truncate (toFloat ((i : α) * shiftRatio m data target_pitch))).toNat]?
          else some 0 := by
  obtain ⟨out, hout, hl, hsample⟩ :=
    correctVoice_total_of_nonneg m data inBuf target_pitch hlen hgate hr0 hr1
  refine ⟨out, hout, hl, ?_⟩
  intro i hi
  rw [hsample i hi]
  exact resampleSample_of_nonneg inBuf _ i hr0 (hr1 i hi)

/-- The ratio of the example: detected 400 Hz, target 700 Hz, full strength, no shift.
Every intermediate result is a `float` value, so no operation rounds. -/
theorem shiftRatio_example :
    shiftRatio (CMath.mk Real.sqrt Real.exp (fun x y => x ^ y) Real.sin Real.pi)
      { (initialAudioData [] [] : AudioData ℝ) with last_pitch := 400, last_confidence := 0.9 }
      700 = 7 / 4 := by
  have hb : toFloat (700 / 400 : ℝ) = 7 / 4 :=
    toFloat_eq _ _ 7 (-2) (by norm_num) (by norm_num) (by decide) (by decide)
  have h1 : toFloat (7 / 4 - 1 : ℝ) = 7 / 4 - 1 :=
    toFloat_eq_self _ 3 (-2) (by norm_num) (by decide) (by decide)
  have h2 : toFloat ((7 / 4 - 1) * 1 : ℝ) = (7 / 4 - 1) * 1 :=
    toFloat_eq_self _ 3 (-2) (by norm_num) (by decide) (by decide)
  have h3 : toFloat (1 + (7 / 4 - 1) * 1 : ℝ) = 1 + (7 / 4 - 1) * 1 :=
    toFloat_eq_self _ 7 (-2) (by norm_num) (by decide) (by decide)
  rw [shiftRatio_of_exact _ _ _ 400 1 (7 / 4 : ℝ) (Real.rpow_zero 2) rfl rfl rfl hb h1 h2 h3]
  norm_num

theorem correctionApplies_example :
    correctionApplies
      { (initialAudioData [] [] : AudioData ℝ) with last_pitch := 400, last_confidence := 0.9 }
      700 = true := by
  simp only [correctionApplies, decide_eq_true_eq]
  norm_num

theorem ramp_length : ((List.range 256).map (fun (i : Nat) => (i : ℝ))).length =
    FRAMES_PER_BUFFER := by
  simp only [List.length_map, List.length_range, FRAMES_PER_BUFFER]

/-- C8, on a ramp frame (`input[i] = i`) with ratio 7/4. -/
theorem resampling_rule_witness :
    (0 : ℝ) ≤ shiftRatio (CMath.mk Real.sqrt Real.exp (fun x y => x ^ y) Real.sin Real.pi)
        { (initialAudioData [] [] : AudioData ℝ) with last_pitch := 400, last_confidence := 0.9 }
        700 ∧
    (∀ i, i < FRAMES_PER_BUFFER →
      toFloat ((i : ℝ) * shiftRatio (CMath.mk Real.sqrt Real.exp (fun x y => x ^ y) Real.sin Real.pi)
        { (initialAudioData [] [] : AudioData ℝ) with last_pitch := 400, last_confidence := 0.9 }
        700) < 2147483648) ∧
    ∃ out,
      correctVoice (CMath.mk Real.sqrt Real.exp (fun x y => x ^ y) Real.sin Real.pi)
        { (initialAudioData [] [] : AudioData ℝ) with last_pitch := 400, last_confidence := 0.9 }
        ((List.range 256).map (fun (i : Nat) => (i : ℝ))) 700 = some out ∧
      out.length = FRAMES_PER_BUFFER ∧
      ∀ i, i < FRAMES_PER_BUFFER →
        out[i]? =
          if truncate (toFloat ((i : ℝ) * shiftRatio
              (CMath.mk Real.sqrt Real.exp (fun x y => x ^ y) Real.sin Real.pi)
              { (initialAudioData [] [] : AudioData ℝ) with
                last_pitch := 400, last_confidence := 0.9 } 700)) < (FRAMES_PER_BUFFER : Int)
          then ((List.range 256).map (fun (i : Nat) => (i : ℝ)))[(truncate (toFloat ((i : ℝ) *
            shiftRatio
              (CMath.mk Real.sqrt Real.exp (fun x y => x ^ y) Real.sin Real.pi)
              { (initialAudioData [] [] : AudioData ℝ) with
                last_pitch := 400, last_confidence := 0.9 } 700))).toNat]?
          else some 0 :=
  ⟨by rw [shiftRatio_example]; norm_num,
    fun i hi => floatProduct_lt _ i hi (by rw [shiftRatio_example]; norm_num)
      (by rw [shiftRatio_example]; norm_num),
    resampling_rule _ _ _ _ ramp_length correctionApplies_example
      (by rw [shiftRatio_example]; norm_num)
      (fun i hi => floatProduct_lt _ i hi (by rw [shiftRatio_example]; norm_num)
        (by rw [shiftRatio_example]; norm_num))⟩

/-- C8 as stated fails: on the ramp frame with ratio 7/4 the corrected sample 1 is
`input[1] = 1` (the product 1.75 is truncated), while rounding to nearest would select
`input[2] = 2`. -/
theorem resampling_round_counterexample :
    ∃ out,
      correctVoice (CMath.mk Real.sqrt Real.exp (fun x y => x ^ y) Real.sin Real.pi)
        { (initialAudioData [] [] : AudioData ℝ) with last_pitch := 400, last_confidence := 0.9 }
        ((List.range 256).map (fun (i : Nat) => (i : ℝ))) 700 = some out ∧
      out[1]? = some 1 ∧
      round ((1 : ℝ) * shiftRatio
        (CMath.mk Real.sqrt Real.exp (fun x y => x ^ y) Real.sin Real.pi)
        { (initialAudioData [] [] : AudioData ℝ) with last_pitch := 400, last_confidence := 0.9 }
        700) = 2 ∧
      ((List.range 256).map (fun (i : Nat) => (i : ℝ)))[2]? = some 2 ∧
      out[1]? ≠ ((List.range 256).map (fun (i : Nat) => (i : ℝ)))[2]? := by
  obtain ⟨out, h1, _, h3⟩ := correctVoice_total_of_nonneg
    (CMath.mk Real.sqrt Real.exp (fun x y => x ^ y) Real.sin Real.pi)
    { (initialAudioData [] [] : AudioData ℝ) with last_pitch := 400, last_confidence := 0.9 }
    ((List.range 256).map (fun (i : Nat) => (i : ℝ))) 700 ramp_length correctionApplies_example
    (by rw [shiftRatio_example]; norm_num)
    (fun i hi => floatProduct_lt _ i hi (by rw [shiftRatio_example]; norm_num)
      (by rw [shiftRatio_example]; norm_num))
  have hfl : toFloat (((1 : Nat) : ℝ) * (7 / 4)) = 7 / 4 :=
    toFloat_eq _ _ 7 (-2) (by norm_num) (by norm_num) (by decide) (by decide)
  have htr : truncate (7 / 4 : ℝ) = 1 := by
    norm_num [truncate, Int.floor_eq_iff]
  have hout : out[1]? = some 1 := by
    have := h3 1 (by decide)
    rw [shiftRatio_example, resampleSample_of_nonneg _ _ 1 (by norm_num)
      (by rw [hfl]; norm_num), hfl, htr] at this
    rw [this]
    simp [FRAMES_PER_BUFFER]
  have hbuf : ((List.range 256).map (fun (i : Nat) => (i : ℝ)))[2]? = some 2 := by
    simp
  refine ⟨out, h1, hout, ?_, hbuf, ?_⟩
  · rw [shiftRatio_example]
    norm_num [round_eq, Int.floor_eq_iff]
  · rw [hout, hbuf]
    norm_num

/-- The ratio for a detected pitch of 60 Hz and a target of 63 Hz, full strength, no
shift: the quotient 1.05 is not a `float` value and is rounded down to
`4404019 / 4194304`. -/
theorem shiftRatio_rounded_example :
    shiftRatio (CMath.mk Real.sqrt Real.exp (fun x y => x ^ y) Real.sin Real.pi)
      { (initialAudioData [] [] : AudioData ℝ) with last_pitch := 60, last_confidence := 0.9 }
      63 = 4404019 / 4194304 := by
  have hq : toFloat (63 / 60 : ℝ) = 4404019 / 4194304 := by
    rw [toFloat_of_binade (63 / 60 : ℝ) 0 8808038 (by decide)
      (by rw [abs_of_pos] <;> norm_num) (by rw [abs_of_pos] <;> norm_num)
      (roundHalfEven_of_lt _ _ (by norm_num) (by norm_num))]
    norm_num
  have h1 : toFloat (4404019 / 4194304 - 1 : ℝ) = 4404019 / 4194304 - 1 :=
    toFloat_eq_self _ 209715 (-22) (by norm_num) (by decide) (by decide)
  have h2 : toFloat ((4404019 / 4194304 - 1) * 1 : ℝ) = (4404019 / 4194304 - 1) * 1 :=
    toFloat_eq_self _ 209715 (-22) (by norm_num) (by decide) (by decide)
  have h3 : toFloat (1 + (4404019 / 4194304 - 1) * 1 : ℝ) =
      1 + (4404019 / 4194304 - 1) * 1 :=
    toFloat_eq_self _ 4404019 (-22) (by norm_num) (by decide) (by decide)
  rw [shiftRatio_of_exact _ _ _ 60 1 (4404019 / 4194304 : ℝ) (Real.rpow_zero 2) rfl rfl rfl
    hq h1 h2 h3]
  norm_num

/-- The rounding of the ratio is visible in the output: with a detected pitch of 60 Hz
and a target of 63 Hz the exact product `60 * (63 / 60)` is 63, but the `float` ratio is
just below 1.05, the `float` product is just below 63, and on the ramp frame the
corrected sample 60 is `input[62]`. -/
theorem resampling_float_example :
    truncate ((60 : ℝ) * (63 / 60)) = 63 ∧
    ∃ out,
      correctVoice (CMath.mk Real.sqrt Real.exp (fun x y => x ^ y) Real.sin Real.pi)
        { (initialAudioData [] [] : AudioData ℝ) with last_pitch := 60, last_confidence := 0.9 }
        ((List.range 256).map (fun (i : Nat) => (i : ℝ))) 63 = some out ∧
      out[60]? = some 62 := by
  have hexact : truncate ((60 : ℝ) * (63 / 60)) = 63 := by
    have h0 : (60 : ℝ) * (63 / 60) = ((63 : Int) : ℝ) := by norm_num
    rw [h0]
    simp [truncate]
  have hgate : correctionApplies
      { (initialAudioData [] [] : AudioData ℝ) with last_pitch := 60, last_confidence := 0.9 }
      63 = true := by
    simp only [correctionApplies, decide_eq_true_eq]
    norm_num
  obtain ⟨out, h1, _, h3⟩ := correctVoice_total_of_nonneg
    (CMath.mk Real.sqrt Real.exp (fun x y => x ^ y) Real.sin Real.pi)
    { (initialAudioData [] [] : AudioData ℝ) with last_pitch := 60, last_confidence := 0.9 }
    ((List.range 256).map (fun (i : Nat) => (i : ℝ))) 63 ramp_length hgate
    (by rw [shiftRatio_rounded_example]; norm_num)
    (fun i hi => floatProduct_lt _ i hi (by rw [shiftRatio_rounded_example]; norm_num)
      (by rw [shiftRatio_rounded_example]; norm_num))
  have hfl : toFloat (((60 : Nat) : ℝ) * (4404019 / 4194304)) = 16515071 / 262144 := by
    rw [toFloat_of_binade (((60 : Nat) : ℝ) * (4404019 / 4194304)) 5 16515071 (by decide)
      (by rw [abs_of_pos] <;> norm_num) (by rw [abs_of_pos] <;> norm_num)
      (roundHalfEven_of_lt _ _ (by norm_num) (by norm_num))]
    norm_num
  have htr : truncate (16515071 / 262144 : ℝ) = 62 := by
    have h0 : (0 : ℝ) ≤ 16515071 / 262144 := by norm_num
    simp only [truncate, h0, if_true]
    rw [Int.floor_eq_iff]
    constructor <;> norm_num
  refine ⟨hexact, out, h1, ?_⟩
  have := h3 60 (by decide)
  rw [shiftRatio_rounded_example, resampleSample_of_nonneg _ _ 60 (by norm_num)
    (by rw [hfl]; norm_num), hfl, htr] at this
  rw [this]
  simp [FRAMES_PER_BUFFER]

/-- With detected pitch 440 Hz, target 110 Hz, autotune strength 2 and no pitch shift the
final ratio is -1/2, and the autotune branch faults at iteration 2. -/
theorem correctVoice_negative_ratio (data : AudioData ℝ) (inBuf : List ℝ)
    (hc : data.last_confidence = 0.9) (hp : data.last_pitch = 440)
    (hs : data.autotune_strength = 2) (hshift : data.pitch_shift_amount = 0) :
    shiftRatio (CMath.mk Real.sqrt Real.exp (fun x y => x ^ y) Real.sin Real.pi) data 110 =
        -1 / 2 ∧
      shiftedIdx (-1 / 2 : ℝ) 2 = some (-1) ∧
      resampleSample inBuf (-1 / 2 : ℝ) 2 = none ∧
      correctVoice (CMath.mk Real.sqrt Real.exp (fun x y => x ^ y) Real.sin Real.pi)
        data inBuf 110 = none := by
  have hratio : shiftRatio (CMath.mk Real.sqrt Real.exp (fun x y => x ^ y) Real.sin Real.pi)
      data 110 = -1 / 2 := by
    have hb : toFloat (110 / 440 : ℝ) = 1 / 4 :=
      toFloat_eq _ _ 1 (-2) (by norm_num) (by norm_num) (by decide) (by decide)
    have h1 : toFloat (1 / 4 - 1 : ℝ) = 1 / 4 - 1 :=
      toFloat_eq_self _ (-3) (-2) (by norm_num) (by decide) (by decide)
    have h2 : toFloat ((1 / 4 - 1) * 2 : ℝ) = (1 / 4 - 1) * 2 :=
      toFloat_eq_self _ (-3) (-1) (by norm_num) (by decide) (by decide)
    have h3 : toFloat (1 + (1 / 4 - 1) * 2 : ℝ) = 1 + (1 / 4 - 1) * 2 :=
      toFloat_eq_self _ (-1) (-1) (by norm_num) (by decide) (by decide)
    rw [shiftRatio_of_exact _ _ _ 440 2 (1 / 4 : ℝ) (Real.rpow_zero 2) hshift hp hs hb h1 h2
      h3]
    norm_num
  have hidx : shiftedIdx (-1 / 2 : ℝ) 2 = some (-1) := by
    have h1 : toFloat (((2 : Nat) : ℝ) * (-1 / 2)) = -1 :=
      (toFloat_eq_self _ (-1) 0 (by norm_num) (by decide) (by decide)).trans (by norm_num)
    have h2 : truncate (-1 : ℝ) = -1 := by
      have : ¬ (0 : ℝ) ≤ -1 := by norm_num
      simp only [truncate, this, if_false]
      exact_mod_cast Int.ceil_intCast (-1 : Int)
    simp only [shiftedIdx, h1, floatToInt, h2, checkInt, INT_MIN, INT_MAX]
    decide
  have hread : resampleSample inBuf (-1 / 2 : ℝ) 2 = none := by
    simp only [resampleSample, hidx, readAt, FRAMES_PER_BUFFER]
    norm_num
  refine ⟨hratio, hidx, hread, ?_⟩
  apply correctVoice_eq_none _ _ _ _ 2
  · simp only [correctionApplies, hc, hp, decide_eq_true_eq]
    norm_num
  · decide
  · rw [hratio]
    exact hread

/-- A fault of the pitch-correction block is a fault of the callback. -/
theorem audioCallback_correctVoice_none (m : CMath α) (data : AudioData α)
    (inp : CallbackInput α)
    (h : correctVoice m (frameSetup data inp).1 inp.inputBuffer
      (lookupTargetPitch (frameSetup data inp).1.melody_map
        (frameSetup data inp).1.current_time) = none) :
    audioCallback m data inp = none := by
  simp only [audioCallback, h]
  split
  · rfl
  · split <;> rfl

/-- C9 fails on the code. The parameter file sets `autotune_strength=2` (accepted, as it is
in [0, 2]); the detector reports 440 Hz with confidence 0.9 and the melody target is
110 Hz.  The final ratio is -1/2, iteration 2 of the resampling loop computes
`shifted_idx = -1`, which passes the only test `shifted_idx < FRAMES_PER_BUFFER`, and the
callback reads `in[-1]`, outside the input frame. -/
theorem negative_ratio_reads_outside_frame :
    (checkParameterUpdates (initialAudioData [] [((0 : ℝ), (110 : ℝ))]) 1
        (some [ParamLine.autotune_strength 2])).autotune_strength = 2 ∧
      shiftedIdx (-1 / 2 : ℝ) 2 = some (-1) ∧
      resampleSample (List.replicate 256 (0 : ℝ)) (-1 / 2 : ℝ) 2 = none ∧
      audioCallback (CMath.mk Real.sqrt Real.exp (fun x y => x ^ y) Real.sin Real.pi)
        (initialAudioData [] [((0 : ℝ), (110 : ℝ))])
        { inputBuffer := List.replicate 256 0, now := 1,
          paramFile := some [ParamLine.autotune_strength 2],
          pitch := 440, confidence := 0.9 } = none := by
  have hparam : checkParameterUpdates (initialAudioData [] [((0 : ℝ), (110 : ℝ))]) 1
      (some [ParamLine.autotune_strength 2]) =
      { (initialAudioData [] [((0 : ℝ), (110 : ℝ))]) with
        last_check := 1, autotune_strength := 2 } := by
    simp only [checkParameterUpdates, checkParameterUpdatesExit, initialAudioData, paramLoop,
      applyParamLine]
    norm_num
  have hsetup : (frameSetup (initialAudioData [] [((0 : ℝ), (110 : ℝ))])
      { inputBuffer := List.replicate 256 0, now := 1,
        paramFile := some [ParamLine.autotune_strength 2],
        pitch := 440, confidence := 0.9 }).1 =
      { (initialAudioData [] [((0 : ℝ), (110 : ℝ))]) with
        last_check := 1, autotune_strength := 2,
        instrumental_pos := (instrumentalLoop ([] : List ℝ) FRAMES_PER_BUFFER 0).2,
        last_pitch := 440, last_confidence := 0.9 } := by
    simp only [frameSetup, hparam, updatePitchEstimate]
    norm_num
    simp only [initialAudioData]
  have hbad := correctVoice_negative_ratio
    { (initialAudioData [] [((0 : ℝ), (110 : ℝ))]) with
      last_check := 1, autotune_strength := 2,
      instrumental_pos := (instrumentalLoop ([] : List ℝ) FRAMES_PER_BUFFER 0).2,
      last_pitch := 440, last_confidence := 0.9 }
    (List.replicate 256 (0 : ℝ)) rfl rfl rfl rfl
  refine ⟨by rw [hparam], hbad.2.1, hbad.2.2.1, ?_⟩
  have htarget : lookupTargetPitch [((0 : ℝ), (110 : ℝ))] 0 = 110 := by
    simp only [lookupTargetPitch, List.foldl, melodyStep, sub_zero, abs_zero]
    norm_num
  apply audioCallback_correctVoice_none
  simp only [hsetup]
  simp only [initialAudioData, htarget] at hbad ⊢
  rw [hbad.2.2.2]

/-! ## Noise suppressor -/

namespace SimpleNoiseSuppressor

theorem clamp_bounds (v lo hi : α) (h : lo ≤ hi) : lo ≤ clamp v lo hi ∧ clamp v lo hi ≤ hi := by
  unfold clamp
  split_ifs with h1 h2
  · exact ⟨le_rfl, h⟩
  · exact ⟨h, le_rfl⟩
  · exact ⟨not_lt.1 h1, not_lt.1 h2⟩

theorem noise_bounds_le : (MIN_NOISE_LEVEL : α) ≤ MAX_NOISE_LEVEL := by
  unfold MIN_NOISE_LEVEL MAX_NOISE_LEVEL
  norm_num

/-- The effect of `estimateNoiseLevel` when it returns. -/
theorem estimateNoiseLevel_eq_some (m : CMath α) (s s1 : Karaoke.SimpleNoiseSuppressor α)
    (samples : List α) (numSamples : Int) (level : α)
    (h : estimateNoiseLevel m s samples numSamples = some (s1, level)) :
    ∃ medianNoise,
      (((s.m_noiseHistory ++ [frameRms m samples numSamples]).tail.insertionSort
        (fun a b => a ≤ b))[((s.m_noiseHistory ++ [frameRms m samples numSamples]).tail.insertionSort
        (fun a b => a ≤ b)).length / 2]?) = some medianNoise ∧
      level = clamp (0.95 * s.m_noiseLevel + 0.05 * medianNoise)
        MIN_NOISE_LEVEL MAX_NOISE_LEVEL ∧
      s1 = { s with
        m_noiseHistory := (s.m_noiseHistory ++ [frameRms m samples numSamples]).tail
        m_noiseLevel := level } := by
  simp only [estimateNoiseLevel] at h
  split at h
  · exact absurd h (by simp)
  · rename_i medianNoise hmed
    simp only [Option.some.injEq, Prod.mk.injEq] at h
    exact ⟨medianNoise, hmed, h.2.symm, by rw [← h.1, h.2]⟩

/-- The history after the push and pop of `estimateNoiseLevel`. -/
theorem history_length (h : List α) (rms : α) : (h ++ [rms]).tail.length = h.length := by
  simp

/-- The median read of `estimateNoiseLevel` is inside the sorted copy when the history is
not empty. -/
theorem median_exists (h : List α) (rms : α) (hne : 0 < h.length) :
    ∃ medianNoise,
      (((h ++ [rms]).tail.insertionSort (fun a b => a ≤ b))[((h ++ [rms]).tail.insertionSort
        (fun a b => a ≤ b)).length / 2]?) = some medianNoise := by
  have hl : ((h ++ [rms]).tail.insertionSort (fun a b => a ≤ b)).length = h.length := by
    rw [List.length_insertionSort, history_length]
  have hidx : ((h ++ [rms]).tail.insertionSort (fun a b => a ≤ b)).length / 2 <
      ((h ++ [rms]).tail.insertionSort (fun a b => a ≤ b)).length := by
    rw [hl]
    omega
  exact ⟨_, List.getElem?_eq_getElem hidx⟩

/-- The effect of the level update of `processAudio` when it returns. -/
theorem updateLevels_eq_some (m : CMath α) (s s6 : Karaoke.SimpleNoiseSuppressor α)
    (samples : List α) (numSamples : Int)
    (h : updateLevels m s samples numSamples = some s6) :
    ∃ medianNoise,
      (((s.m_noiseHistory ++ [frameRms m samples numSamples]).tail.insertionSort
        (fun a b => a ≤ b))[((s.m_noiseHistory ++ [frameRms m samples numSamples]).tail.insertionSort
        (fun a b => a ≤ b)).length / 2]?) = some medianNoise ∧
      s6 = { s with
        m_noiseHistory := (s.m_noiseHistory ++ [frameRms m samples numSamples]).tail
        m_noiseLevel := clamp (0.95 * s.m_noiseLevel + 0.05 * medianNoise)
          MIN_NOISE_LEVEL MAX_NOISE_LEVEL
        m_signalLevel := 0.9 * s.m_signalLevel + 0.1 * frameRms m samples numSamples
        m_vadProbability := calculateVADProbability m
          (0.9 * s.m_signalLevel + 0.1 * frameRms m samples numSamples)
          (clamp (0.95 * s.m_noiseLevel + 0.05 * medianNoise) MIN_NOISE_LEVEL MAX_NOISE_LEVEL)
        m_voiceActive := decide (calculateVADProbability m
          (0.9 * s.m_signalLevel + 0.1 * frameRms m samples numSamples)
          (clamp (0.95 * s.m_noiseLevel + 0.05 * medianNoise) MIN_NOISE_LEVEL MAX_NOISE_LEVEL)
          > s.m_vadThreshold) } := by
  simp only [updateLevels] at h
  split at h
  · exact absurd h (by simp)
  · rename_i s1 noiseLevel hest
    obtain ⟨med, hmed, hlevel, hs1⟩ := estimateNoiseLevel_eq_some m s s1 samples numSamples _ hest
    refine ⟨med, hmed, ?_⟩
    simp only [Option.some.injEq] at h
    rw [← h, hs1, hlevel]
    simp only [estimateSignalLevel]

/-- The level update returns whenever the history is not empty. -/
theorem updateLevels_total (m : CMath α) (s : Karaoke.SimpleNoiseSuppressor α)
    (samples : List α) (numSamples : Int) (hne : 0 < s.m_noiseHistory.length) :
    ∃ s6, updateLevels m s samples numSamples = some s6 := by
  obtain ⟨med, hmed⟩ := median_exists s.m_noiseHistory (frameRms m samples numSamples) hne
  simp only [updateLevels, estimateNoiseLevel, hmed]
  exact ⟨_, rfl⟩

/-- The grace-period block when the voice flag is set. -/
theorem handleGracePeriod_active (s : Karaoke.SimpleNoiseSuppressor α) (numSamples : Int)
    (h : s.m_voiceActive = true) :
    handleGracePeriod s numSamples =
      some { s with m_graceCounter := s.m_gracePeriod, m_inGracePeriod := true } := by
  simp only [handleGracePeriod, h, if_true]

/-- The grace-period block outside voice activity and outside the grace period. -/
theorem handleGracePeriod_silent (s : Karaoke.SimpleNoiseSuppressor α) (numSamples : Int)
    (h : s.m_voiceActive = false) (hg : s.m_inGracePeriod = false) :
    handleGracePeriod s numSamples = some s := by
  simp [handleGracePeriod, h, hg]

/-- The grace-period block during the grace period: the counter loses the integer
quotient `(numSamples * 1000) / m_sampleRate` and the period ends when it reaches 0
or less. -/
theorem handleGracePeriod_grace (s : Karaoke.SimpleNoiseSuppressor α) (numSamples : Int)
    (h : s.m_voiceActive = false) (hg : s.m_inGracePeriod = true) (hn : 0 < numSamples)
    (hn1 : numSamples * 1000 ≤ INT_MAX) (hsr : 0 < s.m_sampleRate)
    (hc0 : 0 ≤ s.m_graceCounter) (hc1 : s.m_graceCounter ≤ INT_MAX) :
    handleGracePeriod s numSamples =
      some { s with
        m_graceCounter := s.m_graceCounter - (numSamples * 1000).tdiv s.m_sampleRate
        m_inGracePeriod :=
          decide (0 < s.m_graceCounter - (numSamples * 1000).tdiv s.m_sampleRate) } := by
  unfold INT_MAX at hn1 hc1
  have hprod : checkInt (numSamples * 1000) = some (numSamples * 1000) := by
    simp only [checkInt, INT_MIN, INT_MAX]
    rw [if_pos]
    constructor <;> omega
  have hd0 : 0 ≤ (numSamples * 1000).tdiv s.m_sampleRate :=
    Int.tdiv_nonneg (by omega) (le_of_lt hsr)
  have hd1 : (numSamples * 1000).tdiv s.m_sampleRate ≤ numSamples * 1000 := by
    rw [Int.tdiv_eq_ediv (by omega : 0 ≤ numSamples * 1000) (le_of_lt hsr)]
    exact Int.ediv_le_self _ (by omega)
  have hsub : checkInt (s.m_graceCounter - (numSamples * 1000).tdiv s.m_sampleRate) =
      some (s.m_graceCounter - (numSamples * 1000).tdiv s.m_sampleRate) := by
    simp only [checkInt, INT_MIN, INT_MAX]
    rw [if_pos]
    constructor <;> omega
  have hsr0 : s.m_sampleRate ≠ 0 := ne_of_gt hsr
  simp only [handleGracePeriod, h, hg, hprod, hsub, hsr0, Bool.false_eq_true, if_false,
    if_true]
  by_cases hpos : s.m_graceCounter - (numSamples * 1000).tdiv s.m_sampleRate ≤ 0
  · simp [hpos, not_lt.2 hpos]
  · simp [hpos, not_le.1 hpos]

/-- The grace-period block changes no field but the counter and the grace flag. -/
theorem handleGracePeriod_eq_some (s s7 : Karaoke.SimpleNoiseSuppressor α) (numSamples : Int)
    (h : handleGracePeriod s numSamples = some s7) :
    ∃ c g, s7 = { s with m_graceCounter := c, m_inGracePeriod := g } := by
  unfold handleGracePeriod at h
  by_cases hv : s.m_voiceActive = true
  · rw [if_pos hv] at h
    exact ⟨_, _, (Option.some.inj h).symm⟩
  · rw [if_neg hv] at h
    by_cases hg : s.m_inGracePeriod = true
    · rw [if_pos hg] at h
      cases hc : checkInt (numSamples * 1000) with
      | none =>
        rw [hc] at h
        simp at h
      | some ms =>
        rw [hc] at h
        simp only at h
        by_cases hz : s.m_sampleRate = 0
        · rw [if_pos hz] at h
          simp at h
        · rw [if_neg hz] at h
          cases hc2 : checkInt (s.m_graceCounter - ms.tdiv s.m_sampleRate) with
          | none =>
            rw [hc2] at h
            simp at h
          | some c =>
            rw [hc2] at h
            exact ⟨_, _, (Option.some.inj h).symm⟩
    · rw [if_neg hg] at h
      exact ⟨s.m_graceCounter, s.m_inGracePeriod, (Option.some.inj h).symm⟩

/-- The gate and reduction blocks change no field of the state but `prevSample`. -/
theorem gateAndReduce_fst (m : CMath α) (s : Karaoke.SimpleNoiseSuppressor α)
    (samples : List α) :
    ∃ p, (gateAndReduce m s samples).1 = { s with prevSample := p } := by
  unfold gateAndReduce applySpectralNoiseReduction
  split_ifs <;> exact ⟨_, rfl⟩

theorem highPassLoop_length (alpha : α) (prev : α) (samples : List α) :
    (highPassLoop alpha prev samples).1.length = samples.length := by
  induction samples generalizing prev with
  | nil => rfl
  | cons x xs ih => simp [highPassLoop, ih]

/-- The gate and reduction blocks keep the number of samples. -/
theorem gateAndReduce_length (m : CMath α) (s : Karaoke.SimpleNoiseSuppressor α)
    (samples : List α) : (gateAndReduce m s samples).2.length = samples.length := by
  unfold gateAndReduce applySpectralNoiseReduction applyNoiseGate
  split_ifs <;> simp [highPassLoop_length]

/-- A returning `processAudio` call on a non-degenerate frame, by stages. -/
theorem processAudio_eq_some (m : CMath α) (s s1 : Karaoke.SimpleNoiseSuppressor α)
    (input output out : List α) (numSamples : Int) (hn : 0 < numSamples)
    (h : processAudio m s input output numSamples = some (s1, out)) :
    ∃ s6 s7, updateLevels m s (input.take numSamples.toNat) numSamples = some s6 ∧
      handleGracePeriod s6 numSamples = some s7 ∧
      s1 = (gateAndReduce m s7 (input.take numSamples.toNat)).1 ∧
      out = (gateAndReduce m s7 (input.take numSamples.toNat)).2 ++
        output.drop numSamples.toNat ∧
      numSamples.toNat ≤ input.length ∧ numSamples.toNat ≤ output.length := by
  simp only [processAudio, not_le.2 hn, if_false] at h
  split_ifs at h with hlen
  simp only [not_or, not_lt] at hlen
  split at h
  · exact absurd h (by simp)
  · rename_i s6 h6
    split at h
    · exact absurd h (by simp)
    · rename_i s7 h7
      simp only [Option.some.injEq, Prod.mk.injEq] at h
      exact ⟨s6, s7, h6, h7, h.1.symm, h.2.symm, hlen.1, hlen.2⟩

/-- Well-formedness is kept by the grace-period block, which then returns. -/
theorem handleGracePeriod_total (s : Karaoke.SimpleNoiseSuppressor α) (numSamples : Int)
    (hwf : WellFormed s) (hn : 0 < numSamples) (hn1 : numSamples * 1000 ≤ INT_MAX) :
    ∃ s7, handleGracePeriod s numSamples = some s7 ∧ WellFormed s7 ∧
      s7.m_voiceActive = s.m_voiceActive := by
  obtain ⟨hlen, hsr, hg0, hg1, hc⟩ := hwf
  cases hv : s.m_voiceActive with
  | true =>
    refine ⟨_, handleGracePeriod_active s numSamples hv, ⟨hlen, hsr, hg0, hg1, ?_⟩, hv⟩
    intro _
    exact ⟨hg0, hg1⟩
  | false =>
    cases hg : s.m_inGracePeriod with
    | false =>
      refine ⟨_, handleGracePeriod_silent s numSamples hv hg, ⟨hlen, hsr, hg0, hg1, ?_⟩, hv⟩
      intro h
      rw [hg] at h
      exact absurd h (by simp)
    | true =>
      obtain ⟨hc0, hc1⟩ := hc hg
      refine ⟨_, handleGracePeriod_grace s numSamples hv hg hn hn1 hsr hc0 hc1,
        ⟨hlen, hsr, hg0, hg1, ?_⟩, hv⟩
      intro h
      simp only [decide_eq_true_eq] at h
      have hd0 : 0 ≤ (numSamples * 1000).tdiv s.m_sampleRate :=
        Int.tdiv_nonneg (by omega) (le_of_lt hsr)
      constructor
      · exact le_of_lt h
      · show s.m_graceCounter - (numSamples * 1000).tdiv s.m_sampleRate ≤ INT_MAX
        omega

/-- On a well-formed state `processAudio` returns for every frame of `numSamples > 0`
samples inside both buffers (with `numSamples * 1000` an `int`), and the new state is
well-formed. -/
theorem processAudio_total (m : CMath α) (s : Karaoke.SimpleNoiseSuppressor α)
    (input output : List α) (numSamples : Int) (hwf : WellFormed s) (hn : 0 < numSamples)
    (hn1 : numSamples * 1000 ≤ INT_MAX) (hin : numSamples.toNat ≤ input.length)
    (hout : numSamples.toNat ≤ output.length) :
    ∃ s1 out, processAudio m s input output numSamples = some (s1, out) ∧ WellFormed s1 ∧
      out.length = output.length := by
  have hne : 0 < s.m_noiseHistory.length := by
    rw [hwf.1]
    decide
  obtain ⟨s6, h6⟩ := updateLevels_total m s (input.take numSamples.toNat) numSamples hne
  obtain ⟨med, _, hs6⟩ := updateLevels_eq_some m s s6 _ _ h6
  have hwf6 : WellFormed s6 := by
    obtain ⟨hlen, hsr, hg0, hg1, hc⟩ := hwf
    rw [hs6]
    exact ⟨by simpa using hlen, hsr, hg0, hg1, hc⟩
  obtain ⟨s7, h7, hwf7, _⟩ := handleGracePeriod_total s6 numSamples hwf6 hn hn1
  obtain ⟨p, hp⟩ := gateAndReduce_fst m s7 (input.take numSamples.toNat)
  refine ⟨(gateAndReduce m s7 (input.take numSamples.toNat)).1,
    (gateAndReduce m s7 (input.take numSamples.toNat)).2 ++ output.drop numSamples.toNat,
    ?_, ?_, ?_⟩
  · simp only [processAudio, not_le.2 hn, if_false, not_lt.2 hin, not_lt.2 hout, or_self, h6,
      h7]
  · rw [hp]
    exact hwf7
  · rw [List.length_append, gateAndReduce_length, List.length_take, List.length_drop]
    omega

/-- The noise level after a returning level update lies in the clamp range. -/
theorem updateLevels_noise_bounds (m : CMath α) (s s6 : Karaoke.SimpleNoiseSuppressor α)
    (samples : List α) (numSamples : Int)
    (h : updateLevels m s samples numSamples = some s6) :
    (0.001 : α) ≤ s6.m_noiseLevel ∧ s6.m_noiseLevel ≤ 0.5 := by
  obtain ⟨med, _, hs6⟩ := updateLevels_eq_some m s s6 samples numSamples h
  rw [hs6]
  exact clamp_bounds _ _ _ noise_bounds_le

/-- The noise level after a returning `processAudio` call on a non-degenerate frame. -/
theorem processAudio_noise_bounds (m : CMath α) (s s1 : Karaoke.SimpleNoiseSuppressor α)
    (input output out : List α) (numSamples : Int) (hn : 0 < numSamples)
    (h : processAudio m s input output numSamples = some (s1, out)) :
    (0.001 : α) ≤ s1.m_noiseLevel ∧ s1.m_noiseLevel ≤ 0.5 := by
  obtain ⟨s6, s7, h6, h7, hs1, _, _, _⟩ := processAudio_eq_some m s s1 input output out _ hn h
  have hb := updateLevels_noise_bounds m s s6 _ _ h6
  have h67 : s7.m_noiseLevel = s6.m_noiseLevel := by
    obtain ⟨c, g, hcg⟩ := handleGracePeriod_eq_some s6 s7 numSamples h7
    rw [hcg]
  obtain ⟨p, hp⟩ := gateAndReduce_fst m s7 (input.take numSamples.toNat)
  rw [hs1, hp]
  show (0.001 : α) ≤ s7.m_noiseLevel ∧ s7.m_noiseLevel ≤ 0.5
  rw [h67]
  exact hb

/-- The constructed suppressor is well-formed. -/
theorem wellFormed_constructor :
    WellFormed (SimpleNoiseSuppressor.SimpleNoiseSuppressor : Karaoke.SimpleNoiseSuppressor α) := by
  simp only [WellFormed, SimpleNoiseSuppressor.SimpleNoiseSuppressor, List.length_replicate,
    Bool.false_eq_true, false_implies, and_true]
  decide

/-- C5. Noise-level clamp invariant: `noise_level` lies in [0.001, 0.5] in the constructed
state, after `reset()`, and after every `processAudio` call on a frame of
`numSamples > 0` samples, whatever the state and the samples; and on every well-formed
state such a call does return. -/
theorem noise_level_clamp_invariant :
    ((0.001 : α) ≤
        (SimpleNoiseSuppressor.SimpleNoiseSuppressor : Karaoke.SimpleNoiseSuppressor α).m_noiseLevel ∧
      (SimpleNoiseSuppressor.SimpleNoiseSuppressor : Karaoke.SimpleNoiseSuppressor α).m_noiseLevel
        ≤ 0.5) ∧
    (∀ s : Karaoke.SimpleNoiseSuppressor α,
      (0.001 : α) ≤ (reset s).m_noiseLevel ∧ (reset s).m_noiseLevel ≤ 0.5) ∧
    (∀ (m : CMath α) (s s1 : Karaoke.SimpleNoiseSuppressor α) (input output out : List α)
      (numSamples : Int), 0 < numSamples →
      processAudio m s input output numSamples = some (s1, out) →
      (0.001 : α) ≤ s1.m_noiseLevel ∧ s1.m_noiseLevel ≤ 0.5) ∧
    (∀ (m : CMath α) (s : Karaoke.SimpleNoiseSuppressor α) (input output : List α)
      (numSamples : Int), WellFormed s → 0 < numSamples → numSamples * 1000 ≤ INT_MAX →
      numSamples.toNat ≤ input.length → numSamples.toNat ≤ output.length →
      ∃ s1 out, processAudio m s input output numSamples = some (s1, out) ∧
        (0.001 : α) ≤ s1.m_noiseLevel ∧ s1.m_noiseLevel ≤ 0.5) := by
  refine ⟨?_, ?_, ?_, ?_⟩
  · simp only [SimpleNoiseSuppressor.SimpleNoiseSuppressor]
    norm_num
  · intro s
    simp only [reset, MIN_NOISE_LEVEL]
    norm_num
  · intro m s s1 input output out numSamples hn h
    exact processAudio_noise_bounds m s s1 input output out numSamples hn h
  · intro m s input output numSamples hwf hn hn1 hin hout
    obtain ⟨s1, out, h, _, _⟩ := processAudio_total m s input output numSamples hwf hn hn1 hin hout
    exact ⟨s1, out, h, processAudio_noise_bounds m s s1 input output out numSamples hn h⟩

/-- C5 on the first frame after construction: a loud 256-sample frame is processed and
the noise level is still in range. -/
theorem noise_level_clamp_invariant_witness :
    ∃ s1 out,
      processAudio (CMath.mk Real.sqrt Real.exp (fun x y => x ^ y) Real.sin Real.pi)
        (SimpleNoiseSuppressor.SimpleNoiseSuppressor : Karaoke.SimpleNoiseSuppressor ℝ)
        (List.replicate 256 (1 : ℝ)) (List.replicate 256 (1 : ℝ)) 256 = some (s1, out) ∧
      (0.001 : ℝ) ≤ s1.m_noiseLevel ∧ s1.m_noiseLevel ≤ 0.5 :=
  noise_level_clamp_invariant.2.2.2 _ _ _ _ 256 wellFormed_constructor (by decide) (by decide)
    (by simp only [List.length_replicate]; decide) (by simp only [List.length_replicate]; decide)

/-! ### The gate -/

/-- The state fields the gate reads are those of the state before the call. -/
theorem processAudio_stages (m : CMath α) (s s1 : Karaoke.SimpleNoiseSuppressor α)
    (input output out : List α) (numSamples : Int) (hn : 0 < numSamples)
    (h : processAudio m s input output numSamples = some (s1, out)) :
    ∃ s7, s1.m_voiceActive = s7.m_voiceActive ∧ s1.m_inGracePeriod = s7.m_inGracePeriod ∧
      s7.m_noiseGateThreshold = s.m_noiseGateThreshold ∧
      s7.m_noiseReductionStrength = s.m_noiseReductionStrength ∧
      s7.m_sampleRate = s.m_sampleRate ∧ s7.prevSample = s.prevSample ∧
      out = (gateAndReduce m s7 (input.take numSamples.toNat)).2 ++
        output.drop numSamples.toNat := by
  obtain ⟨s6, s7, h6, h7, hs1, hout, _, _⟩ :=
    processAudio_eq_some m s s1 input output out _ hn h
  obtain ⟨med, _, hs6⟩ := updateLevels_eq_some m s s6 _ _ h6
  obtain ⟨c, g, hs7⟩ := handleGracePeriod_eq_some s6 s7 numSamples h7
  obtain ⟨p, hp⟩ := gateAndReduce_fst m s7 (input.take numSamples.toNat)
  refine ⟨s7, by rw [hs1, hp], by rw [hs1, hp], ?_, ?_, ?_, ?_, hout⟩ <;> rw [hs7, hs6]

/-- C10 (amended). Gate condition: on a frame of `numSamples > 0` samples with
`noise_reduction_strength > 0`, the hard noise gate is applied exactly when, after the
state update, `voice_active` and `in_grace_period` are both false, while the scaling
of the frame by `1 - noise_reduction_strength` is applied exactly when `voice_active`
is false, in the Silent and in the Grace state; in the Active state the frame
receives the high-pass filter only. -/
theorem gate_condition (m : CMath α) (s s1 : Karaoke.SimpleNoiseSuppressor α)
    (input output out : List α) (numSamples : Int) (hn : 0 < numSamples)
    (hstrength : 0 < s.m_noiseReductionStrength)
    (h : processAudio m s input output numSamples = some (s1, out)) :
    (s1.m_voiceActive = true →
      out = (highPassLoop (highPassAlpha m s.m_sampleRate) s.prevSample
          (input.take numSamples.toNat)).1 ++ output.drop numSamples.toNat) ∧
    (s1.m_voiceActive = false → s1.m_inGracePeriod = true →
      out = (highPassLoop (highPassAlpha m s.m_sampleRate) s.prevSample
          (input.take numSamples.toNat)).1.map
            (fun x => x * (1 - s.m_noiseReductionStrength)) ++
        output.drop numSamples.toNat) ∧
    (s1.m_voiceActive = false → s1.m_inGracePeriod = false →
      out = (highPassLoop (highPassAlpha m s.m_sampleRate) s.prevSample
          (applyNoiseGate s (input.take numSamples.toNat))).1.map
            (fun x => x * (1 - s.m_noiseReductionStrength)) ++
        output.drop numSamples.toNat) := by
  obtain ⟨s7, hv, hg, hthr, hstr, hsr, hprev, hout⟩ :=
    processAudio_stages m s s1 input output out numSamples hn h
  have hstr7 : s7.m_noiseReductionStrength > 0 := by rw [hstr]; exact hstrength
  have hgate : applyNoiseGate s7 (input.take numSamples.toNat) =
      applyNoiseGate s (input.take numSamples.toNat) := by
    simp only [applyNoiseGate, hthr]
  rw [hv, hg, hout]
  refine ⟨?_, ?_, ?_⟩
  · intro hva
    simp only [gateAndReduce, applySpectralNoiseReduction, hva, hstr7, hsr, hprev,
      Bool.not_true, Bool.false_and, Bool.false_eq_true, if_false, if_true]
  · intro hva hgr
    simp only [gateAndReduce, applySpectralNoiseReduction, hva, hgr, hsr, hprev, hstr,
      gt_iff_lt, hstrength, Bool.not_true, Bool.not_false, Bool.and_false, Bool.false_eq_true,
      if_false, if_true]
  · intro hva hgr
    simp only [gateAndReduce, applySpectralNoiseReduction, hva, hgr, hsr, hprev, hstr,
      gt_iff_lt, hstrength, hgate, Bool.not_false, Bool.and_self, if_true]

/-! ### The noise floor on a quiet history -/

/-- The median of a list of non-negative values more than half of which are 0 is 0. -/
theorem median_zero (l : List α) (hnn : ∀ x ∈ l, 0 ≤ x) (hcount : l.length / 2 < l.count 0) :
    (l.insertionSort (fun a b => a ≤ b))[(l.insertionSort (fun a b => a ≤ b)).length / 2]? =
      some 0 := by
  have hperm := List.perm_insertionSort (fun a b : α => a ≤ b) l
  have hsorted := List.sorted_insertionSort (fun a b : α => a ≤ b) l
  have hlen : (l.insertionSort (fun a b => a ≤ b)).length = l.length := hperm.length_eq
  generalize l.insertionSort (fun a b => a ≤ b) = srt at hperm hsorted hlen
  have hk : srt.length / 2 < srt.length := by
    have := List.count_le_length (0 : α) l
    rw [hlen]
    omega
  rw [List.getElem?_eq_getElem hk]
  by_contra hne
  have hx0 : 0 ≤ srt[srt.length / 2] := hnn _ (hperm.subset (List.getElem_mem hk))
  have hxpos : 0 < srt[srt.length / 2] := by
    rcases hx0.lt_or_eq with h | h
    · exact h
    · exact absurd (congrArg some h.symm) hne
  have hdrop : srt.drop (srt.length / 2) =
      srt[srt.length / 2] :: srt.drop (srt.length / 2 + 1) := List.drop_eq_getElem_cons hk
  have hsd : List.Pairwise (fun a b : α => a ≤ b) (srt.drop (srt.length / 2)) :=
    List.Pairwise.sublist (List.drop_sublist _ _) hsorted
  rw [hdrop, List.pairwise_cons] at hsd
  have hnotmem : (0 : α) ∉ srt.drop (srt.length / 2) := by
    rw [hdrop]
    intro hmem
    rcases List.mem_cons.1 hmem with h | h
    · exact absurd h (ne_of_lt hxpos)
    · exact absurd (hsd.1 0 h) (not_le.2 hxpos)
  have hc0 : (srt.drop (srt.length / 2)).count 0 = 0 := List.count_eq_zero.2 hnotmem
  have hc1 : (srt.take (srt.length / 2)).count 0 ≤ srt.length / 2 :=
    le_trans (List.count_le_length _ _) (by simp)
  have hsplit : srt.count 0 = (srt.take (srt.length / 2)).count 0 +
      (srt.drop (srt.length / 2)).count 0 := by
    rw [← List.count_append, List.take_append_drop]
  have hpc : srt.count 0 = l.count 0 := hperm.count_eq 0
  rw [hlen] at hc1 hsplit hc0
  omega

/-- Pushing a frame RMS and popping the oldest entry loses at most one zero. -/
theorem quietHistory_push (l : List α) (k : Nat) (rms : α) (h : QuietHistory l (k + 1))
    (hr : 0 ≤ rms) : QuietHistory (l ++ [rms]).tail k := by
  obtain ⟨hlen, hnn, hc⟩ := h
  refine ⟨by rw [history_length, hlen], ?_, ?_⟩
  · intro x hx
    rcases List.mem_append.1 (List.mem_of_mem_tail hx) with hx | hx
    · exact hnn x hx
    · rw [List.mem_singleton.1 hx]
      exact hr
  · cases l with
    | nil => simp at hc
    | cons a t =>
      simp only [List.cons_append, List.tail_cons, List.count_append]
      have := List.count_cons (a := (0 : α)) (b := a) (l := t)
      rw [this] at hc
      split_ifs at hc <;> omega

/-- Pushing the RMS 0 of a silent frame keeps the number of zeros. -/
theorem quietHistory_push_zero (l : List α) (k : Nat) (h : QuietHistory l k) :
    QuietHistory (l ++ [0]).tail k := by
  obtain ⟨hlen, hnn, hc⟩ := h
  refine ⟨by rw [history_length, hlen], ?_, ?_⟩
  · intro x hx
    rcases List.mem_append.1 (List.mem_of_mem_tail hx) with hx | hx
    · exact hnn x hx
    · rw [List.mem_singleton.1 hx]
  · cases l with
    | nil => simp [NOISE_HISTORY_SIZE] at hlen
    | cons a t =>
      simp only [List.cons_append, List.tail_cons, List.count_append, List.count_singleton_self]
      have := List.count_cons (a := (0 : α)) (b := a) (l := t)
      rw [this] at hc
      split_ifs at hc <;> omega

/-- While more than half of the updated history is 0 the level update finds the median
0, and a noise level at its minimum stays there. -/
theorem updateLevels_pinned (m : CMath α) (s : Karaoke.SimpleNoiseSuppressor α)
    (samples : List α) (numSamples : Int)
    (hq : QuietHistory (s.m_noiseHistory ++ [frameRms m samples numSamples]).tail 501)
    (hnoise : s.m_noiseLevel = 0.001) :
    updateLevels m s samples numSamples = some { s with
      m_noiseHistory := (s.m_noiseHistory ++ [frameRms m samples numSamples]).tail
      m_noiseLevel := 0.001
      m_signalLevel := 0.9 * s.m_signalLevel + 0.1 * frameRms m samples numSamples
      m_vadProbability := calculateVADProbability m
        (0.9 * s.m_signalLevel + 0.1 * frameRms m samples numSamples) 0.001
      m_voiceActive := decide (calculateVADProbability m
        (0.9 * s.m_signalLevel + 0.1 * frameRms m samples numSamples) 0.001
        > s.m_vadThreshold) } := by
  obtain ⟨hlen, hnn, hc⟩ := hq
  have hmed := median_zero _ hnn (by rw [hlen]; unfold NOISE_HISTORY_SIZE; omega)
  have hclamp : clamp (0.95 * (0.001 : α) + 0.05 * 0) MIN_NOISE_LEVEL MAX_NOISE_LEVEL =
      0.001 := by
    unfold clamp MIN_NOISE_LEVEL MAX_NOISE_LEVEL
    norm_num
  simp only [updateLevels, estimateNoiseLevel, hmed, estimateSignalLevel, hnoise, hclamp]

/-! ### The grace period -/

/-- One `processAudio` call on a well-formed state, as far as the grace period goes: the
configuration is kept, and the counter and the grace flag follow the new voice flag. -/
theorem processAudio_grace_step (m : CMath α) (s s1 : Karaoke.SimpleNoiseSuppressor α)
    (input output out : List α) (numSamples : Int) (hwf : WellFormed s) (hn : 0 < numSamples)
    (hn1 : numSamples * 1000 ≤ INT_MAX)
    (h : processAudio m s input output numSamples = some (s1, out)) :
    s1.m_sampleRate = s.m_sampleRate ∧ s1.m_gracePeriod = s.m_gracePeriod ∧ WellFormed s1 ∧
    (s1.m_voiceActive = true → s1.m_graceCounter = s.m_gracePeriod ∧ s1.m_inGracePeriod = true) ∧
    (s1.m_voiceActive = false → s.m_inGracePeriod = true →
      s1.m_graceCounter = s.m_graceCounter - (numSamples * 1000).tdiv s.m_sampleRate ∧
      s1.m_inGracePeriod =
        decide (0 < s.m_graceCounter - (numSamples * 1000).tdiv s.m_sampleRate)) ∧
    (s1.m_voiceActive = false → s.m_inGracePeriod = false → s1.m_inGracePeriod = false) := by
  obtain ⟨s6, s7, h6, h7, hs1, _, _, _⟩ := processAudio_eq_some m s s1 input output out _ hn h
  obtain ⟨med, _, hs6⟩ := updateLevels_eq_some m s s6 _ _ h6
  obtain ⟨p, hp⟩ := gateAndReduce_fst m s7 (input.take numSamples.toNat)
  have hwf6 : WellFormed s6 := by
    obtain ⟨hlen, hsr, hg0, hg1, hc⟩ := hwf
    rw [hs6]
    exact ⟨by simpa using hlen, hsr, hg0, hg1, hc⟩
  have h6sr : s6.m_sampleRate = s.m_sampleRate := by rw [hs6]
  have h6g : s6.m_gracePeriod = s.m_gracePeriod := by rw [hs6]
  have h6c : s6.m_graceCounter = s.m_graceCounter := by rw [hs6]
  have h6i : s6.m_inGracePeriod = s.m_inGracePeriod := by rw [hs6]
  obtain ⟨s7', h7', hwf7, hv7⟩ := handleGracePeriod_total s6 numSamples hwf6 hn hn1
  rw [h7] at h7'
  obtain rfl := Option.some.inj h7'
  obtain ⟨c, g, hcg⟩ := handleGracePeriod_eq_some s6 s7 numSamples h7
  have h1v : s1.m_voiceActive = s6.m_voiceActive := by rw [hs1, hp]; exact hv7
  have h1c : s1.m_graceCounter = s7.m_graceCounter := by rw [hs1, hp]
  have h1i : s1.m_inGracePeriod = s7.m_inGracePeriod := by rw [hs1, hp]
  refine ⟨?_, ?_, ?_, ?_, ?_, ?_⟩
  · rw [hs1, hp, ← h6sr, hcg]
  · rw [hs1, hp, ← h6g, hcg]
  · rw [hs1, hp]
    exact hwf7
  · intro hv
    rw [h1v] at hv
    have := handleGracePeriod_active s6 numSamples hv
    rw [h7] at this
    obtain rfl := Option.some.inj this
    exact ⟨by rw [h1c, ← h6g], by rw [h1i]⟩
  · intro hv hg
    rw [h1v] at hv
    rw [← h6i] at hg
    obtain ⟨hc0, hc1⟩ := hwf6.2.2.2.2 hg
    have := handleGracePeriod_grace s6 numSamples hv hg hn hn1 hwf6.2.1 hc0 hc1
    rw [h7] at this
    obtain rfl := Option.some.inj this
    rw [h1c, h1i, ← h6c, ← h6sr]
    exact ⟨rfl, rfl⟩
  · intro hv hg
    rw [h1v] at hv
    rw [← h6i] at hg
    have := handleGracePeriod_silent s6 numSamples hv hg
    rw [h7] at this
    obtain rfl := Option.some.inj this
    rw [h1i]
    exact hg

/-- On a well-formed state every run of frames is processed without fault, and the
configuration is kept. -/
theorem stateAfter_total (m : CMath α) (s : Karaoke.SimpleNoiseSuppressor α)
    (frames : Nat → List α) (numSamples : Int) (hwf : WellFormed s) (hn : 0 < numSamples)
    (hn1 : numSamples * 1000 ≤ INT_MAX) (hlen : ∀ i, numSamples.toNat ≤ (frames i).length)
    (i : Nat) :
    ∃ t, stateAfter m s frames numSamples i = some t ∧ WellFormed t ∧
      t.m_sampleRate = s.m_sampleRate ∧ t.m_gracePeriod = s.m_gracePeriod := by
  induction i with
  | zero => exact ⟨s, rfl, hwf, rfl, rfl⟩
  | succ i ih =>
    obtain ⟨t, ht, hwft, hsr, hg⟩ := ih
    obtain ⟨t1, out, hp, _, _⟩ := processAudio_total m t (frames i) (frames i) numSamples hwft hn
      hn1 (hlen i) (hlen i)
    obtain ⟨hsr1, hg1, hwf1, _⟩ := processAudio_grace_step m t t1 _ _ out numSamples hwft hn hn1 hp
    refine ⟨t1, ?_, hwf1, by rw [hsr1, hsr], by rw [hg1, hg]⟩
    simp only [stateAfter, ht, hp]

/-- One more frame of a run. -/
theorem stateAfter_succ (m : CMath α) (s t : Karaoke.SimpleNoiseSuppressor α)
    (frames : Nat → List α) (numSamples : Int) (i : Nat)
    (h : stateAfter m s frames numSamples i = some t) :
    stateAfter m s frames numSamples (i + 1) =
      (processAudio m t (frames i) (frames i) numSamples).map Prod.fst := by
  simp only [stateAfter, h]
  cases processAudio m t (frames i) (frames i) numSamples <;> rfl

/-- C6 (amended). Grace property, for every well-formed suppressor (sample rate > 0,
grace period >= 0) and frame length `numSamples > 0`: let `d` be the integer quotient
`(numSamples * 1000) / sampleRate`, the per-frame decrement the code uses.  If
`voice_active` is true after frame `k` and false after each of the frames
`k+1 .. k+j` (`j >= 1`), then after frame `k+j` `isVoiceActive()` is true exactly when
`j * d < grace_period_ms`.  So it stays true for every `m` with `m * d <
grace_period_ms` and, when `d >= 1`, it is false from the first `j` with
`j * d >= grace_period_ms` on.  Frames are numbered from 0; the state after frame `i`
is `stateAfter .. (i + 1)`. -/
theorem grace_property (m : CMath α) (s : Karaoke.SimpleNoiseSuppressor α)
    (frames : Nat → List α) (numSamples : Int) (k j : Nat) (hwf : WellFormed s)
    (hn : 0 < numSamples) (hn1 : numSamples * 1000 ≤ INT_MAX)
    (hlen : ∀ i, numSamples.toNat ≤ (frames i).length) (hj : 1 ≤ j)
    (hactive : ∀ t, stateAfter m s frames numSamples (k + 1) = some t → t.m_voiceActive = true)
    (hinactive : ∀ i t, k + 1 < i → i ≤ k + 1 + j →
      stateAfter m s frames numSamples i = some t → t.m_voiceActive = false) :
    ∃ t, stateAfter m s frames numSamples (k + 1 + j) = some t ∧
      t.isVoiceActive =
        decide ((j : Int) * (numSamples * 1000).tdiv s.m_sampleRate < s.m_gracePeriod) := by
  have hd0 : 0 ≤ (numSamples * 1000).tdiv s.m_sampleRate :=
    Int.tdiv_nonneg (by omega) (le_of_lt hwf.2.1)
  have key : ∀ j', j' ≤ j → ∃ t, stateAfter m s frames numSamples (k + 1 + j') = some t ∧
      (t.m_inGracePeriod = true →
        t.m_graceCounter = s.m_gracePeriod - (j' : Int) * (numSamples * 1000).tdiv s.m_sampleRate) ∧
      (j' = 0 → t.m_inGracePeriod = true) ∧
      (1 ≤ j' → t.m_voiceActive = false ∧ t.m_inGracePeriod =
        decide ((j' : Int) * (numSamples * 1000).tdiv s.m_sampleRate < s.m_gracePeriod)) := by
    intro j'
    induction j' with
    | zero =>
      intro _
      obtain ⟨t0, ht0, hwf0, _, hg0⟩ := stateAfter_total m s frames numSamples hwf hn hn1 hlen k
      obtain ⟨t1, ht1, _, _, _⟩ := stateAfter_total m s frames numSamples hwf hn hn1 hlen (k + 1)
      have hstep := stateAfter_succ m s t0 frames numSamples k ht0
      rw [ht1] at hstep
      cases hp : processAudio m t0 (frames k) (frames k) numSamples with
      | none => rw [hp] at hstep; simp at hstep
      | some r =>
        rw [hp] at hstep
        simp only [Option.map_some', Option.some.injEq] at hstep
        obtain ⟨_, _, _, hact, _, _⟩ := processAudio_grace_step m t0 r.1 _ _ r.2 numSamples hwf0
          hn hn1 hp
        rw [← hstep] at hact
        obtain ⟨hc, hi⟩ := hact (hactive t1 ht1)
        refine ⟨t1, ht1, ?_, fun _ => hi, ?_⟩
        · intro _
          rw [hc, hg0]
          simp
        · intro h
          omega
    | succ j' ih =>
      intro hle
      obtain ⟨t, ht, hcount, hzero, hpos⟩ := ih (by omega)
      obtain ⟨t', ht', hwft, hsrt, _⟩ :=
        stateAfter_total m s frames numSamples hwf hn hn1 hlen (k + 1 + j')
      rw [ht] at ht'
      obtain rfl := Option.some.inj ht'
      obtain ⟨t1, ht1, _, _, _⟩ :=
        stateAfter_total m s frames numSamples hwf hn hn1 hlen (k + 1 + (j' + 1))
      have hstep := stateAfter_succ m s t frames numSamples (k + 1 + j') ht
      rw [show k + 1 + j' + 1 = k + 1 + (j' + 1) from rfl, ht1] at hstep
      cases hp : processAudio m t (frames (k + 1 + j')) (frames (k + 1 + j')) numSamples with
      | none => rw [hp] at hstep; simp at hstep
      | some r =>
        rw [hp] at hstep
        simp only [Option.map_some', Option.some.injEq] at hstep
        obtain ⟨_, _, _, _, hgrace, hsilent⟩ := processAudio_grace_step m t r.1 _ _ r.2
          numSamples hwft hn hn1 hp
        rw [← hstep] at hgrace hsilent
        have hv1 : t1.m_voiceActive = false := hinactive _ t1 (by omega) (by omega) ht1
        have hcast : ((j' + 1 : Nat) : Int) * (numSamples * 1000).tdiv s.m_sampleRate =
            (j' : Int) * (numSamples * 1000).tdiv s.m_sampleRate +
              (numSamples * 1000).tdiv s.m_sampleRate := by
          push_cast
          ring
        cases hgt : t.m_inGracePeriod with
        | true =>
          obtain ⟨hc1, hi1⟩ := hgrace hv1 hgt
          rw [hsrt, hcount hgt] at hc1 hi1
          refine ⟨t1, ht1, ?_, fun h => by omega, fun _ => ⟨hv1, ?_⟩⟩
          · intro _
            rw [hc1, hcast]
            ring
          · rw [hi1, hcast]
            congr 1
            apply propext
            constructor <;> intro h <;> omega
        | false =>
          have hi1 := hsilent hv1 hgt
          have hj1 : 1 ≤ j' := by
            rcases Nat.eq_zero_or_pos j' with h0 | h0
            · rw [hzero h0] at hgt
              exact absurd hgt (by simp)
            · exact h0
          have hnot : ¬ ((j' : Int) * (numSamples * 1000).tdiv s.m_sampleRate <
              s.m_gracePeriod) := by
            have := (hpos hj1).2
            rw [hgt] at this
            exact of_decide_eq_false this.symm
          refine ⟨t1, ht1, ?_, fun h => by omega, fun _ => ⟨hv1, ?_⟩⟩
          · intro h
            rw [hi1] at h
            exact absurd h (by simp)
          · rw [hi1, hcast]
            symm
            apply decide_eq_false
            omega
  obtain ⟨t, ht, _, _, hpos⟩ := key j le_rfl
  refine ⟨t, ht, ?_⟩
  obtain ⟨hv, hi⟩ := hpos hj
  simp only [isVoiceActive, hv, hi, Bool.false_or]

/-! ### Runs over the reals -/

theorem quietHistory_mono (l : List α) (k k1 : Nat) (h : QuietHistory l k) (hk : k1 ≤ k) :
    QuietHistory l k1 :=
  ⟨h.1, h.2.1, le_trans hk h.2.2⟩

/-- A frame on a state whose noise level is at its minimum and whose updated history is
more than half zeros: the call returns, the noise level stays, and the voice flag is the
VAD test at noise level 0.001. -/
theorem processAudio_pinned (m : CMath α) (s : Karaoke.SimpleNoiseSuppressor α)
    (input output : List α) (numSamples : Int) (hwf : WellFormed s) (hn : 0 < numSamples)
    (hn1 : numSamples * 1000 ≤ INT_MAX) (hin : numSamples.toNat ≤ input.length)
    (hout : numSamples.toNat ≤ output.length)
    (hq : QuietHistory
      (s.m_noiseHistory ++ [frameRms m (input.take numSamples.toNat) numSamples]).tail 501)
    (hnoise : s.m_noiseLevel = 0.001) :
    ∃ s1 out, processAudio m s input output numSamples = some (s1, out) ∧
      s1.m_noiseLevel = 0.001 ∧
      s1.m_noiseHistory =
        (s.m_noiseHistory ++ [frameRms m (input.take numSamples.toNat) numSamples]).tail ∧
      s1.m_signalLevel =
        0.9 * s.m_signalLevel + 0.1 * frameRms m (input.take numSamples.toNat) numSamples ∧
      s1.m_vadThreshold = s.m_vadThreshold ∧
      s1.m_noiseReductionStrength = s.m_noiseReductionStrength ∧
      s1.m_voiceActive = decide (calculateVADProbability m
        (0.9 * s.m_signalLevel + 0.1 * frameRms m (input.take numSamples.toNat) numSamples)
        0.001 > s.m_vadThreshold) := by
  obtain ⟨s1, out, h, _, _⟩ := processAudio_total m s input output numSamples hwf hn hn1 hin hout
  obtain ⟨s6, s7, h6, h7, hs1, _, _, _⟩ := processAudio_eq_some m s s1 input output out _ hn h
  rw [updateLevels_pinned m s _ numSamples hq hnoise] at h6
  obtain ⟨c, g, hcg⟩ := handleGracePeriod_eq_some s6 s7 numSamples h7
  obtain ⟨p, hp⟩ := gateAndReduce_fst m s7 (input.take numSamples.toNat)
  have h6' := (Option.some.inj h6).symm
  refine ⟨s1, out, h, ?_, ?_, ?_, ?_, ?_, ?_⟩ <;> rw [hs1, hp, hcg, h6']

/-- The RMS of a one-sample frame with a non-negative sample is the sample. -/
theorem frameRms_single (m : CMath ℝ) (hs : m.sqrt = Real.sqrt) (x : ℝ) (hx : 0 ≤ x) :
    frameRms m [x] 1 = x := by
  simp [frameRms, sumSquares, hs, Real.sqrt_mul_self hx]

/-- With the real exponential, the VAD probability at noise level 0.001 is the sigmoid
itself: the final clamp to [0, 1] changes nothing. -/
theorem calculateVADProbability_real (m : CMath ℝ) (he : m.exp = Real.exp) (signal : ℝ) :
    calculateVADProbability m signal 0.001 =
      1 / (1 + Real.exp (-5 * (signal / 0.001 - 2))) := by
  have hpos := Real.exp_pos (-5 * (signal / 0.001 - 2))
  have h0 : ¬ (1 / (1 + Real.exp (-5 * (signal / 0.001 - 2))) < 0) :=
    not_lt.2 (le_of_lt (by positivity))
  have h1 : ¬ (1 < 1 / (1 + Real.exp (-5 * (signal / 0.001 - 2)))) := by
    rw [not_lt, div_le_iff₀ (by linarith)]
    linarith
  simp only [calculateVADProbability, MIN_NOISE_LEVEL, lt_irrefl, if_false, he, clamp, h0, h1]

/-- At signal level 0.002 and noise level 0.001 the VAD probability is 1/2. -/
theorem calculateVADProbability_at_two (m : CMath ℝ) (he : m.exp = Real.exp) :
    calculateVADProbability m 0.002 0.001 = 1 / 2 := by
  rw [calculateVADProbability_real m he]
  have : (-5 * ((0.002 : ℝ) / 0.001 - 2)) = 0 := by norm_num
  rw [this, Real.exp_zero]
  norm_num

/-- At signal level at most 0.001801 and noise level 0.001 the VAD probability is at
most 0.3. -/
theorem calculateVADProbability_low (m : CMath ℝ) (he : m.exp = Real.exp) (signal : ℝ)
    (h : signal ≤ 0.001801) : calculateVADProbability m signal 0.001 ≤ 0.3 := by
  rw [calculateVADProbability_real m he]
  have he0 : (0.995 : ℝ) ≤ -5 * (signal / 0.001 - 2) := by
    have : signal / 0.001 = 1000 * signal := by ring
    rw [this]
    linarith
  have h1 : Real.exp 0.995 ≤ Real.exp (-5 * (signal / 0.001 - 2)) := Real.exp_le_exp.2 he0
  have h2 : (2.49 : ℝ) ≤ Real.exp 0.995 :=
    le_trans (by norm_num) (Real.quadratic_le_exp_of_nonneg (x := 0.995) (by norm_num))
  have h3 : (3.49 : ℝ) ≤ 1 + Real.exp (-5 * (signal / 0.001 - 2)) := by linarith
  rw [div_le_iff₀ (by linarith)]
  linarith

/-- A constructed, initialised suppressor with a grace period that is an `int >= 0`. -/
theorem configured_eq (sampleRate gracePeriod : Int) (hg : 0 ≤ gracePeriod) :
    (configured sampleRate gracePeriod : Karaoke.SimpleNoiseSuppressor α) =
      { m_sampleRate := sampleRate
        m_noiseGateThreshold := 0.01
        m_vadThreshold := 0.3
        m_gracePeriod := gracePeriod
        m_noiseReductionStrength := 0.5
        m_noiseHistory := List.replicate NOISE_HISTORY_SIZE 0
        m_noiseLevel := 0.001
        m_signalLevel := 0
        m_vadProbability := 0
        m_voiceActive := false
        m_graceCounter := 0
        m_inGracePeriod := false
        m_spectrum := List.replicate 256 0
        prevSample := 0 } := by
  simp only [configured, setGracePeriod, init, reset, SimpleNoiseSuppressor.SimpleNoiseSuppressor,
    MIN_NOISE_LEVEL, List.map_replicate, max_eq_right hg]

theorem quietHistory_replicate :
    QuietHistory (List.replicate NOISE_HISTORY_SIZE (0 : α)) NOISE_HISTORY_SIZE := by
  refine ⟨List.length_replicate _ _, ?_, ?_⟩
  · intro x hx
    rw [List.eq_of_mem_replicate hx]
  · rw [List.count_replicate_self]

theorem wellFormed_configured (sampleRate gracePeriod : Int) (hsr : 0 < sampleRate)
    (hg0 : 0 ≤ gracePeriod) (hg1 : gracePeriod ≤ INT_MAX) :
    WellFormed (configured sampleRate gracePeriod : Karaoke.SimpleNoiseSuppressor α) := by
  rw [configured_eq sampleRate gracePeriod hg0]
  refine ⟨List.length_replicate _ _, hsr, hg0, hg1, ?_⟩
  intro h
  exact absurd h (by simp)

/-- One one-sample frame `[x]`, `x ≥ 0`, over the reals on a state with the noise level
at its minimum and at least 502 zeros in the history. -/
theorem processAudio_single (m : CMath ℝ) (hs : m.sqrt = Real.sqrt)
    (s : Karaoke.SimpleNoiseSuppressor ℝ) (x : ℝ) (hx : 0 ≤ x) (k : Nat) (hwf : WellFormed s)
    (hq : QuietHistory s.m_noiseHistory (k + 502)) (hnoise : s.m_noiseLevel = 0.001) :
    ∃ s1 out, processAudio m s [x] [x] 1 = some (s1, out) ∧ WellFormed s1 ∧
      QuietHistory s1.m_noiseHistory (k + 501) ∧ (x = 0 → QuietHistory s1.m_noiseHistory (k + 502)) ∧
      s1.m_noiseLevel = 0.001 ∧ s1.m_signalLevel = 0.9 * s.m_signalLevel + 0.1 * x ∧
      s1.m_vadThreshold = s.m_vadThreshold ∧
      s1.m_noiseReductionStrength = s.m_noiseReductionStrength ∧
      s1.m_voiceActive = decide (calculateVADProbability m
        (0.9 * s.m_signalLevel + 0.1 * x) 0.001 > s.m_vadThreshold) := by
  have htake : List.take (1 : Int).toNat [x] = [x] := rfl
  have hrms : frameRms m (List.take (1 : Int).toNat [x]) 1 = x := by
    rw [htake]
    exact frameRms_single m hs x hx
  have hq1 : QuietHistory (s.m_noiseHistory ++ [x]).tail (k + 501) :=
    quietHistory_push _ _ x hq hx
  obtain ⟨s1, out, h, h1, h2, h3, h4, h5, h6⟩ := processAudio_pinned m s [x] [x] 1 hwf (by decide)
    (by decide) (by simp) (by simp)
    (by rw [hrms]; exact quietHistory_mono _ _ _ hq1 (by omega)) hnoise
  rw [hrms] at h2 h3 h6
  obtain ⟨_, _, hwf1, _⟩ := processAudio_grace_step m s s1 [x] [x] out 1 hwf (by decide)
    (by decide) h
  refine ⟨s1, out, h, hwf1, by rw [h2]; exact hq1, ?_, h1, h3, h4, h5, h6⟩
  intro hx0
  rw [h2, hx0]
  exact quietHistory_push_zero _ _ hq

/-- The run that starts with the one-sample frame `[1/50]` and goes on with silent
frames, on a freshly configured suppressor: the voice flag is set after the first frame
and clear after every later one. -/
theorem burst_run (m : CMath ℝ) (hs : m.sqrt = Real.sqrt) (he : m.exp = Real.exp)
    (sampleRate gracePeriod : Int) (hsr : 0 < sampleRate) (hg0 : 0 ≤ gracePeriod)
    (hg1 : gracePeriod ≤ INT_MAX) (i : Nat) :
    ∃ t, stateAfter m (configured sampleRate gracePeriod) (burstThen (1 / 50) 0) 1 (i + 1) =
        some t ∧
      WellFormed t ∧ QuietHistory t.m_noiseHistory 999 ∧ t.m_noiseLevel = 0.001 ∧
      t.m_signalLevel ≤ 0.002 ∧ t.m_vadThreshold = 0.3 ∧
      (i = 0 → t.m_voiceActive = true) ∧ (0 < i → t.m_voiceActive = false) := by
  induction i with
  | zero =>
    have hwf := wellFormed_configured (α := ℝ) sampleRate gracePeriod hsr hg0 hg1
    have hq : QuietHistory (configured sampleRate gracePeriod :
        Karaoke.SimpleNoiseSuppressor ℝ).m_noiseHistory (498 + 502) := by
      rw [configured_eq sampleRate gracePeriod hg0]
      exact quietHistory_replicate
    obtain ⟨s1, out, h, hwf1, hq1, _, hn1, hsig, hthr, _, hv⟩ := processAudio_single m hs
      (configured sampleRate gracePeriod) (1 / 50) (by norm_num) 498 hwf hq
      (by rw [configured_eq sampleRate gracePeriod hg0])
    rw [configured_eq sampleRate gracePeriod hg0] at hsig hthr hv
    simp only at hsig hthr hv
    have hsig2 : s1.m_signalLevel = 0.002 := by rw [hsig]; norm_num
    refine ⟨s1, ?_, hwf1, hq1, hn1, le_of_eq hsig2, hthr, ?_, fun h0 => absurd h0 (by simp)⟩
    · simp only [stateAfter, burstThen, h]
    · intro _
      rw [hv]
      have : (0.9 : ℝ) * 0 + 0.1 * (1 / 50) = 0.002 := by norm_num
      rw [this, calculateVADProbability_at_two m he]
      simp only [decide_eq_true_eq]
      norm_num
  | succ i ih =>
    obtain ⟨t, ht, hwft, hqt, hnt, hsigt, hthrt, _, _⟩ := ih
    obtain ⟨s1, out, h, hwf1, _, hq1, hn1, hsig, hthr, _, hv⟩ := processAudio_single m hs
      t 0 le_rfl 497 hwft hqt hnt
    have hsig18 : 0.9 * t.m_signalLevel + 0.1 * 0 ≤ 0.001801 := by linarith
    refine ⟨s1, ?_, hwf1, hq1 rfl, hn1, by rw [hsig]; linarith, by rw [hthr, hthrt],
      fun h0 => absurd h0 (by simp), ?_⟩
    · rw [stateAfter_succ m _ t _ 1 (i + 1) ht]
      simp only [burstThen, h, Option.map_some']
    · intro _
      rw [hv, hthrt]
      simp only [decide_eq_false_iff_not, not_lt, gt_iff_lt]
      exact calculateVADProbability_low m he _ hsig18

theorem burstThen_length (x y : α) (i : Nat) : (1 : Int).toNat ≤ (burstThen x y i).length := by
  cases i <;> simp [burstThen]

/-- C6 (amended) on a run at 1000 Hz with one-sample frames (`d = 1` ms) and a grace
period of 200 ms: a burst in frame 0, then silence; five frames later `isVoiceActive()`
is still true, as `5 * 1 < 200`. -/
theorem grace_property_witness :
    ∃ t, stateAfter (CMath.mk Real.sqrt Real.exp (fun x y => x ^ y) Real.sin Real.pi)
        (configured 1000 200) (burstThen (1 / 50) 0) 1 (0 + 1 + 5) = some t ∧
      t.isVoiceActive =
        decide (((5 : Nat) : Int) * ((1 : Int) * 1000).tdiv
          (configured 1000 200 : Karaoke.SimpleNoiseSuppressor ℝ).m_sampleRate <
          (configured 1000 200 : Karaoke.SimpleNoiseSuppressor ℝ).m_gracePeriod) :=
  grace_property _ (configured 1000 200) (burstThen (1 / 50) 0) 1 0 5
    (wellFormed_configured 1000 200 (by decide) (by decide) (by decide)) (by decide) (by decide)
    (burstThen_length _ _) (by decide)
    (fun t ht => by
      obtain ⟨t1, ht1, _, _, _, _, _, hact, _⟩ := burst_run
        (CMath.mk Real.sqrt Real.exp (fun x y => x ^ y) Real.sin Real.pi) rfl rfl 1000 200
        (by decide) (by decide) (by decide) 0
      rw [ht] at ht1
      obtain rfl := Option.some.inj ht1
      exact hact rfl)
    (fun i t hi _ ht => by
      obtain ⟨t1, ht1, _, _, _, _, _, _, hin⟩ := burst_run
        (CMath.mk Real.sqrt Real.exp (fun x y => x ^ y) Real.sin Real.pi) rfl rfl 1000 200
        (by decide) (by decide) (by decide) (i - 1)
      rw [show i - 1 + 1 = i by omega, ht] at ht1
      obtain rfl := Option.some.inj ht1
      exact hin (by omega))

/-- C6 as stated fails at the boundary.  At 1000 Hz with one-sample frames the frame
duration is exactly 1 ms; with a grace period of 1 ms, a burst in frame 0 sets
`voice_active`, every later (silent) frame clears it, and `m = 1` satisfies
`m <= grace_period_ms / frame_duration_ms = 1`; yet after frame 1 the counter is
`1 - 1 = 0 <= 0` and `isVoiceActive()` is already false. -/
theorem grace_boundary_counterexample :
    (∀ i, ∃ t,
      stateAfter (CMath.mk Real.sqrt Real.exp (fun x y => x ^ y) Real.sin Real.pi)
        (configured 1000 1) (burstThen (1 / 50) 0) 1 (i + 1) = some t ∧
      (i = 0 → t.m_voiceActive = true) ∧ (0 < i → t.m_voiceActive = false)) ∧
    ((1 : ℝ) ≤ (((configured 1000 1 : Karaoke.SimpleNoiseSuppressor ℝ).m_gracePeriod : Int) : ℝ) /
      (1000 * 1 / 1000)) ∧
    ∃ t, stateAfter (CMath.mk Real.sqrt Real.exp (fun x y => x ^ y) Real.sin Real.pi)
        (configured 1000 1) (burstThen (1 / 50) 0) 1 2 = some t ∧
      t.isVoiceActive = false := by
  have hrun := burst_run (CMath.mk Real.sqrt Real.exp (fun x y => x ^ y) Real.sin Real.pi)
    rfl rfl 1000 1 (by decide) (by decide) (by decide)
  have hwf0 := wellFormed_configured (α := ℝ) 1000 1 (by decide) (by decide) (by decide)
  refine ⟨?_, ?_, ?_⟩
  · intro i
    obtain ⟨t, ht, _, _, _, _, _, h1, h2⟩ := hrun i
    exact ⟨t, ht, h1, h2⟩
  · rw [configured_eq 1000 1 (by decide)]
    norm_num
  · obtain ⟨t1, ht1, hwf1, _, _, _, _, hact, _⟩ := hrun 0
    obtain ⟨t2, ht2, _, _, _, _, _, _, hin⟩ := hrun 1
    refine ⟨t2, ht2, ?_⟩
    have hstep0 := stateAfter_succ (CMath.mk Real.sqrt Real.exp (fun x y => x ^ y) Real.sin Real.pi)
      (configured 1000 1) (configured 1000 1) (burstThen (1 / 50) 0) 1 0 rfl
    rw [ht1] at hstep0
    have hstep1 := stateAfter_succ (CMath.mk Real.sqrt Real.exp (fun x y => x ^ y) Real.sin Real.pi)
      (configured 1000 1) t1 (burstThen (1 / 50) 0) 1 1 ht1
    rw [ht2] at hstep1
    cases hp0 : processAudio (CMath.mk Real.sqrt Real.exp (fun x y => x ^ y) Real.sin Real.pi)
        (configured 1000 1) (burstThen (1 / 50) 0 0) (burstThen (1 / 50) 0 0) 1 with
    | none => rw [hp0] at hstep0; simp at hstep0
    | some r0 =>
      rw [hp0] at hstep0
      simp only [Option.map_some', Option.some.injEq] at hstep0
      obtain ⟨hsr1, _, _, hgrace0, _, _⟩ := processAudio_grace_step _ _ r0.1 _ _ r0.2 1 hwf0
        (by decide) (by decide) hp0
      rw [← hstep0] at hsr1 hgrace0
      obtain ⟨hc1, hi1⟩ := hgrace0 (hact rfl)
      cases hp1 : processAudio (CMath.mk Real.sqrt Real.exp (fun x y => x ^ y) Real.sin Real.pi)
          t1 (burstThen (1 / 50) 0 1) (burstThen (1 / 50) 0 1) 1 with
      | none => rw [hp1] at hstep1; simp at hstep1
      | some r1 =>
        rw [hp1] at hstep1
        simp only [Option.map_some', Option.some.injEq] at hstep1
        obtain ⟨_, _, _, _, hgrace1, _⟩ := processAudio_grace_step _ _ r1.1 _ _ r1.2 1 hwf1
          (by decide) (by decide) hp1
        rw [← hstep1] at hgrace1
        obtain ⟨_, hi2⟩ := hgrace1 (hin (by decide)) hi1
        rw [hc1, hsr1, configured_eq 1000 1 (by decide)] at hi2
        simp only [isVoiceActive, hin (by decide), hi2, Bool.false_or]
        decide

end SimpleNoiseSuppressor

/-! ### The gate in the Grace state -/

/-- The fields of the suppressor configured by `main`. -/
theorem mainSuppressor_eq :
    (mainSuppressor : SimpleNoiseSuppressor α) =
      { m_sampleRate := 48000
        m_noiseGateThreshold := 0.01
        m_vadThreshold := 0.3
        m_gracePeriod := 200
        m_noiseReductionStrength := 0.6
        m_noiseHistory := List.replicate NOISE_HISTORY_SIZE 0
        m_noiseLevel := 0.001
        m_signalLevel := 0
        m_vadProbability := 0
        m_voiceActive := false
        m_graceCounter := 0
        m_inGracePeriod := false
        m_spectrum := List.replicate 256 0
        prevSample := 0 } := by
  have h1 : clamp (0.01 : α) 0 1 = 0.01 := by unfold clamp; norm_num
  have h2 : clamp (0.3 : α) 0 1 = 0.3 := by unfold clamp; norm_num
  have h3 : clamp (0.6 : α) 0 1 = 0.6 := by unfold clamp; norm_num
  simp only [mainSuppressor, SimpleNoiseSuppressor.setNoiseReductionStrength,
    SimpleNoiseSuppressor.setGracePeriod, SimpleNoiseSuppressor.setVADThreshold,
    SimpleNoiseSuppressor.setNoiseGateThreshold, SimpleNoiseSuppressor.init,
    SimpleNoiseSuppressor.reset, SimpleNoiseSuppressor.SimpleNoiseSuppressor, SAMPLE_RATE,
    MIN_NOISE_LEVEL, List.map_replicate, h1, h2, h3]
  rfl

/-- The suppressor configured by `main` is well-formed. -/
theorem wellFormed_mainSuppressor :
    SimpleNoiseSuppressor.WellFormed (mainSuppressor : SimpleNoiseSuppressor α) := by
  rw [mainSuppressor_eq]
  refine ⟨List.length_replicate _ _, ?_, ?_, ?_, ?_⟩
  · show (0 : Int) < 48000
    decide
  · show (0 : Int) ≤ 200
    decide
  · show (200 : Int) ≤ INT_MAX
    decide
  · intro h
    exact absurd h (by simp)

namespace SimpleNoiseSuppressor

/-- The filter coefficient is positive for a positive `M_PI` and sample rate. -/
theorem highPassAlpha_pos (m : CMath α) (hpi : 0 < m.M_PI) (sampleRate : Int)
    (hsr : 0 < sampleRate) : 0 < highPassAlpha m sampleRate := by
  have hsr1 : (0 : α) < (sampleRate : α) := by exact_mod_cast hsr
  unfold highPassAlpha
  positivity

/-- The gate and reduction blocks in the Grace state: the high-pass filter, then the
scaling by `1 - noise_reduction_strength`; no hard gate. -/
theorem gateAndReduce_grace (m : CMath α) (s : Karaoke.SimpleNoiseSuppressor α)
    (samples : List α) (hv : s.m_voiceActive = false) (hg : s.m_inGracePeriod = true)
    (hstr : 0 < s.m_noiseReductionStrength) :
    (gateAndReduce m s samples).2 =
      (highPassLoop (highPassAlpha m s.m_sampleRate) s.prevSample samples).1.map
        (fun x => x * (1 - s.m_noiseReductionStrength)) := by
  simp only [gateAndReduce, applySpectralNoiseReduction, hv, hg, gt_iff_lt, hstr,
    Bool.not_true, Bool.not_false, Bool.and_false, Bool.false_eq_true, if_false, if_true]

/-- C10 on the first frame after `main` has configured the suppressor. -/
theorem gate_condition_witness :
    ∃ s1 out,
      processAudio (CMath.mk Real.sqrt Real.exp (fun x y => x ^ y) Real.sin Real.pi)
        mainSuppressor [1 / 50] [1 / 50] 1 = some (s1, out) ∧
      (s1.m_voiceActive = true →
        out = (highPassLoop
          (highPassAlpha (CMath.mk Real.sqrt Real.exp (fun x y => x ^ y) Real.sin Real.pi)
            (mainSuppressor : Karaoke.SimpleNoiseSuppressor ℝ).m_sampleRate)
          (mainSuppressor : Karaoke.SimpleNoiseSuppressor ℝ).prevSample
          (List.take (1 : Int).toNat [1 / 50])).1 ++ List.drop (1 : Int).toNat [1 / 50]) ∧
      (s1.m_voiceActive = false → s1.m_inGracePeriod = true →
        out = (highPassLoop
          (highPassAlpha (CMath.mk Real.sqrt Real.exp (fun x y => x ^ y) Real.sin Real.pi)
            (mainSuppressor : Karaoke.SimpleNoiseSuppressor ℝ).m_sampleRate)
          (mainSuppressor : Karaoke.SimpleNoiseSuppressor ℝ).prevSample
          (List.take (1 : Int).toNat [1 / 50])).1.map
            (fun x => x * (1 - (mainSuppressor : Karaoke.SimpleNoiseSuppressor ℝ).m_noiseReductionStrength))
          ++ List.drop (1 : Int).toNat [1 / 50]) ∧
      (s1.m_voiceActive = false → s1.m_inGracePeriod = false →
        out = (highPassLoop
          (highPassAlpha (CMath.mk Real.sqrt Real.exp (fun x y => x ^ y) Real.sin Real.pi)
            (mainSuppressor : Karaoke.SimpleNoiseSuppressor ℝ).m_sampleRate)
          (mainSuppressor : Karaoke.SimpleNoiseSuppressor ℝ).prevSample
          (applyNoiseGate mainSuppressor (List.take (1 : Int).toNat [1 / 50]))).1.map
            (fun x => x * (1 - (mainSuppressor : Karaoke.SimpleNoiseSuppressor ℝ).m_noiseReductionStrength))
          ++ List.drop (1 : Int).toNat [1 / 50]) := by
  obtain ⟨s1, out, h, _, _⟩ := processAudio_total
    (CMath.mk Real.sqrt Real.exp (fun x y => x ^ y) Real.sin Real.pi)
    (mainSuppressor : Karaoke.SimpleNoiseSuppressor ℝ) [1 / 50] [1 / 50] 1
    wellFormed_mainSuppressor (by decide) (by decide) (by simp) (by simp)
  exact ⟨s1, out, h, gate_condition _ _ s1 _ _ out 1 (by decide)
    (by rw [mainSuppressor_eq]; norm_num) h⟩

/-- C10 as stated fails in the Grace state.  On the suppressor configured by `main`, the
one-sample frame `[1/50]` sets `voice_active`; the next frame `[1/100000]` clears it
while the grace period still runs (Grace state).  The output of that frame is the
high-pass output scaled by `1 - 0.6`, not the high-pass output alone. -/
theorem gate_grace_counterexample :
    ∃ s1 out1 s2 out2,
      processAudio (CMath.mk Real.sqrt Real.exp (fun x y => x ^ y) Real.sin Real.pi)
        mainSuppressor [1 / 50] [1 / 50] 1 = some (s1, out1) ∧
      processAudio (CMath.mk Real.sqrt Real.exp (fun x y => x ^ y) Real.sin Real.pi)
        s1 [1 / 100000] [1 / 100000] 1 = some (s2, out2) ∧
      s2.m_voiceActive = false ∧ s2.m_inGracePeriod = true ∧
      out2 = (highPassLoop
        (highPassAlpha (CMath.mk Real.sqrt Real.exp (fun x y => x ^ y) Real.sin Real.pi)
          s1.m_sampleRate) s1.prevSample [1 / 100000]).1.map
          (fun x => x * (1 - s1.m_noiseReductionStrength)) ∧
      s1.m_noiseReductionStrength = 0.6 ∧
      out2 ≠ (highPassLoop
        (highPassAlpha (CMath.mk Real.sqrt Real.exp (fun x y => x ^ y) Real.sin Real.pi)
          s1.m_sampleRate) s1.prevSample [1 / 100000]).1 := by
  have hwf0 := wellFormed_mainSuppressor (α := ℝ)
  have hq0 : QuietHistory (mainSuppressor : Karaoke.SimpleNoiseSuppressor ℝ).m_noiseHistory
      (498 + 502) := by
    rw [mainSuppressor_eq]
    exact quietHistory_replicate
  obtain ⟨s1, out1, h1, hwf1, hq1, _, hn1, hsig1, hthr1, hstr1, hv1⟩ := processAudio_single
    (CMath.mk Real.sqrt Real.exp (fun x y => x ^ y) Real.sin Real.pi) rfl
    mainSuppressor (1 / 50) (by norm_num) 498 hwf0 hq0 (by rw [mainSuppressor_eq])
  rw [mainSuppressor_eq] at hsig1 hthr1 hstr1 hv1
  simp only at hsig1 hthr1 hstr1 hv1
  have hact1 : s1.m_voiceActive = true := by
    rw [hv1]
    have : (0.9 : ℝ) * 0 + 0.1 * (1 / 50) = 0.002 := by norm_num
    rw [this, calculateVADProbability_at_two _ rfl]
    simp only [decide_eq_true_eq]
    norm_num
  obtain ⟨hsr1, _, _, hgrace0, _, _⟩ := processAudio_grace_step _ _ s1 _ _ out1 1 hwf0
    (by decide) (by decide) h1
  obtain ⟨hc1, hi1⟩ := hgrace0 hact1
  rw [mainSuppressor_eq] at hsr1 hc1
  simp only at hsr1 hc1
  obtain ⟨s2, out2, h2, _, _, _, _, _, _, _, hv2⟩ := processAudio_single
    (CMath.mk Real.sqrt Real.exp (fun x y => x ^ y) Real.sin Real.pi) rfl
    s1 (1 / 100000) (by norm_num) 497 hwf1 hq1 hn1
  have hin2 : s2.m_voiceActive = false := by
    rw [hv2, hthr1, hsig1]
    simp only [decide_eq_false_iff_not, not_lt, gt_iff_lt]
    exact calculateVADProbability_low _ rfl _ (by norm_num)
  obtain ⟨_, _, _, _, hgrace1, _⟩ := processAudio_grace_step _ _ s2 _ _ out2 1 hwf1
    (by decide) (by decide) h2
  obtain ⟨_, hi2⟩ := hgrace1 hin2 hi1
  rw [hc1, hsr1] at hi2
  have hgr2 : s2.m_inGracePeriod = true := by
    rw [hi2]
    decide
  obtain ⟨s7, hv7, hg7, _, hstr7, hsr7, hprev7, hout⟩ := processAudio_stages _ s1 s2 _ _ out2 1
    (by decide) h2
  have hstrpos : 0 < s7.m_noiseReductionStrength := by
    rw [hstr7, hstr1]
    norm_num
  have hout2 : out2 = (highPassLoop
      (highPassAlpha (CMath.mk Real.sqrt Real.exp (fun x y => x ^ y) Real.sin Real.pi)
        s1.m_sampleRate) s1.prevSample [1 / 100000]).1.map
        (fun x => x * (1 - s1.m_noiseReductionStrength)) := by
    rw [hout, gateAndReduce_grace _ s7 _ (by rw [← hv7]; exact hin2) (by rw [← hg7]; exact hgr2)
      hstrpos, hsr7, hprev7, hstr7]
    simp
  refine ⟨s1, out1, s2, out2, h1, h2, hin2, hgr2, hout2, hstr1, ?_⟩
  rw [hout2, hstr1, hsr1]
  have halpha := highPassAlpha_pos
    (CMath.mk Real.sqrt Real.exp (fun x y => x ^ y) Real.sin Real.pi) Real.pi_pos 48000
    (by decide)
  simp only [highPassLoop, List.map_cons, List.map_nil, ne_eq, List.cons.injEq, and_true]
  intro heq
  have hne : highPassAlpha (CMath.mk Real.sqrt Real.exp (fun x y => x ^ y) Real.sin Real.pi)
      48000 * (s1.prevSample + 1 / 100000 - s1.prevSample) ≠ 0 := by
    have : s1.prevSample + 1 / 100000 - s1.prevSample = (1 / 100000 : ℝ) := by ring
    rw [this]
    positivity
  have : (1 - 0.6 : ℝ) = 1 := by
    have h := mul_left_cancel₀ hne (heq.trans (mul_one _).symm)
    exact h
  norm_num at this

end SimpleNoiseSuppressor

/-! ## The callback as a whole -/

theorem clampOutput_bounds (x : α) : -1 ≤ clampOutput x ∧ clampOutput x ≤ 1 := by
  unfold clampOutput
  by_cases h1 : x > 1
  · simp only [h1, if_true]
    norm_num
  · simp only [h1, if_false]
    by_cases h2 : x < -1
    · simp only [h2, if_true]
      norm_num
    · simp only [h2, if_false]
      exact ⟨not_lt.1 h2, not_lt.1 h1⟩

/-- The mixing loop leaves every sample in [-1, 1]. -/
theorem mixSample_bounds (m : CMath α) (data : AudioData α)
    (instrumental_chunk processed_audio : List α) (i : Nat) (v : α)
    (h : mixSample m data instrumental_chunk processed_audio i = some v) :
    -1 ≤ v ∧ v ≤ 1 := by
  unfold mixSample at h
  split at h
  · simp only [Option.map_eq_some'] at h
    obtain ⟨x, _, hx⟩ := h
    rw [← hx]
    exact clampOutput_bounds x
  · exact absurd h (by simp)

/-- Without chorus the mixing loop faults nowhere on buffers of the frame size. -/
theorem mixSample_total (m : CMath α) (data : AudioData α)
    (instrumental_chunk processed_audio : List α) (i : Nat)
    (hc : data.enable_chorus = false) (hi : i < FRAMES_PER_BUFFER)
    (h1 : instrumental_chunk.length = FRAMES_PER_BUFFER)
    (h2 : processed_audio.length = FRAMES_PER_BUFFER) :
    ∃ v, mixSample m data instrumental_chunk processed_audio i = some v := by
  have hi1 : i < instrumental_chunk.length := by rw [h1]; exact hi
  have hi2 : i < processed_audio.length := by rw [h2]; exact hi
  simp only [mixSample, applyChorus, readAt_natCast, List.getElem?_eq_getElem hi1,
    List.getElem?_eq_getElem hi2, hc, Bool.false_eq_true, if_false, Option.map_some']
  exact ⟨_, rfl⟩

/-- The fields one line of the parameter file can change. -/
theorem applyParamLine_eq (d : AudioData α) (l : ParamLine α) (d1 : AudioData α)
    (h : applyParamLine d l = some d1) :
    ∃ vv st ps iv, d1 =
      { d with voice_volume := vv, autotune_strength := st, pitch_shift_amount := ps,
               instrument_volume := iv } := by
  cases l with
  | malformed => exact absurd h (by simp [applyParamLine])
  | other =>
    simp only [applyParamLine, Option.some.injEq] at h
    rw [← h]
    exact ⟨_, _, _, _, rfl⟩
  | voice_volume v =>
    simp only [applyParamLine, Option.some.injEq] at h
    rw [← h]
    split_ifs <;> exact ⟨_, _, _, _, rfl⟩
  | autotune_strength v =>
    simp only [applyParamLine, Option.some.injEq] at h
    rw [← h]
    split_ifs <;> exact ⟨_, _, _, _, rfl⟩
  | pitch_shift v =>
    simp only [applyParamLine, Option.some.injEq] at h
    rw [← h]
    split_ifs <;> exact ⟨_, _, _, _, rfl⟩
  | instrument_volume v =>
    simp only [applyParamLine, Option.some.injEq] at h
    rw [← h]
    split_ifs <;> exact ⟨_, _, _, _, rfl⟩

/-- The fields the loop over the parameter file can change. -/
theorem paramLoop_eq (lines : List (ParamLine α)) : ∀ d : AudioData α,
    ∃ vv st ps iv, (paramLoop d lines).1 =
      { d with voice_volume := vv, autotune_strength := st, pitch_shift_amount := ps,
               instrument_volume := iv } := by
  induction lines with
  | nil => exact fun d => ⟨_, _, _, _, rfl⟩
  | cons l ls ih =>
    intro d
    cases hl : applyParamLine d l with
    | none =>
      simp only [paramLoop, hl]
      exact ⟨_, _, _, _, rfl⟩
    | some d1 =>
      obtain ⟨vv, st, ps, iv, h1⟩ := applyParamLine_eq d l d1 hl
      obtain ⟨vv2, st2, ps2, iv2, h2⟩ := ih d1
      simp only [paramLoop, hl]
      rw [h2, h1]
      exact ⟨_, _, _, _, rfl⟩

/-- The fields `checkParameterUpdates` can change. -/
theorem checkParameterUpdates_eq (data : AudioData α) (now : Int)
    (paramFile : Option (List (ParamLine α))) :
    ∃ vv st ps iv lc, checkParameterUpdates data now paramFile =
      { data with voice_volume := vv, autotune_strength := st, pitch_shift_amount := ps,
                  instrument_volume := iv, last_check := lc } := by
  simp only [checkParameterUpdates, checkParameterUpdatesExit]
  split_ifs
  · exact ⟨_, _, _, _, _, rfl⟩
  · cases paramFile with
    | none => exact ⟨_, _, _, _, _, rfl⟩
    | some lines =>
      obtain ⟨vv, st, ps, iv, h⟩ := paramLoop_eq lines { data with last_check := now }
      exact ⟨vv, st, ps, iv, now, h⟩

/-- A call of `checkParameterUpdates` that finds no parameter file returns. -/
theorem checkParameterUpdatesThrows_none (data : AudioData α) (now : Int) :
    checkParameterUpdatesThrows data now none = false := by
  simp only [checkParameterUpdatesThrows, checkParameterUpdatesExit]
  split_ifs <;> rfl

/-- The fields the first part of the callback can change. -/
theorem frameSetup_eq (data : AudioData α) (inp : CallbackInput α) :
    ∃ vv st ps iv lc pos lp lcf, (frameSetup data inp).1 =
      { data with voice_volume := vv, autotune_strength := st, pitch_shift_amount := ps,
                  instrument_volume := iv, last_check := lc, instrumental_pos := pos,
                  last_pitch := lp, last_confidence := lcf } := by
  obtain ⟨vv, st, ps, iv, lc, h⟩ := checkParameterUpdates_eq data inp.now inp.paramFile
  simp only [frameSetup, updatePitchEstimate, h]
  split_ifs <;> exact ⟨_, _, _, _, _, _, _, _, rfl⟩

theorem instrumentalLoop_length (instrumental : List α) (n pos : Nat) :
    (instrumentalLoop instrumental n pos).1.length = n := by
  induction n generalizing pos with
  | zero => rfl
  | succ n ih =>
    simp only [instrumentalLoop]
    split_ifs <;> simp [ih]

theorem frameSetup_chunk_length (data : AudioData α) (inp : CallbackInput α) :
    (frameSetup data inp).2.length = FRAMES_PER_BUFFER := by
  simp only [frameSetup, instrumentalLoop_length]

/-- The fields the last part of the callback can change. -/
theorem frameFinish_eq (data : AudioData α) (target_pitch : α) :
    ∃ ct ph th tih, frameFinish data target_pitch =
      { data with current_time := ct, pitch_history := ph, target_history := th,
                  time_history := tih } := by
  simp only [frameFinish, updateHistory]
  split_ifs <;> exact ⟨_, _, _, _, rfl⟩

/-- The noise-suppression step changes the suppressor only. -/
theorem suppressNoise_eq (m : CMath α) (data data4 : AudioData α) (processed_audio voice : List α)
    (h : suppressNoise m data processed_audio = some (data4, voice)) :
    ∃ ns, data4 = { data with noise_suppressor := ns } := by
  unfold suppressNoise at h
  cases hns : data.noise_suppressor with
  | none =>
    rw [hns] at h
    simp only [Option.some.injEq, Prod.mk.injEq] at h
    exact ⟨none, by rw [← h.1, ← hns]⟩
  | some ns =>
    rw [hns] at h
    simp only at h
    split at h
    · exact absurd h (by simp)
    · simp only [Option.some.injEq, Prod.mk.injEq] at h
      exact ⟨_, h.1.symm⟩

/-- A returning callback, by stages. -/
theorem audioCallback_eq_some (m : CMath α) (data data1 : AudioData α) (inp : CallbackInput α)
    (out : List α) (h : audioCallback m data inp = some (data1, out)) :
    ∃ processed_audio data4 voice,
      correctVoice m (frameSetup data inp).1 inp.inputBuffer
        (lookupTargetPitch (frameSetup data inp).1.melody_map
          (frameSetup data inp).1.current_time) = some processed_audio ∧
      suppressNoise m (frameSetup data inp).1 processed_audio = some (data4, voice) ∧
      collect ((List.range FRAMES_PER_BUFFER).map
        (mixSample m data4 (frameSetup data inp).2 voice)) = some out ∧
      data1 = frameFinish data4 (lookupTargetPitch (frameSetup data inp).1.melody_map
        (frameSetup data inp).1.current_time) := by
  simp only [audioCallback] at h
  split at h
  · exact absurd h (by simp)
  · split at h
    · exact absurd h (by simp)
    · split at h
      · exact absurd h (by simp)
      · rename_i processed_audio hcorr
        split at h
        · exact absurd h (by simp)
        · rename_i data4 voice hsup
          split at h
          · exact absurd h (by simp)
          · rename_i out1 hmix
            simp only [Option.some.injEq, Prod.mk.injEq] at h
            exact ⟨processed_audio, data4, voice, hcorr, hsup, by rw [hmix, h.2], h.1.symm⟩

/-- A returning callback has read its parameter file without an exception. -/
theorem audioCallback_no_throw (m : CMath α) (data : AudioData α) (inp : CallbackInput α)
    (r : AudioData α × List α) (h : audioCallback m data inp = some r) :
    checkParameterUpdatesThrows data inp.now inp.paramFile = false := by
  cases ht : checkParameterUpdatesThrows data inp.now inp.paramFile with
  | false => rfl
  | true =>
    simp only [audioCallback, ht, if_true] at h
    exact absurd h (by simp)

/-- A parameter file with a malformed line stops the callback. -/
theorem audioCallback_throw (m : CMath α) (data : AudioData α) (inp : CallbackInput α)
    (h : checkParameterUpdatesThrows data inp.now inp.paramFile = true) :
    audioCallback m data inp = none := by
  simp only [audioCallback, h, if_true]

/-- The callback leaves `recording_frames` and `recording_enabled` as they were. -/
theorem audioCallback_recording (m : CMath α) (data data1 : AudioData α)
    (inp : CallbackInput α) (out : List α) (h : audioCallback m data inp = some (data1, out)) :
    data1.recording_frames = data.recording_frames ∧
      data1.recording_enabled = data.recording_enabled := by
  obtain ⟨processed_audio, data4, voice, _, hsup, _, hfin⟩ :=
    audioCallback_eq_some m data data1 inp out h
  obtain ⟨ns, hns⟩ := suppressNoise_eq m _ _ _ _ hsup
  obtain ⟨ct, ph, th, tih, hf⟩ := frameFinish_eq data4
    (lookupTargetPitch (frameSetup data inp).1.melody_map (frameSetup data inp).1.current_time)
  obtain ⟨vv, st, ps, iv, lc, pos, lp, lcf, hs⟩ := frameSetup_eq data inp
  rw [hfin, hf, hns, hs]
  exact ⟨rfl, rfl⟩

/-- C2. Mix clamp: whatever the instrumental slice, the voice frame, the volumes, the
chorus setting and the clock, the callback writes `FRAMES_PER_BUFFER` output samples and
every one of them lies in [-1, 1]. -/
theorem mix_clamp (m : CMath α) (data data1 : AudioData α) (inp : CallbackInput α)
    (out : List α) (h : audioCallback m data inp = some (data1, out)) :
    out.length = FRAMES_PER_BUFFER ∧ ∀ v ∈ out, -1 ≤ v ∧ v ≤ 1 := by
  obtain ⟨processed_audio, data4, voice, _, _, hmix, _⟩ :=
    audioCallback_eq_some m data data1 inp out h
  obtain ⟨hlen, hget⟩ := collect_map_range_getElem? _ _ _ hmix
  refine ⟨hlen, ?_⟩
  intro v hv
  obtain ⟨i, hi, hvi⟩ := List.getElem_of_mem hv
  have hi1 : i < FRAMES_PER_BUFFER := by rw [← hlen]; exact hi
  have := hget i hi1
  rw [List.getElem?_eq_getElem hi, hvi] at this
  exact mixSample_bounds m data4 _ voice i v this

/-- The noise-suppression step returns a frame of the same size when the suppressor, if
any, is well-formed. -/
theorem suppressNoise_total (m : CMath α) (data : AudioData α) (processed_audio : List α)
    (hns : ∀ ns, data.noise_suppressor = some ns → SimpleNoiseSuppressor.WellFormed ns)
    (hlen : processed_audio.length = FRAMES_PER_BUFFER) :
    ∃ data4 voice, suppressNoise m data processed_audio = some (data4, voice) ∧
      voice.length = FRAMES_PER_BUFFER := by
  unfold suppressNoise
  cases h : data.noise_suppressor with
  | none => exact ⟨_, _, rfl, hlen⟩
  | some ns =>
    have hle : ((FRAMES_PER_BUFFER : Nat) : Int).toNat ≤ processed_audio.length := by
      rw [hlen]
      simp
    obtain ⟨s1, out, hp, _, hout⟩ := SimpleNoiseSuppressor.processAudio_total m ns
      processed_audio processed_audio (FRAMES_PER_BUFFER : Nat) (hns ns h) (by decide)
      (by decide) hle hle
    simp only [hp]
    exact ⟨_, _, rfl, by rw [hout, hlen]⟩

/-- With a parameter file read without exception, a full input frame, no correction, a
well-formed suppressor (if any) and the chorus disabled, the callback returns. -/
theorem audioCallback_total (m : CMath α) (data : AudioData α) (inp : CallbackInput α)
    (hthrow : checkParameterUpdatesThrows data inp.now inp.paramFile = false)
    (hlen : inp.inputBuffer.length = FRAMES_PER_BUFFER)
    (hgate : correctionApplies (frameSetup data inp).1
      (lookupTargetPitch (frameSetup data inp).1.melody_map
        (frameSetup data inp).1.current_time) = false)
    (hns : ∀ ns, data.noise_suppressor = some ns → SimpleNoiseSuppressor.WellFormed ns)
    (hch : data.enable_chorus = false) :
    ∃ data1 out, audioCallback m data inp = some (data1, out) := by
  have hcopy := collect_copy inp.inputBuffer hlen
  have hcorr : correctVoice m (frameSetup data inp).1 inp.inputBuffer
      (lookupTargetPitch (frameSetup data inp).1.melody_map
        (frameSetup data inp).1.current_time) = some inp.inputBuffer := by
    simp only [correctVoice, hgate, Bool.false_eq_true, if_false, hcopy]
  obtain ⟨vv, st, ps, iv, lc, pos, lp, lcf, hs⟩ := frameSetup_eq data inp
  have hns1 : ∀ ns, (frameSetup data inp).1.noise_suppressor = some ns →
      SimpleNoiseSuppressor.WellFormed ns := by
    rw [hs]
    exact hns
  obtain ⟨data4, voice, hsup, hvoice⟩ := suppressNoise_total m _ inp.inputBuffer hns1 hlen
  obtain ⟨ns, hd4⟩ := suppressNoise_eq m _ _ _ _ hsup
  have hch4 : data4.enable_chorus = false := by
    rw [hd4, hs]
    exact hch
  obtain ⟨out, hmix⟩ := collect_map_exists (List.range FRAMES_PER_BUFFER)
    (mixSample m data4 (frameSetup data inp).2 voice)
    (fun i hi => mixSample_total m data4 _ voice i hch4 (List.mem_range.1 hi)
      (frameSetup_chunk_length data inp) hvoice)
  simp only [audioCallback, hthrow, Bool.false_eq_true, if_false, hcopy, hcorr, hsup, hmix]
  exact ⟨_, _, rfl⟩

/-- On the first frame of a session with nothing detected the stored confidence stays 0
and no correction applies. -/
theorem correctionApplies_first_frame (instrumental : List ℝ) (melody_map : List (ℝ × ℝ))
    (inBuf : List ℝ) (target_pitch : ℝ) :
    correctionApplies (frameSetup (initialAudioData instrumental melody_map)
      { inputBuffer := inBuf, now := 0, paramFile := none, pitch := 0, confidence := 0 }).1
      target_pitch = false := by
  simp only [correctionApplies, frameSetup, updatePitchEstimate, checkParameterUpdates,
    checkParameterUpdatesExit, initialAudioData, decide_eq_false_iff_not]
  norm_num

/-- The first frame of a session: a silent input frame, nothing detected, no parameter
file.  The callback returns. -/
theorem audioCallback_first_frame (instrumental : List ℝ) (melody_map : List (ℝ × ℝ)) :
    ∃ data1 out,
      audioCallback (CMath.mk Real.sqrt Real.exp (fun x y => x ^ y) Real.sin Real.pi)
        (initialAudioData instrumental melody_map)
        { inputBuffer := List.replicate 256 0, now := 0, paramFile := none,
          pitch := 0, confidence := 0 } = some (data1, out) := by
  apply audioCallback_total
  · exact checkParameterUpdatesThrows_none _ _
  · simp only [List.length_replicate, FRAMES_PER_BUFFER]
  · exact correctionApplies_first_frame _ _ _ _
  · intro ns hns
    simp only [initialAudioData, Option.some.injEq] at hns
    rw [← hns]
    exact wellFormed_mainSuppressor
  · rfl

/-- C2 on the first frame of a session with a loud instrumental: samples 1.0 at the
instrument volume 2 that `main` sets by default. -/
theorem mix_clamp_witness :
    ∃ data1 out,
      audioCallback (CMath.mk Real.sqrt Real.exp (fun x y => x ^ y) Real.sin Real.pi)
        (initialAudioData [1, 1, 1] [])
        { inputBuffer := List.replicate 256 0, now := 0, paramFile := none,
          pitch := 0, confidence := 0 } = some (data1, out) ∧
      out.length = FRAMES_PER_BUFFER ∧ ∀ v ∈ out, -1 ≤ v ∧ v ≤ 1 := by
  obtain ⟨data1, out, h⟩ := audioCallback_first_frame [1, 1, 1] []
  exact ⟨data1, out, h, mix_clamp _ _ _ _ _ h⟩

/-- C3 fails on the code: `audioCallback` never writes `recording_frames`.  On the first
frame of a session, with `recording_enabled` set by `main`, the callback writes its 256
output samples and leaves the recording buffer empty; and whenever the callback
returns, the recording buffer is the one it was given. -/
theorem recording_never_appended :
    (∃ data1 out,
      audioCallback (CMath.mk Real.sqrt Real.exp (fun x y => x ^ y) Real.sin Real.pi)
        (initialAudioData [1, 1, 1] [])
        { inputBuffer := List.replicate 256 0, now := 0, paramFile := none,
          pitch := 0, confidence := 0 } = some (data1, out) ∧
      out.length = FRAMES_PER_BUFFER ∧ data1.recording_enabled = true ∧
      data1.recording_frames = []) ∧
    ∀ (m : CMath α) (data data1 : AudioData α) (inp : CallbackInput α) (out : List α),
      audioCallback m data inp = some (data1, out) →
      data1.recording_frames = data.recording_frames := by
  constructor
  · obtain ⟨data1, out, h⟩ := audioCallback_first_frame [1, 1, 1] []
    obtain ⟨_, _, _, _, _, hmix, _⟩ := audioCallback_eq_some _ _ _ _ _ h
    have hrec := audioCallback_recording _ _ _ _ _ h
    exact ⟨data1, out, h, (collect_map_range_getElem? _ _ _ hmix).1, hrec.2, hrec.1⟩
  · intro m data data1 inp out h
    exact (audioCallback_recording m data data1 inp out h).1

/-! ## Melody target lookup -/

/-- The state of the melody scan after a prefix `l` of the sequence: either no entry of `l`
is within 0.5 s of the clock and the pair is still `(0.5, 0)`, or the pair comes from an
entry `e` of `l` that is within 0.5 s, strictly closer than every earlier entry and at
least as close as every later one. -/
theorem melody_scan (l : List (α × α)) (t : α) :
    ((∀ x ∈ l, (0.5 : α) ≤ |x.1 - t|) ∧ l.foldl (melodyStep t) (0.5, 0) = (0.5, 0)) ∨
    ∃ l1 e l2, l = l1 ++ e :: l2 ∧
      l.foldl (melodyStep t) (0.5, 0) = (|e.1 - t|, e.2) ∧ |e.1 - t| < 0.5 ∧
      (∀ x ∈ l1, |e.1 - t| < |x.1 - t|) ∧ (∀ x ∈ l2, |e.1 - t| ≤ |x.1 - t|) := by
  induction l using List.reverseRecOn with
  | nil => exact Or.inl ⟨by simp, rfl⟩
  | append_singleton l n ih =>
    rw [List.foldl_append]
    rcases ih with ⟨hall, hacc⟩ | ⟨l1, e, l2, hl, hacc, he, h1, h2⟩
    · rw [hacc]
      by_cases hn : |n.1 - t| < 0.5
      · right
        refine ⟨l, n, [], rfl, ?_, hn, ?_, by simp⟩
        · simp [melodyStep, hn]
        · intro x hx
          exact lt_of_lt_of_le hn (hall x hx)
      · left
        refine ⟨?_, by simp [melodyStep, hn]⟩
        intro x hx
        rcases List.mem_append.1 hx with hx | hx
        · exact hall x hx
        · rw [List.mem_singleton.1 hx]
          exact not_lt.1 hn
    · rw [hacc]
      right
      by_cases hn : |n.1 - t| < |e.1 - t|
      · refine ⟨l, n, [], rfl, ?_, lt_trans hn he, ?_, by simp⟩
        · simp [melodyStep, hn]
        · intro x hx
          rw [hl] at hx
          rcases List.mem_append.1 hx with hx | hx
          · exact lt_trans hn (h1 x hx)
          · rcases List.mem_cons.1 hx with hx | hx
            · rw [hx]
              exact hn
            · exact lt_of_lt_of_le hn (h2 x hx)
      · refine ⟨l1, e, l2 ++ [n], by rw [hl]; simp, ?_, he, h1, ?_⟩
        · simp [melodyStep, hn]
        · intro x hx
          rcases List.mem_append.1 hx with hx | hx
          · exact h2 x hx
          · rw [List.mem_singleton.1 hx]
            exact not_lt.1 hn

/-- C4. Melody target lookup: if some entry of the melody sequence is less than 0.5 s from
the playback clock, the target pitch is the frequency of an entry at minimal distance
from the clock over the whole sequence, the earliest such entry on ties (every earlier
entry is strictly farther, every later one at least as far); if no entry is less than
0.5 s from the clock, in particular for an empty sequence, the target pitch is 0. -/
theorem melody_target_lookup (melody_map : List (α × α)) (current_time : α) :
    ((∃ x ∈ melody_map, |x.1 - current_time| < 0.5) →
      ∃ l1 e l2, melody_map = l1 ++ e :: l2 ∧
        lookupTargetPitch melody_map current_time = e.2 ∧
        |e.1 - current_time| < 0.5 ∧
        (∀ x ∈ l1, |e.1 - current_time| < |x.1 - current_time|) ∧
        (∀ x ∈ l2, |e.1 - current_time| ≤ |x.1 - current_time|)) ∧
    ((∀ x ∈ melody_map, ¬ |x.1 - current_time| < 0.5) →
      lookupTargetPitch melody_map current_time = 0) := by
  constructor
  · rintro ⟨x, hx, hlt⟩
    rcases melody_scan melody_map current_time with ⟨hall, _⟩ | ⟨l1, e, l2, hl, hacc, he, h1, h2⟩
    · exact absurd hlt (not_lt.2 (hall x hx))
    · exact ⟨l1, e, l2, hl, by simp [lookupTargetPitch, hacc], he, h1, h2⟩
  · intro hnone
    rcases melody_scan melody_map current_time with ⟨_, hacc⟩ | ⟨l1, e, l2, hl, _, he, _, _⟩
    · simp [lookupTargetPitch, hacc]
    · exact absurd he (hnone e (by rw [hl]; simp))

/-- C4 on a three-note melody with a tie: at clock 0.5 the entries at 0.25 and 0.75 are
both 0.25 s away and the earlier one (220 Hz) is the target. -/
theorem melody_target_lookup_witness :
    ∃ l1 e l2, [((0.25 : ℚ), (220 : ℚ)), (0.75, 330), (2, 440)] = l1 ++ e :: l2 ∧
      lookupTargetPitch [((0.25 : ℚ), (220 : ℚ)), (0.75, 330), (2, 440)] 0.5 = e.2 ∧
      |e.1 - 0.5| < 0.5 ∧
      (∀ x ∈ l1, |e.1 - 0.5| < |x.1 - 0.5|) ∧ (∀ x ∈ l2, |e.1 - 0.5| ≤ |x.1 - 0.5|) :=
  (melody_target_lookup [((0.25 : ℚ), (220 : ℚ)), (0.75, 330), (2, 440)] 0.5).1
    ⟨(0.25, 220), by simp, by norm_num [abs_lt]⟩

/-! ## Degenerate frames and the sticky pitch estimate -/

/-- C20. Degenerate frame: for every suppressor state and every `numSamples <= 0`,
`processAudio` returns at once; no field of the state changes and the output buffer
is left as it was. -/
theorem degenerate_frame_noop (m : CMath α) (s : SimpleNoiseSuppressor α)
    (input output : List α) (numSamples : Int) (h : numSamples ≤ 0) :
    SimpleNoiseSuppressor.processAudio m s input output numSamples = some (s, output) := by
  unfold SimpleNoiseSuppressor.processAudio
  rw [if_pos h]

/-- C20 on a call with `numSamples = -5` on the suppressor configured by `main`. -/
theorem degenerate_frame_noop_witness :
    (-5 : Int) ≤ 0 ∧
    SimpleNoiseSuppressor.processAudio
      (CMath.mk Real.sqrt Real.exp (fun x y => x ^ y) Real.sin Real.pi)
      (mainSuppressor : SimpleNoiseSuppressor ℝ) [1, 2, 3] [4, 5, 6] (-5) =
      some (mainSuppressor, [4, 5, 6]) :=
  ⟨by decide, degenerate_frame_noop _ _ _ _ (-5) (by decide)⟩

/-- The state a returning callback leaves: the state after the first part of the
callback, with the suppressor and then the clock and the histories updated. -/
theorem audioCallback_state (m : CMath α) (data data1 : AudioData α) (inp : CallbackInput α)
    (out : List α) (h : audioCallback m data inp = some (data1, out)) :
    ∃ ns, data1 = frameFinish { (frameSetup data inp).1 with noise_suppressor := ns }
      (lookupTargetPitch (frameSetup data inp).1.melody_map
        (frameSetup data inp).1.current_time) := by
  obtain ⟨processed_audio, data4, voice, _, hsup, _, hfin⟩ :=
    audioCallback_eq_some m data data1 inp out h
  obtain ⟨ns, hns⟩ := suppressNoise_eq m _ _ _ _ hsup
  exact ⟨ns, by rw [hfin, hns]⟩

/-- The stored estimate after the first part of the callback. -/
theorem frameSetup_estimate (data : AudioData α) (inp : CallbackInput α) :
    (frameSetup data inp).1.last_pitch =
        (if inp.confidence > 0.3 ∧ inp.pitch > 50 then inp.pitch else data.last_pitch) ∧
      (frameSetup data inp).1.last_confidence =
        (if inp.confidence > 0.3 ∧ inp.pitch > 50 then inp.confidence
          else data.last_confidence) := by
  obtain ⟨vv, st, ps, iv, lc, h⟩ := checkParameterUpdates_eq data inp.now inp.paramFile
  simp only [frameSetup, updatePitchEstimate, h]
  split_ifs <;> exact ⟨rfl, rfl⟩

/-- C19. Sticky pitch estimate: a callback replaces the stored estimate
(`last_pitch`, `last_confidence`) by the detector output of the frame exactly when
`confidence > 0.3` and `pitch > 50`; otherwise both stored fields are left unchanged. -/
theorem sticky_pitch_estimate (m : CMath α) (data data1 : AudioData α) (inp : CallbackInput α)
    (out : List α) (h : audioCallback m data inp = some (data1, out)) :
    (inp.confidence > 0.3 ∧ inp.pitch > 50 →
      data1.last_pitch = inp.pitch ∧ data1.last_confidence = inp.confidence) ∧
    (¬ (inp.confidence > 0.3 ∧ inp.pitch > 50) →
      data1.last_pitch = data.last_pitch ∧ data1.last_confidence = data.last_confidence) := by
  obtain ⟨ns, hns⟩ := audioCallback_state m data data1 inp out h
  obtain ⟨ct, ph, th, tih, hf⟩ := frameFinish_eq
    { (frameSetup data inp).1 with noise_suppressor := ns }
    (lookupTargetPitch (frameSetup data inp).1.melody_map (frameSetup data inp).1.current_time)
  obtain ⟨hp, hc⟩ := frameSetup_estimate data inp
  have h1 : data1.last_pitch = (frameSetup data inp).1.last_pitch := by rw [hns, hf]
  have h2 : data1.last_confidence = (frameSetup data inp).1.last_confidence := by rw [hns, hf]
  rw [h1, h2, hp, hc]
  constructor
  · intro hcond
    simp only [hcond, and_self, if_true]
  · intro hcond
    simp only [hcond, if_false, and_self]

/-- The fields the first part of the callback leaves as they were. -/
theorem frameSetup_kept (data : AudioData α) (inp : CallbackInput α) :
    (frameSetup data inp).1.melody_map = data.melody_map ∧
      (frameSetup data inp).1.current_time = data.current_time ∧
      (frameSetup data inp).1.instrumental = data.instrumental ∧
      (frameSetup data inp).1.noise_suppressor = data.noise_suppressor ∧
      (frameSetup data inp).1.enable_chorus = data.enable_chorus ∧
      (frameSetup data inp).1.chorus_depth = data.chorus_depth ∧
      (frameSetup data inp).1.pitch_history = data.pitch_history ∧
      (frameSetup data inp).1.target_history = data.target_history ∧
      (frameSetup data inp).1.time_history = data.time_history := by
  obtain ⟨vv, st, ps, iv, lc, pos, lp, lcf, hs⟩ := frameSetup_eq data inp
  rw [hs]
  exact ⟨rfl, rfl, rfl, rfl, rfl, rfl, rfl, rfl, rfl⟩

theorem lookupTargetPitch_nil (current_time : α) :
    lookupTargetPitch ([] : List (α × α)) current_time = 0 := rfl

theorem correctionApplies_zero (data : AudioData α) : correctionApplies data 0 = false := by
  simp [correctionApplies]

/-- C19 on the first frame of a session without melody: the detector reports 440 Hz with
confidence 0.9 and both values are stored. -/
theorem sticky_pitch_estimate_witness :
    ∃ data1 out,
      audioCallback (CMath.mk Real.sqrt Real.exp (fun x y => x ^ y) Real.sin Real.pi)
        (initialAudioData [] [])
        { inputBuffer := List.replicate 256 0, now := 0, paramFile := none,
          pitch := 440, confidence := 0.9 } = some (data1, out) ∧
      data1.last_pitch = 440 ∧ data1.last_confidence = 0.9 := by
  obtain ⟨data1, out, h⟩ := audioCallback_total
    (CMath.mk Real.sqrt Real.exp (fun x y => x ^ y) Real.sin Real.pi)
    (initialAudioData [] [])
    { inputBuffer := List.replicate 256 0, now := 0, paramFile := none,
      pitch := 440, confidence := 0.9 }
    (checkParameterUpdatesThrows_none _ _)
    (by simp only [List.length_replicate, FRAMES_PER_BUFFER])
    (by rw [(frameSetup_kept _ _).1]; exact correctionApplies_zero _)
    (fun ns hns => by
      simp only [initialAudioData, Option.some.injEq] at hns
      rw [← hns]
      exact wellFormed_mainSuppressor)
    rfl
  exact ⟨data1, out, h, (sticky_pitch_estimate _ _ _ _ _ h).1 ⟨by norm_num, by norm_num⟩⟩

/-! ## The VAD probability -/

namespace SimpleNoiseSuppressor

theorem clamp_mono (a b lo hi : α) (hlohi : lo ≤ hi) (h : a ≤ b) :
    clamp a lo hi ≤ clamp b lo hi := by
  unfold clamp
  split_ifs with h1 h2 h3 h4 h5 h6 <;> linarith

/-- C12. VAD probability: `calculateVADProbability` returns a value in [0, 1] (for every
signal level >= 0 and noise level > 0, indeed for all arguments), and for noise levels
>= 0.001 it is monotonically non-decreasing in the ratio `signal_level / noise_level`.
The library facts used are that `exp` is positive and non-decreasing. -/
theorem vad_probability_range_monotone (m : CMath α) (hpos : ∀ x, 0 < m.exp x)
    (hmono : ∀ x y, x ≤ y → m.exp x ≤ m.exp y) :
    (∀ signalLevel noiseLevel : α, 0 ≤ signalLevel → 0 < noiseLevel →
      0 ≤ calculateVADProbability m signalLevel noiseLevel ∧
        calculateVADProbability m signalLevel noiseLevel ≤ 1) ∧
    (∀ s1 n1 s2 n2 : α, 0.001 ≤ n1 → 0.001 ≤ n2 → s1 / n1 ≤ s2 / n2 →
      calculateVADProbability m s1 n1 ≤ calculateVADProbability m s2 n2) := by
  constructor
  · intro signalLevel noiseLevel _ _
    unfold calculateVADProbability
    split_ifs
    · norm_num
    · exact clamp_bounds _ 0 1 zero_le_one
  · intro s1 n1 s2 n2 h1 h2 hle
    have hn1 : ¬ n1 < MIN_NOISE_LEVEL := by unfold MIN_NOISE_LEVEL; exact not_lt.2 h1
    have hn2 : ¬ n2 < MIN_NOISE_LEVEL := by unfold MIN_NOISE_LEVEL; exact not_lt.2 h2
    simp only [calculateVADProbability, hn1, hn2, if_false]
    apply clamp_mono _ _ 0 1 zero_le_one
    have hexp : m.exp (-5 * (s2 / n2 - 2)) ≤ m.exp (-5 * (s1 / n1 - 2)) :=
      hmono _ _ (by linarith)
    have hp2 := hpos (-5 * (s2 / n2 - 2))
    exact one_div_le_one_div_of_le (by linarith) (by linarith)

/-- C12 with the real exponential, at signal levels 0.002 and 0.004 over the noise floor
0.001. -/
theorem vad_probability_range_monotone_witness :
    (0 ≤ calculateVADProbability
        (CMath.mk Real.sqrt Real.exp (fun x y => x ^ y) Real.sin Real.pi) 0.002 0.001 ∧
      calculateVADProbability
        (CMath.mk Real.sqrt Real.exp (fun x y => x ^ y) Real.sin Real.pi) 0.002 0.001 ≤ 1) ∧
    calculateVADProbability
        (CMath.mk Real.sqrt Real.exp (fun x y => x ^ y) Real.sin Real.pi) 0.002 0.001 ≤
      calculateVADProbability
        (CMath.mk Real.sqrt Real.exp (fun x y => x ^ y) Real.sin Real.pi) 0.004 0.001 :=
  ⟨(vad_probability_range_monotone
      (CMath.mk Real.sqrt Real.exp (fun x y => x ^ y) Real.sin Real.pi)
      Real.exp_pos (fun _ _ h => Real.exp_le_exp.2 h)).1 0.002 0.001 (by norm_num) (by norm_num),
    (vad_probability_range_monotone
      (CMath.mk Real.sqrt Real.exp (fun x y => x ^ y) Real.sin Real.pi)
      Real.exp_pos (fun _ _ h => Real.exp_le_exp.2 h)).2 0.002 0.001 0.004 0.001
      (by norm_num) (by norm_num) (by norm_num)⟩

end SimpleNoiseSuppressor

/-! ## The high-pass filter -/

namespace SimpleNoiseSuppressor

/-- The filter coefficient is below 1 for a positive `M_PI` and sample rate. -/
theorem highPassAlpha_lt_one (m : CMath α) (hpi : 0 < m.M_PI) (sampleRate : Int)
    (hsr : 0 < sampleRate) : highPassAlpha m sampleRate < 1 := by
  have hsr1 : (0 : α) < (sampleRate : α) := by exact_mod_cast hsr
  have hrc : (0 : α) < 1 / (2 * m.M_PI * 80) := by positivity
  have hdt : (0 : α) < 1 / (sampleRate : α) := by positivity
  unfold highPassAlpha
  rw [div_lt_one (by linarith)]
  linarith

/-- A returning call on a non-degenerate frame: the state handed to the gate and
reduction blocks differs from the state before the call in the levels, the history and
the VAD and grace fields only. -/
theorem processAudio_gate_state (m : CMath α) (s s1 : Karaoke.SimpleNoiseSuppressor α)
    (input output out : List α) (numSamples : Int) (hn : 0 < numSamples)
    (h : processAudio m s input output numSamples = some (s1, out)) :
    ∃ s7, s1 = (gateAndReduce m s7 (input.take numSamples.toNat)).1 ∧
      out = (gateAndReduce m s7 (input.take numSamples.toNat)).2 ++
        output.drop numSamples.toNat ∧
      s7.m_noiseGateThreshold = s.m_noiseGateThreshold ∧
      s7.m_noiseReductionStrength = s.m_noiseReductionStrength ∧
      s7.m_sampleRate = s.m_sampleRate ∧ s7.prevSample = s.prevSample := by
  obtain ⟨s6, s7, h6, h7, hs1, hout, _, _⟩ :=
    processAudio_eq_some m s s1 input output out _ hn h
  obtain ⟨med, _, hs6⟩ := updateLevels_eq_some m s s6 _ _ h6
  obtain ⟨c, g, hs7⟩ := handleGracePeriod_eq_some s6 s7 numSamples h7
  refine ⟨s7, hs1, hout, ?_, ?_, ?_, ?_⟩ <;> rw [hs7, hs6]

/-- C11 (amended). High-pass filter: on every `processAudio` call with `numSamples > 0`
and `noise_reduction_strength > 0`, whatever the VAD state and the thresholds, the
first-order high-pass filter is applied to the frame: the output is the filter output
of the frame (hard-gated or not), scaled or not by `1 - noise_reduction_strength`, and
`prevSample` is advanced.  With `noise_reduction_strength <= 0` (the setter allows 0)
the filter is not applied: the output is the frame, hard-gated or not, and
`prevSample` is unchanged. -/
theorem high_pass_applied (m : CMath α) (s s1 : Karaoke.SimpleNoiseSuppressor α)
    (input output out : List α) (numSamples : Int) (hn : 0 < numSamples)
    (h : processAudio m s input output numSamples = some (s1, out)) :
    (0 < s.m_noiseReductionStrength →
      ∃ gated factor,
        (gated = input.take numSamples.toNat ∨
          gated = applyNoiseGate s (input.take numSamples.toNat)) ∧
        (factor = 1 ∨ factor = 1 - s.m_noiseReductionStrength) ∧
        out = (highPassLoop (highPassAlpha m s.m_sampleRate) s.prevSample gated).1.map
            (fun x => x * factor) ++ output.drop numSamples.toNat ∧
        s1.prevSample =
          (highPassLoop (highPassAlpha m s.m_sampleRate) s.prevSample gated).2) ∧
    (¬ 0 < s.m_noiseReductionStrength →
      (out = input.take numSamples.toNat ++ output.drop numSamples.toNat ∨
        out = applyNoiseGate s (input.take numSamples.toNat) ++
          output.drop numSamples.toNat) ∧
      s1.prevSample = s.prevSample) := by
  obtain ⟨s7, hs1, hout, hthr, hstr, hsr, hprev⟩ :=
    processAudio_gate_state m s s1 input output out numSamples hn h
  have hgate : applyNoiseGate s7 (input.take numSamples.toNat) =
      applyNoiseGate s (input.take numSamples.toNat) := by
    simp only [applyNoiseGate, hthr]
  rw [hs1, hout]
  constructor
  · intro hpos
    have hpos7 : s7.m_noiseReductionStrength > 0 := by rw [hstr]; exact hpos
    cases hv : s7.m_voiceActive with
    | true =>
      refine ⟨input.take numSamples.toNat, 1, Or.inl rfl, Or.inl rfl, ?_, ?_⟩ <;>
        simp [gateAndReduce, applySpectralNoiseReduction, hv, hpos7, hsr, hprev]
    | false =>
      cases hg : s7.m_inGracePeriod with
      | true =>
        refine ⟨input.take numSamples.toNat, 1 - s.m_noiseReductionStrength, Or.inl rfl,
          Or.inr rfl, ?_, ?_⟩ <;>
          simp [gateAndReduce, applySpectralNoiseReduction, hv, hg, hpos, hsr, hprev, hstr]
      | false =>
        refine ⟨applyNoiseGate s (input.take numSamples.toNat),
          1 - s.m_noiseReductionStrength, Or.inr rfl, Or.inr rfl, ?_, ?_⟩ <;>
          simp [gateAndReduce, applySpectralNoiseReduction, hv, hg, hpos, hsr, hprev, hstr,
            hgate]
  · intro hnot
    have hnot7 : ¬ s7.m_noiseReductionStrength > 0 := by rw [hstr]; exact hnot
    simp only [gateAndReduce, hnot7, if_false, hgate, hprev, and_true]
    split_ifs
    · exact Or.inr rfl
    · exact Or.inl rfl

/-- C11 on the first frame after `main` has configured the suppressor (strength 0.6). -/
theorem high_pass_applied_witness :
    ∃ s1 out,
      processAudio (CMath.mk Real.sqrt Real.exp (fun x y => x ^ y) Real.sin Real.pi)
        mainSuppressor [1 / 50] [1 / 50] 1 = some (s1, out) ∧
      ∃ gated factor,
        (gated = List.take (1 : Int).toNat [(1 / 50 : ℝ)] ∨
          gated = applyNoiseGate mainSuppressor (List.take (1 : Int).toNat [(1 / 50 : ℝ)])) ∧
        (factor = 1 ∨
          factor = 1 - (mainSuppressor : Karaoke.SimpleNoiseSuppressor ℝ).m_noiseReductionStrength) ∧
        out = (highPassLoop
          (highPassAlpha (CMath.mk Real.sqrt Real.exp (fun x y => x ^ y) Real.sin Real.pi)
            (mainSuppressor : Karaoke.SimpleNoiseSuppressor ℝ).m_sampleRate)
          (mainSuppressor : Karaoke.SimpleNoiseSuppressor ℝ).prevSample gated).1.map
            (fun x => x * factor) ++ List.drop (1 : Int).toNat [(1 / 50 : ℝ)] ∧
        s1.prevSample = (highPassLoop
          (highPassAlpha (CMath.mk Real.sqrt Real.exp (fun x y => x ^ y) Real.sin Real.pi)
            (mainSuppressor : Karaoke.SimpleNoiseSuppressor ℝ).m_sampleRate)
          (mainSuppressor : Karaoke.SimpleNoiseSuppressor ℝ).prevSample gated).2 := by
  obtain ⟨s1, out, h, _, _⟩ := processAudio_total
    (CMath.mk Real.sqrt Real.exp (fun x y => x ^ y) Real.sin Real.pi)
    (mainSuppressor : Karaoke.SimpleNoiseSuppressor ℝ) [1 / 50] [1 / 50] 1
    wellFormed_mainSuppressor (by decide) (by decide) (by simp) (by simp)
  exact ⟨s1, out, h, (high_pass_applied _ _ s1 _ _ out 1 (by decide) h).1
    (by rw [mainSuppressor_eq]; norm_num)⟩

/-- The suppressor configured by `main`, then set to strength 0. -/
theorem zeroStrength_eq :
    (setNoiseReductionStrength mainSuppressor 0 : Karaoke.SimpleNoiseSuppressor α) =
      { m_sampleRate := 48000
        m_noiseGateThreshold := 0.01
        m_vadThreshold := 0.3
        m_gracePeriod := 200
        m_noiseReductionStrength := 0
        m_noiseHistory := List.replicate NOISE_HISTORY_SIZE 0
        m_noiseLevel := 0.001
        m_signalLevel := 0
        m_vadProbability := 0
        m_voiceActive := false
        m_graceCounter := 0
        m_inGracePeriod := false
        m_spectrum := List.replicate 256 0
        prevSample := 0 } := by
  have h0 : clamp (0 : α) 0 1 = 0 := by unfold clamp; norm_num
  rw [mainSuppressor_eq]
  simp only [setNoiseReductionStrength, h0]

/-- C11 as stated fails for `noise_reduction_strength = 0`, a value in [0, 1] that
`setNoiseReductionStrength` accepts.  On the suppressor configured by `main` and then
set to strength 0, the frame `[1/50]` comes out unchanged, while the high-pass filter
would give `alpha * (1/50)` with `alpha < 1`; the gate leaves the sample (0.02 >= 0.01)
and the factor `1 - 0` is 1, so neither explains the difference. -/
theorem high_pass_skipped_counterexample :
    ∃ s1 out,
      processAudio (CMath.mk Real.sqrt Real.exp (fun x y => x ^ y) Real.sin Real.pi)
        (setNoiseReductionStrength mainSuppressor 0) [1 / 50] [1 / 50] 1 = some (s1, out) ∧
      (setNoiseReductionStrength mainSuppressor 0 :
        Karaoke.SimpleNoiseSuppressor ℝ).m_noiseReductionStrength = 0 ∧
      out = [1 / 50] ∧
      applyNoiseGate (setNoiseReductionStrength mainSuppressor 0) [(1 / 50 : ℝ)] = [1 / 50] ∧
      out ≠ (highPassLoop
        (highPassAlpha (CMath.mk Real.sqrt Real.exp (fun x y => x ^ y) Real.sin Real.pi)
          (setNoiseReductionStrength mainSuppressor 0 :
            Karaoke.SimpleNoiseSuppressor ℝ).m_sampleRate)
        (setNoiseReductionStrength mainSuppressor 0 :
          Karaoke.SimpleNoiseSuppressor ℝ).prevSample [1 / 50]).1 := by
  have hwf0 : WellFormed (setNoiseReductionStrength mainSuppressor 0 :
      Karaoke.SimpleNoiseSuppressor ℝ) := by
    rw [zeroStrength_eq]
    refine ⟨List.length_replicate _ _, ?_, ?_, ?_, ?_⟩
    · show (0 : Int) < 48000
      decide
    · show (0 : Int) ≤ 200
      decide
    · show (200 : Int) ≤ INT_MAX
      decide
    · intro h
      exact absurd h (by simp)
  have hq0 : QuietHistory (setNoiseReductionStrength mainSuppressor 0 :
      Karaoke.SimpleNoiseSuppressor ℝ).m_noiseHistory (498 + 502) := by
    rw [zeroStrength_eq]
    exact quietHistory_replicate
  obtain ⟨s1, out, h1, _, _, _, _, _, _, _, hv1⟩ := processAudio_single
    (CMath.mk Real.sqrt Real.exp (fun x y => x ^ y) Real.sin Real.pi) rfl
    (setNoiseReductionStrength mainSuppressor 0) (1 / 50) (by norm_num) 498 hwf0 hq0
    (by rw [zeroStrength_eq])
  rw [zeroStrength_eq] at hv1
  simp only at hv1
  have hact1 : s1.m_voiceActive = true := by
    rw [hv1]
    have : (0.9 : ℝ) * 0 + 0.1 * (1 / 50) = 0.002 := by norm_num
    rw [this, calculateVADProbability_at_two _ rfl]
    simp only [decide_eq_true_eq]
    norm_num
  obtain ⟨s7, hs1, hout, _, hstr7, _, _⟩ := processAudio_gate_state _ _ s1 _ _ out 1
    (by decide) h1
  obtain ⟨p, hp⟩ := gateAndReduce_fst
    (CMath.mk Real.sqrt Real.exp (fun x y => x ^ y) Real.sin Real.pi) s7
    (List.take (1 : Int).toNat [(1 / 50 : ℝ)])
  have hv7 : s7.m_voiceActive = true := by
    rw [hs1, hp] at hact1
    exact hact1
  have hstr0 : (setNoiseReductionStrength mainSuppressor 0 :
      Karaoke.SimpleNoiseSuppressor ℝ).m_noiseReductionStrength = 0 := by
    rw [zeroStrength_eq]
  have hnot7 : ¬ s7.m_noiseReductionStrength > 0 := by
    rw [hstr7, hstr0]
    exact lt_irrefl 0
  have hout1 : out = [1 / 50] := by
    rw [hout]
    simp only [gateAndReduce, hv7, hnot7, Bool.not_true, Bool.false_and, Bool.false_eq_true,
      if_false]
    rfl
  have hgate : applyNoiseGate (setNoiseReductionStrength mainSuppressor 0)
      [(1 / 50 : ℝ)] = [1 / 50] := by
    rw [zeroStrength_eq]
    simp only [applyNoiseGate, List.map_cons, List.map_nil]
    have : ¬ |(1 / 50 : ℝ)| < 0.01 := by
      rw [abs_of_pos (by norm_num)]
      norm_num
    rw [if_neg this]
  refine ⟨s1, out, h1, hstr0, hout1, hgate, ?_⟩
  rw [hout1, zeroStrength_eq]
  have halpha := highPassAlpha_lt_one
    (CMath.mk Real.sqrt Real.exp (fun x y => x ^ y) Real.sin Real.pi) Real.pi_pos 48000
    (by decide)
  simp only [highPassLoop, ne_eq, List.cons.injEq, and_true]
  intro heq
  have : highPassAlpha (CMath.mk Real.sqrt Real.exp (fun x y => x ^ y) Real.sin Real.pi) 48000 =
      1 := by
    have h2 : highPassAlpha (CMath.mk Real.sqrt Real.exp (fun x y => x ^ y) Real.sin Real.pi)
        48000 * (1 / 50) = 1 * (1 / 50) := by
      rw [one_mul]
      have h3 : (0 : ℝ) + 1 / 50 - 0 = 1 / 50 := by norm_num
      rw [h3] at heq
      exact heq.symm
    exact mul_right_cancel₀ (by norm_num) h2
  linarith

end SimpleNoiseSuppressor

/-! ## The mixer -/

/-- The two clamping statements of the mixing loop amount to `std::clamp(x, -1, 1)`. -/
theorem clampOutput_eq_clamp (x : α) : clampOutput x = clamp x (-1) 1 := by
  unfold clampOutput clamp
  by_cases h1 : x > 1
  · have h2 : ¬ x < -1 := by linarith
    have h3 : ¬ (1 : α) < -1 := by norm_num
    simp only [h1, h2, h3, if_true, if_false, gt_iff_lt.1 h1]
  · have h1' : ¬ 1 < x := h1
    simp only [h1, h1', if_false]

theorem floatToInt_eq_some (x : α) (c : Int) (h : floatToInt x = some c) : c = truncate x := by
  unfold floatToInt checkInt at h
  split_ifs at h
  exact (Option.some.inj h).symm

theorem tmod_negSucc (n : Nat) :
    (Int.negSucc n).tmod 256 = -(((n + 1) % 256 : Nat) : Int) := rfl

/-- A non-negative C++ remainder modulo 256 is the non-negative residue. -/
theorem tmod_eq_emod_of_nonneg (c : Int) (h : 0 ≤ c.tmod 256) : c.tmod 256 = c % 256 := by
  cases c with
  | ofNat n => exact Int.tmod_eq_emod (Int.ofNat_nonneg n) (by decide)
  | negSucc n =>
    rw [tmod_negSucc] at h ⊢
    rw [Int.negSucc_eq]
    omega

theorem readAt_eq_some {β : Type} (buf : List β) (idx : Int) (v : β)
    (h : readAt buf idx = some v) : 0 ≤ idx ∧ buf[idx.toNat]? = some v := by
  unfold readAt at h
  split_ifs at h with h0
  exact ⟨h0, h⟩

/-- The chorus block when it returns: without chorus the value is unchanged; with chorus
the tap is read at the truncated sum `i + chorus_offset` reduced modulo the frame size. -/
theorem applyChorus_eq_some (m : CMath α) (data : AudioData α) (processed_audio : List α)
    (i : Nat) (out0 x : α) (h : applyChorus m data processed_audio i out0 = some x) :
    (data.enable_chorus = false → x = out0) ∧
    (data.enable_chorus = true →
      ∃ tap, processed_audio[(truncate ((i : α) +
          m.sin (data.current_time * 2 * m.M_PI * 0.5) * data.chorus_depth) %
            (FRAMES_PER_BUFFER : Int)).toNat]? = some tap ∧
        x = out0 + 0.3 * tap) := by
  unfold applyChorus at h
  cases hc : data.enable_chorus with
  | false =>
    rw [hc] at h
    simp only [Bool.false_eq_true, if_false, Option.some.injEq] at h
    exact ⟨fun _ => h.symm, fun h1 => absurd h1 (by simp)⟩
  | true =>
    rw [hc] at h
    simp only [if_true] at h
    refine ⟨fun h1 => absurd h1 (by simp), fun _ => ?_⟩
    simp only [chorusIdx] at h
    cases hf : floatToInt ((i : α) +
        m.sin (data.current_time * 2 * m.M_PI * 0.5) * data.chorus_depth) with
    | none =>
      simp [hf] at h
    | some c =>
      simp only [hf] at h
      cases hr : readAt processed_audio (c.tmod (FRAMES_PER_BUFFER : Int)) with
      | none =>
        rw [hr] at h
        simp at h
      | some tap =>
        rw [hr] at h
        simp only [Option.some.injEq] at h
        obtain ⟨h0, hget⟩ := readAt_eq_some _ _ _ hr
        have hc' := floatToInt_eq_some _ _ hf
        have hmod : c.tmod (FRAMES_PER_BUFFER : Int) = c % (FRAMES_PER_BUFFER : Int) :=
          tmod_eq_emod_of_nonneg c h0
        rw [hmod, hc'] at hget
        exact ⟨tap, hget, h.symm⟩

/-- One returning iteration of the mixing loop. -/
theorem mixSample_eq_some (m : CMath α) (data : AudioData α)
    (instrumental_chunk processed_audio : List α) (i : Nat) (v : α)
    (h : mixSample m data instrumental_chunk processed_audio i = some v) :
    ∃ inst voice x, instrumental_chunk[i]? = some inst ∧ processed_audio[i]? = some voice ∧
      applyChorus m data processed_audio i
        (data.instrument_volume * inst + data.voice_volume * voice) = some x ∧
      v = clamp x (-1) 1 := by
  unfold mixSample at h
  simp only [readAt_natCast] at h
  cases h1 : instrumental_chunk[i]? with
  | none => simp [h1] at h
  | some inst =>
    cases h2 : processed_audio[i]? with
    | none => simp [h1, h2] at h
    | some voice =>
      simp only [h1, h2, Option.map_eq_some'] at h
      obtain ⟨x, hx, hv⟩ := h
      exact ⟨inst, voice, x, rfl, rfl, hx, by rw [← hv, clampOutput_eq_clamp]⟩

/-- The mixer formula on a returning callback: for every `i` in [0, F), with
chorus disabled the output sample is
`clamp(instrument_volume * instrumental[i] + voice_volume * voice[i], -1, 1)`, and with
chorus enabled it is that sum plus `0.3 * voice[(i + offset) mod F]` under the same
clamp, where `offset = sin(clock * 2 * pi * 0.5) * chorus_depth`, the sum `i + offset` is
truncated to an `int` and reduced to its non-negative residue, `instrumental` is the
chunk of the frame, `voice` the noise-suppressed corrected frame, and the volumes are
those in force after the parameter update of the frame. -/
theorem mixer_formula (m : CMath α) (data data1 : AudioData α) (inp : CallbackInput α)
    (out : List α) (h : audioCallback m data inp = some (data1, out)) :
    ∃ processed_audio data4 voice,
      correctVoice m (frameSetup data inp).1 inp.inputBuffer
        (lookupTargetPitch (frameSetup data inp).1.melody_map
          (frameSetup data inp).1.current_time) = some processed_audio ∧
      suppressNoise m (frameSetup data inp).1 processed_audio = some (data4, voice) ∧
      ∀ i, i < FRAMES_PER_BUFFER →
        ∃ inst v, (frameSetup data inp).2[i]? = some inst ∧ voice[i]? = some v ∧
          ((frameSetup data inp).1.enable_chorus = false →
            out[i]? = some (clamp ((frameSetup data inp).1.instrument_volume * inst +
              (frameSetup data inp).1.voice_volume * v) (-1) 1)) ∧
          ((frameSetup data inp).1.enable_chorus = true →
            ∃ tap, voice[(truncate ((i : α) +
                m.sin ((frameSetup data inp).1.current_time * 2 * m.M_PI * 0.5) *
                  (frameSetup data inp).1.chorus_depth) % (FRAMES_PER_BUFFER : Int)).toNat]? =
                some tap ∧
              out[i]? = some (clamp ((frameSetup data inp).1.instrument_volume * inst +
                (frameSetup data inp).1.voice_volume * v + 0.3 * tap) (-1) 1)) := by
  obtain ⟨processed_audio, data4, voice, hcorr, hsup, hmix, _⟩ :=
    audioCallback_eq_some m data data1 inp out h
  obtain ⟨ns, hns⟩ := suppressNoise_eq m _ _ _ _ hsup
  refine ⟨processed_audio, data4, voice, hcorr, hsup, ?_⟩
  intro i hi
  obtain ⟨hlen, hget⟩ := collect_map_range_getElem? _ _ _ hmix
  have hi' : i < out.length := by rw [hlen]; exact hi
  have hsome := hget i hi
  rw [List.getElem?_eq_getElem hi'] at hsome
  obtain ⟨inst, v, x, h1, h2, hx, hv⟩ := mixSample_eq_some m data4 _ voice i _ hsome
  obtain ⟨hoff, hon⟩ := applyChorus_eq_some m data4 voice i _ x hx
  have hiv : data4.instrument_volume = (frameSetup data inp).1.instrument_volume := by rw [hns]
  have hvv : data4.voice_volume = (frameSetup data inp).1.voice_volume := by rw [hns]
  have hch : data4.enable_chorus = (frameSetup data inp).1.enable_chorus := by rw [hns]
  have hct : data4.current_time = (frameSetup data inp).1.current_time := by rw [hns]
  have hcd : data4.chorus_depth = (frameSetup data inp).1.chorus_depth := by rw [hns]
  rw [hiv, hvv, hch] at hoff hon
  rw [hct, hcd] at hon
  refine ⟨inst, v, h1, h2, ?_, ?_⟩
  · intro hc
    rw [List.getElem?_eq_getElem hi', hv, hoff hc]
  · intro hc
    obtain ⟨tap, htap, hxe⟩ := hon hc
    refine ⟨tap, htap, ?_⟩
    rw [List.getElem?_eq_getElem hi', hv, hxe]

/-- The chorus index depends on the clock and the chorus depth only. -/
theorem chorusIdx_congr (m : CMath α) (data data4 : AudioData α) (i : Nat)
    (ht : data4.current_time = data.current_time) (hd : data4.chorus_depth = data.chorus_depth) :
    chorusIdx m data4 i = chorusIdx m data i := by
  simp only [chorusIdx, ht, hd]

/-- With a chorus index inside the frame the mixing loop does not fault. -/
theorem mixSample_total_chorus (m : CMath α) (data : AudioData α)
    (instrumental_chunk processed_audio : List α) (i : Nat) (hi : i < FRAMES_PER_BUFFER)
    (h1 : instrumental_chunk.length = FRAMES_PER_BUFFER)
    (h2 : processed_audio.length = FRAMES_PER_BUFFER)
    (hc : data.enable_chorus = true →
      ∃ c, chorusIdx m data i = some c ∧ 0 ≤ c ∧ c < (FRAMES_PER_BUFFER : Int)) :
    ∃ v, mixSample m data instrumental_chunk processed_audio i = some v := by
  cases hch : data.enable_chorus with
  | false => exact mixSample_total m data _ _ i hch hi h1 h2
  | true =>
    obtain ⟨c, hidx, hc0, hc1⟩ := hc hch
    have hi1 : i < instrumental_chunk.length := by rw [h1]; exact hi
    have hi2 : i < processed_audio.length := by rw [h2]; exact hi
    have hc2 : c.toNat < processed_audio.length := by
      rw [h2]
      omega
    have hread : readAt processed_audio c = some processed_audio[c.toNat] := by
      simp only [readAt, hc0, if_true, List.getElem?_eq_getElem hc2]
    simp only [mixSample, applyChorus, readAt_natCast, List.getElem?_eq_getElem hi1,
      List.getElem?_eq_getElem hi2, hch, if_true, hidx, hread, Option.map_some']
    exact ⟨_, rfl⟩

/-- The noise-suppression step on a well-formed suppressor, if any: it returns a frame
of the same size and a well-formed suppressor. -/
theorem suppressNoise_returns (m : CMath α) (data : AudioData α) (processed_audio : List α)
    (hns : ∀ ns, data.noise_suppressor = some ns → SimpleNoiseSuppressor.WellFormed ns)
    (hlen : processed_audio.length = FRAMES_PER_BUFFER) :
    ∃ data4 voice, suppressNoise m data processed_audio = some (data4, voice) ∧
      voice.length = FRAMES_PER_BUFFER ∧
      (∀ ns, data4.noise_suppressor = some ns → SimpleNoiseSuppressor.WellFormed ns) ∧
      (data.noise_suppressor = none → voice = processed_audio) := by
  unfold suppressNoise
  cases h : data.noise_suppressor with
  | none =>
    refine ⟨_, _, rfl, hlen, ?_, fun _ => rfl⟩
    intro ns hns1
    exact hns ns (h ▸ hns1)
  | some ns =>
    have hle : ((FRAMES_PER_BUFFER : Nat) : Int).toNat ≤ processed_audio.length := by
      rw [hlen]
      simp
    obtain ⟨s1, out, hp, hwf, hout⟩ := SimpleNoiseSuppressor.processAudio_total m ns
      processed_audio processed_audio (FRAMES_PER_BUFFER : Nat) (hns ns h) (by decide)
      (by decide) hle hle
    simp only [hp]
    refine ⟨_, _, rfl, by rw [hout, hlen], ?_, fun h0 => absurd h0 (by simp)⟩
    intro ns1 hns1
    simp only [Option.some.injEq] at hns1
    rw [← hns1]
    exact hwf

/-- With a parameter file read without exception, a full input frame, no correction, a
well-formed suppressor (if any) and chorus indices inside the frame (if the chorus is
enabled), the callback returns, and the suppressor it leaves is well-formed. -/
theorem audioCallback_returns (m : CMath α) (data : AudioData α) (inp : CallbackInput α)
    (hthrow : checkParameterUpdatesThrows data inp.now inp.paramFile = false)
    (hlen : inp.inputBuffer.length = FRAMES_PER_BUFFER)
    (hgate : correctionApplies (frameSetup data inp).1
      (lookupTargetPitch (frameSetup data inp).1.melody_map
        (frameSetup data inp).1.current_time) = false)
    (hns : ∀ ns, data.noise_suppressor = some ns → SimpleNoiseSuppressor.WellFormed ns)
    (hch : data.enable_chorus = true → ∀ i, i < FRAMES_PER_BUFFER →
      ∃ c, chorusIdx m data i = some c ∧ 0 ≤ c ∧ c < (FRAMES_PER_BUFFER : Int)) :
    ∃ data1 out, audioCallback m data inp = some (data1, out) ∧
      ∀ ns, data1.noise_suppressor = some ns → SimpleNoiseSuppressor.WellFormed ns := by
  have hcopy := collect_copy inp.inputBuffer hlen
  have hcorr : correctVoice m (frameSetup data inp).1 inp.inputBuffer
      (lookupTargetPitch (frameSetup data inp).1.melody_map
        (frameSetup data inp).1.current_time) = some inp.inputBuffer := by
    simp only [correctVoice, hgate, Bool.false_eq_true, if_false, hcopy]
  obtain ⟨_, hkt, _, hkns, hkch, hkcd, _, _, _⟩ := frameSetup_kept data inp
  have hns1 : ∀ ns, (frameSetup data inp).1.noise_suppressor = some ns →
      SimpleNoiseSuppressor.WellFormed ns := by
    rw [hkns]
    exact hns
  obtain ⟨data4, voice, hsup, hvoice, hwf4, _⟩ :=
    suppressNoise_returns m _ inp.inputBuffer hns1 hlen
  obtain ⟨ns, hd4⟩ := suppressNoise_eq m _ _ _ _ hsup
  have hch4 : data4.enable_chorus = data.enable_chorus := by rw [hd4, ← hkch]
  have hct4 : data4.current_time = data.current_time := by rw [hd4, ← hkt]
  have hcd4 : data4.chorus_depth = data.chorus_depth := by rw [hd4, ← hkcd]
  obtain ⟨out, hmix⟩ := collect_map_exists (List.range FRAMES_PER_BUFFER)
    (mixSample m data4 (frameSetup data inp).2 voice)
    (fun i hi => mixSample_total_chorus m data4 _ voice i (List.mem_range.1 hi)
      (frameSetup_chunk_length data inp) hvoice
      (fun hc => by
        rw [chorusIdx_congr m data data4 i hct4 hcd4]
        exact hch (hch4 ▸ hc) i (List.mem_range.1 hi)))
  simp only [audioCallback, hthrow, Bool.false_eq_true, if_false, hcopy, hcorr, hsup, hmix]
  refine ⟨_, _, rfl, ?_⟩
  obtain ⟨ct, ph, th, tih, hf⟩ := frameFinish_eq data4
    (lookupTargetPitch (frameSetup data inp).1.melody_map (frameSetup data inp).1.current_time)
  rw [hf]
  exact hwf4

/-- At clock 0 the chorus offset is 0 and the chorus index of iteration `i` is `i`. -/
theorem chorusIdx_clock_zero (data : AudioData ℝ) (i : Nat) (hi : i < FRAMES_PER_BUFFER)
    (ht : data.current_time = 0) :
    chorusIdx (CMath.mk Real.sqrt Real.exp (fun x y => x ^ y) Real.sin Real.pi) data i = some (i : Int) := by
  have hi' : (i : Int) < 256 := by
    unfold FRAMES_PER_BUFFER at hi
    exact_mod_cast hi
  simp only [chorusIdx, ht, zero_mul, Real.sin_zero, add_zero, floatToInt_natCast i hi,
    FRAMES_PER_BUFFER, Option.some.injEq]
  exact Int.tmod_eq_of_lt (Int.ofNat_nonneg i) hi'

/-- The first frame of a session with the chorus enabled at the depth that `main` sets when
no depth is given: the callback returns. -/
theorem audioCallback_first_frame_chorus :
    ∃ data1 out,
      audioCallback (CMath.mk Real.sqrt Real.exp (fun x y => x ^ y) Real.sin Real.pi)
        { (initialAudioData [1, 1, 1] [] : AudioData ℝ) with enable_chorus := true }
        silentInput = some (data1, out) := by
  obtain ⟨data1, out, h, _⟩ := audioCallback_returns (CMath.mk Real.sqrt Real.exp (fun x y => x ^ y) Real.sin Real.pi)
    { (initialAudioData [1, 1, 1] [] : AudioData ℝ) with enable_chorus := true } silentInput
    (checkParameterUpdatesThrows_none _ _)
    (by simp only [silentInput, List.length_replicate])
    (by rw [(frameSetup_kept _ _).1]; exact correctionApplies_zero _)
    (fun ns hns => by
      simp only [initialAudioData, Option.some.injEq] at hns
      rw [← hns]
      exact wellFormed_mainSuppressor)
    (fun _ i hi => ⟨(i : Int), chorusIdx_clock_zero _ i hi rfl, Int.ofNat_nonneg i,
      by exact_mod_cast hi⟩)
  exact ⟨data1, out, h⟩

/-- The mixer formula on the first frame of a session with the chorus enabled. -/
theorem mixer_formula_witness :
    ∃ data1 out,
      audioCallback (CMath.mk Real.sqrt Real.exp (fun x y => x ^ y) Real.sin Real.pi)
        { (initialAudioData [1, 1, 1] [] : AudioData ℝ) with enable_chorus := true }
        silentInput = some (data1, out) ∧
    ∃ processed_audio data4 voice,
      correctVoice (CMath.mk Real.sqrt Real.exp (fun x y => x ^ y) Real.sin Real.pi) (frameSetup
          { (initialAudioData [1, 1, 1] [] : AudioData ℝ) with enable_chorus := true }
          silentInput).1 (silentInput : CallbackInput ℝ).inputBuffer
        (lookupTargetPitch (frameSetup
          { (initialAudioData [1, 1, 1] [] : AudioData ℝ) with enable_chorus := true }
          silentInput).1.melody_map
          (frameSetup
          { (initialAudioData [1, 1, 1] [] : AudioData ℝ) with enable_chorus := true }
          silentInput).1.current_time) = some processed_audio ∧
      suppressNoise (CMath.mk Real.sqrt Real.exp (fun x y => x ^ y) Real.sin Real.pi) (frameSetup
          { (initialAudioData [1, 1, 1] [] : AudioData ℝ) with enable_chorus := true }
          silentInput).1 processed_audio = some (data4, voice) ∧
      ∀ i, i < FRAMES_PER_BUFFER →
        ∃ inst v, (frameSetup
          { (initialAudioData [1, 1, 1] [] : AudioData ℝ) with enable_chorus := true }
          silentInput).2[i]? = some inst ∧ voice[i]? = some v ∧
          ((frameSetup
          { (initialAudioData [1, 1, 1] [] : AudioData ℝ) with enable_chorus := true }
          silentInput).1.enable_chorus = false →
            out[i]? = some (clamp ((frameSetup
          { (initialAudioData [1, 1, 1] [] : AudioData ℝ) with enable_chorus := true }
          silentInput).1.instrument_volume * inst +
              (frameSetup
          { (initialAudioData [1, 1, 1] [] : AudioData ℝ) with enable_chorus := true }
          silentInput).1.voice_volume * v) (-1) 1)) ∧
          ((frameSetup
          { (initialAudioData [1, 1, 1] [] : AudioData ℝ) with enable_chorus := true }
          silentInput).1.enable_chorus = true →
            ∃ tap, voice[(truncate ((i : ℝ) +
                Real.sin ((frameSetup
          { (initialAudioData [1, 1, 1] [] : AudioData ℝ) with enable_chorus := true }
          silentInput).1.current_time * 2 * Real.pi * 0.5) *
                  (frameSetup
          { (initialAudioData [1, 1, 1] [] : AudioData ℝ) with enable_chorus := true }
          silentInput).1.chorus_depth) % (FRAMES_PER_BUFFER : Int)).toNat]? =
                some tap ∧
              out[i]? = some (clamp ((frameSetup
          { (initialAudioData [1, 1, 1] [] : AudioData ℝ) with enable_chorus := true }
          silentInput).1.instrument_volume * inst +
                (frameSetup
          { (initialAudioData [1, 1, 1] [] : AudioData ℝ) with enable_chorus := true }
          silentInput).1.voice_volume * v + 0.3 * tap) (-1) 1)) := by
  obtain ⟨data1, out, h⟩ := audioCallback_first_frame_chorus
  exact ⟨data1, out, h, mixer_formula _ _ _ _ _ h⟩

/-! ## The chorus tap index -/

/-- The sine of `6/5 * pi` is at most `-1/2`. -/
theorem sin_six_fifths_pi : Real.sin ((6 / 5 : ℝ) * 2 * Real.pi * 0.5) ≤ -1 / 2 := by
  have harg : (6 / 5 : ℝ) * 2 * Real.pi * 0.5 = Real.pi / 5 + Real.pi := by ring
  rw [harg, Real.sin_add_pi]
  have hpi := Real.pi_pos
  have hmono : Real.sin (Real.pi / 6) ≤ Real.sin (Real.pi / 5) :=
    Real.sin_le_sin_of_le_of_le_pi_div_two (by linarith) (by linarith) (by linarith)
  rw [Real.sin_pi_div_six] at hmono
  linarith

/-- At clock 1.2 s with chorus depth 2 the chorus index of iteration 0 is negative. -/
theorem chorusIdx_negative (data : AudioData ℝ) (ht : data.current_time = 6 / 5)
    (hd : data.chorus_depth = 2) :
    ∃ c, chorusIdx (CMath.mk Real.sqrt Real.exp (fun x y => x ^ y) Real.sin Real.pi) data 0 = some c ∧ c < 0 := by
  have hs := sin_six_fifths_pi
  have hs1 := Real.neg_one_le_sin ((6 / 5 : ℝ) * 2 * Real.pi * 0.5)
  have hx1 : ((0 : Nat) : ℝ) + Real.sin ((6 / 5 : ℝ) * 2 * Real.pi * 0.5) * 2 ≤ ((-1 : Int) : ℝ) := by
    push_cast
    linarith
  have hx2 : ((-2 : Int) : ℝ) ≤ ((0 : Nat) : ℝ) + Real.sin ((6 / 5 : ℝ) * 2 * Real.pi * 0.5) * 2 := by
    push_cast
    linarith
  have hneg : ¬ (0 : ℝ) ≤ ((0 : Nat) : ℝ) + Real.sin ((6 / 5 : ℝ) * 2 * Real.pi * 0.5) * 2 := by
    push_cast at hx1 ⊢
    linarith
  have hc1 : ⌈((0 : Nat) : ℝ) + Real.sin ((6 / 5 : ℝ) * 2 * Real.pi * 0.5) * 2⌉ ≤ -1 :=
    Int.ceil_le.2 hx1
  have hc2 : -2 ≤ ⌈((0 : Nat) : ℝ) + Real.sin ((6 / 5 : ℝ) * 2 * Real.pi * 0.5) * 2⌉ := by
    have := le_trans hx2 (Int.le_ceil _)
    exact_mod_cast this
  have hcases : ⌈((0 : Nat) : ℝ) + Real.sin ((6 / 5 : ℝ) * 2 * Real.pi * 0.5) * 2⌉ = -2 ∨
      ⌈((0 : Nat) : ℝ) + Real.sin ((6 / 5 : ℝ) * 2 * Real.pi * 0.5) * 2⌉ = -1 := by omega
  simp only [chorusIdx, ht, hd, floatToInt, truncate, hneg, if_false]
  rcases hcases with h | h <;> rw [h] <;> exact ⟨_, rfl, by decide⟩

/-- A negative chorus index makes the iteration of the mixing loop fault. -/
theorem mixSample_chorus_fault (m : CMath α) (data : AudioData α)
    (instrumental_chunk processed_audio : List α) (i : Nat) (c : Int)
    (hch : data.enable_chorus = true) (hidx : chorusIdx m data i = some c) (hc : c < 0) :
    mixSample m data instrumental_chunk processed_audio i = none := by
  have hread : readAt processed_audio c = none := by
    simp only [readAt, not_le.2 hc, if_false]
  unfold mixSample
  split
  · simp only [applyChorus, hch, if_true, hidx, hread, Option.map_none']
  · rfl

/-- C18 fails on the code.  With the chorus enabled at depth 2 (the command line puts no
bound on `chorus_depth`) and the clock at 1.2 s (reached after 225 frames), the offset
`sin(1.2 pi) * 2` lies in [-2, -1]; at `i = 0` the truncated sum is -2 or -1, the C++
remainder `% FRAMES_PER_BUFFER` keeps it negative, and the callback reads
`processed_audio` at a negative index, outside the frame. -/
theorem chorus_tap_reads_outside_frame :
    (∃ c, chorusIdx (CMath.mk Real.sqrt Real.exp (fun x y => x ^ y) Real.sin Real.pi)
        { (initialAudioData [] [] : AudioData ℝ) with
          current_time := 6 / 5, enable_chorus := true, chorus_depth := 2 } 0 = some c ∧
      c < 0) ∧
    (∀ instrumental_chunk processed_audio : List ℝ,
      mixSample (CMath.mk Real.sqrt Real.exp (fun x y => x ^ y) Real.sin Real.pi)
        { (initialAudioData [] [] : AudioData ℝ) with
          current_time := 6 / 5, enable_chorus := true, chorus_depth := 2 }
        instrumental_chunk processed_audio 0 = none) ∧
    audioCallback (CMath.mk Real.sqrt Real.exp (fun x y => x ^ y) Real.sin Real.pi)
      { (initialAudioData [] [] : AudioData ℝ) with
        current_time := 6 / 5, enable_chorus := true, chorus_depth := 2 }
      silentInput = none := by
  obtain ⟨c, hidx, hc⟩ := chorusIdx_negative
    { (initialAudioData [] [] : AudioData ℝ) with
      current_time := 6 / 5, enable_chorus := true, chorus_depth := 2 } rfl rfl
  refine ⟨⟨c, hidx, hc⟩, fun _ _ => mixSample_chorus_fault _ _ _ _ 0 c rfl hidx hc, ?_⟩
  cases hcb : audioCallback (CMath.mk Real.sqrt Real.exp (fun x y => x ^ y) Real.sin Real.pi)
      { (initialAudioData [] [] : AudioData ℝ) with
        current_time := 6 / 5, enable_chorus := true, chorus_depth := 2 }
      silentInput with
  | none => rfl
  | some r =>
    exfalso
    obtain ⟨processed_audio, data4, voice, _, hsup, hmix, _⟩ :=
      audioCallback_eq_some _ _ r.1 _ r.2 hcb
    obtain ⟨ns, hd4⟩ := suppressNoise_eq _ _ _ _ _ hsup
    obtain ⟨_, hkt, _, _, hkch, hkcd, _, _, _⟩ := frameSetup_kept
      { (initialAudioData [] [] : AudioData ℝ) with
        current_time := 6 / 5, enable_chorus := true, chorus_depth := 2 } silentInput
    have hch4 : data4.enable_chorus = true := by rw [hd4]; exact hkch
    have hct4 : data4.current_time = 6 / 5 := by rw [hd4]; exact hkt
    have hcd4 : data4.chorus_depth = 2 := by rw [hd4]; exact hkcd
    obtain ⟨c4, hidx4, hc4⟩ := chorusIdx_negative data4 hct4 hcd4
    have hnone := mixSample_chorus_fault (CMath.mk Real.sqrt Real.exp (fun x y => x ^ y) Real.sin Real.pi) data4
      (frameSetup { (initialAudioData [] [] : AudioData ℝ) with
        current_time := 6 / 5, enable_chorus := true, chorus_depth := 2 } silentInput).2
      voice 0 c4 hch4 hidx4 hc4
    obtain ⟨hlen, hget⟩ := collect_map_range_getElem? _ _ _ hmix
    have h0 := hget 0 (by decide)
    rw [hnone, List.getElem?_eq_getElem (by rw [hlen]; decide)] at h0
    exact absurd h0 (by simp)

/-- The C++ remainder of a negative `int` that is not a multiple of 256 is negative: it
is the non-negative residue minus 256. -/
theorem tmod_of_neg (c : Int) (hc : c < 0) (hmod : c % 256 ≠ 0) :
    c.tmod 256 = c % 256 - 256 := by
  cases c with
  | ofNat n => exact absurd hc (by simp)
  | negSucc n =>
    have ht : (Int.negSucc n).tmod 256 = -(((n + 1) % 256 : Nat) : Int) := rfl
    rw [ht]
    have hn : Int.negSucc n = -((n : Int) + 1) := rfl
    rw [hn] at hmod ⊢
    omega

/-- At clock 1.2 s with chorus depth 2 the sum `0 + offset` lies in (-2, -1] and its
conversion to `int` is -1. -/
theorem chorus_sum_example (data : AudioData ℝ) (ht : data.current_time = 6 / 5)
    (hd : data.chorus_depth = 2) :
    floatToInt (((0 : Nat) : ℝ) +
      ((CMath.mk Real.sqrt Real.exp (fun x y => x ^ y) Real.sin Real.pi)).sin (data.current_time * 2 * ((CMath.mk Real.sqrt Real.exp (fun x y => x ^ y) Real.sin Real.pi)).M_PI * 0.5) * data.chorus_depth) = some (-1) := by
  have hs := sin_six_fifths_pi
  have hlow : -1 < Real.sin ((6 / 5 : ℝ) * 2 * Real.pi * 0.5) := by
    have harg : (6 / 5 : ℝ) * 2 * Real.pi * 0.5 = Real.pi / 5 + Real.pi := by ring
    rw [harg, Real.sin_add_pi]
    have hpi := Real.pi_pos
    have h4 := Real.pi_le_four
    have hlt : Real.sin (Real.pi / 5) < Real.pi / 5 := Real.sin_lt (by linarith)
    linarith
  have hneg : ¬ (0 : ℝ) ≤ ((0 : Nat) : ℝ) + Real.sin ((6 / 5 : ℝ) * 2 * Real.pi * 0.5) * 2 := by
    push_cast
    linarith
  have hceil : ⌈((0 : Nat) : ℝ) + Real.sin ((6 / 5 : ℝ) * 2 * Real.pi * 0.5) * 2⌉ = -1 := by
    rw [Int.ceil_eq_iff]
    push_cast
    constructor <;> linarith
  simp only [ht, hd, floatToInt, truncate, hneg, if_false, hceil]
  decide

/-- C17 fails on the code when the truncated sum `i + offset` is negative.  With the
chorus enabled and `i` in [0, F), let `c < 0` be the conversion to `int` of `i + offset`,
not a multiple of `F = 256`.  The formula names the sample `voice[c mod F]`, an index
inside the frame; the C++ remainder `%` gives `chorus_idx = (c mod F) - F`, a negative
index, so iteration `i` of the mixing loop reads `processed_audio` outside the frame
instead of computing the clamped sum, and the callback produces no output frame, whatever
the voice and the instrumental are. -/
theorem mixer_chorus_tap_outside_frame (m : CMath α) (data : AudioData α)
    (inp : CallbackInput α) (i : Nat) (c : Int)
    (hi : i < FRAMES_PER_BUFFER) (hch : data.enable_chorus = true)
    (hsum : floatToInt (((i : Nat) : α) +
      (m).sin (data.current_time * 2 * (m).M_PI * 0.5) * data.chorus_depth) = some c)
    (hc : c < 0) (hmod : c % (FRAMES_PER_BUFFER : Int) ≠ 0) :
    (0 ≤ c % (FRAMES_PER_BUFFER : Int) ∧
      c % (FRAMES_PER_BUFFER : Int) < (FRAMES_PER_BUFFER : Int)) ∧
    chorusIdx m data i = some (c % (FRAMES_PER_BUFFER : Int) - (FRAMES_PER_BUFFER : Int)) ∧
    c % (FRAMES_PER_BUFFER : Int) - (FRAMES_PER_BUFFER : Int) < 0 ∧
    (∀ instrumental_chunk voice : List α,
      mixSample m data instrumental_chunk voice i = none) ∧
    audioCallback m data inp = none := by
  have hF : ((FRAMES_PER_BUFFER : Nat) : Int) = 256 := rfl
  rw [hF] at hmod ⊢
  have htm := tmod_of_neg c hc hmod
  have hidx : chorusIdx m data i = some (c % 256 - 256) := by
    simp only [chorusIdx, hsum, hF, htm]
  have hneg : c % 256 - 256 < 0 := by omega
  refine ⟨⟨by omega, by omega⟩, hidx, hneg, ?_, ?_⟩
  · intro instrumental_chunk voice
    exact mixSample_chorus_fault m data instrumental_chunk voice i _ hch hidx hneg
  · cases hcb : audioCallback m data inp with
    | none => rfl
    | some r =>
      exfalso
      obtain ⟨processed_audio, data4, voice, _, hsup, hmix, _⟩ :=
        audioCallback_eq_some _ _ r.1 _ r.2 hcb
      obtain ⟨ns, hd4⟩ := suppressNoise_eq _ _ _ _ _ hsup
      obtain ⟨_, hkt, _, _, hkch, hkcd, _, _, _⟩ := frameSetup_kept data inp
      have hch4 : data4.enable_chorus = true := by rw [hd4, ← hch]; exact hkch
      have hct4 : data4.current_time = data.current_time := by rw [hd4]; exact hkt
      have hcd4 : data4.chorus_depth = data.chorus_depth := by rw [hd4]; exact hkcd
      have hidx4 : chorusIdx m data4 i = some (c % 256 - 256) := by
        rw [chorusIdx_congr m data data4 i hct4 hcd4]
        exact hidx
      have hnone := mixSample_chorus_fault m data4 (frameSetup data inp).2 voice i _ hch4
        hidx4 hneg
      obtain ⟨hlen, hget⟩ := collect_map_range_getElem? _ _ _ hmix
      have h0 := hget i hi
      rw [hnone, List.getElem?_eq_getElem (by rw [hlen]; exact hi)] at h0
      exact absurd h0 (by simp)

/-- C17 at iteration 0 of a frame at clock 1.2 s (reached after 225 frames) with the
chorus enabled at depth 2 and a ramp as input: the sum `0 + offset` is about -1.18, far
enough from an integer for the rounding of the `float` operations not to matter, and
converts to -1; the formula names `voice[255]`, the code computes `chorus_idx = -1`. -/
theorem mixer_chorus_tap_outside_frame_witness :
    0 < FRAMES_PER_BUFFER ∧ ({ (initialAudioData [] [] : AudioData ℝ) with current_time := 6 / 5, enable_chorus := true, chorus_depth := 2 } : AudioData ℝ).enable_chorus = true ∧
    floatToInt (((0 : Nat) : ℝ) +
      ((CMath.mk Real.sqrt Real.exp (fun x y => x ^ y) Real.sin Real.pi)).sin (({ (initialAudioData [] [] : AudioData ℝ) with current_time := 6 / 5, enable_chorus := true, chorus_depth := 2 } : AudioData ℝ).current_time * 2 * ((CMath.mk Real.sqrt Real.exp (fun x y => x ^ y) Real.sin Real.pi)).M_PI * 0.5) * ({ (initialAudioData [] [] : AudioData ℝ) with current_time := 6 / 5, enable_chorus := true, chorus_depth := 2 } : AudioData ℝ).chorus_depth) = some (-1) ∧
    (-1 : Int) < 0 ∧ (-1 : Int) % (FRAMES_PER_BUFFER : Int) ≠ 0 ∧
    (-1 : Int) % (FRAMES_PER_BUFFER : Int) = 255 ∧
    (0 ≤ (-1 : Int) % (FRAMES_PER_BUFFER : Int) ∧
      (-1 : Int) % (FRAMES_PER_BUFFER : Int) < (FRAMES_PER_BUFFER : Int)) ∧
    chorusIdx (CMath.mk Real.sqrt Real.exp (fun x y => x ^ y) Real.sin Real.pi) ({ (initialAudioData [] [] : AudioData ℝ) with current_time := 6 / 5, enable_chorus := true, chorus_depth := 2 } : AudioData ℝ) 0 = some ((-1 : Int) % (FRAMES_PER_BUFFER : Int) - (FRAMES_PER_BUFFER : Int)) ∧
    (-1 : Int) % (FRAMES_PER_BUFFER : Int) - (FRAMES_PER_BUFFER : Int) < 0 ∧
    (∀ instrumental_chunk voice : List ℝ,
      mixSample (CMath.mk Real.sqrt Real.exp (fun x y => x ^ y) Real.sin Real.pi) ({ (initialAudioData [] [] : AudioData ℝ) with current_time := 6 / 5, enable_chorus := true, chorus_depth := 2 } : AudioData ℝ) instrumental_chunk voice 0 = none) ∧
    audioCallback (CMath.mk Real.sqrt Real.exp (fun x y => x ^ y) Real.sin Real.pi) ({ (initialAudioData [] [] : AudioData ℝ) with current_time := 6 / 5, enable_chorus := true, chorus_depth := 2 } : AudioData ℝ) ({ inputBuffer := (List.range 256).map (fun (k : Nat) => (k : ℝ) / 256), now := 0, paramFile := none, pitch := 0, confidence := 0 } : CallbackInput ℝ) = none :=
  ⟨by decide, rfl, chorus_sum_example _ rfl rfl, by decide, by decide, by decide,
    mixer_chorus_tap_outside_frame _ _ _ 0 (-1) (by decide) rfl
      (chorus_sum_example _ rfl rfl) (by decide) (by decide)⟩

/-! ## The instrumental cursor -/

theorem instrumentalLoop_nil (n pos : Nat) :
    instrumentalLoop ([] : List α) n pos = (List.replicate n 0, if n = 0 then pos else 0) := by
  induction n generalizing pos with
  | zero => rfl
  | succ n ih =>
    have h0 : (if pos ≥ ([] : List α).length then 0 else pos) = 0 := if_pos (Nat.zero_le _)
    simp only [instrumentalLoop, h0, ih, List.isEmpty_nil, if_true, List.replicate_succ,
      Nat.succ_ne_zero, if_false]
    split_ifs <;> rfl

/-- One pass of the copy loop on a non-empty track whose cursor is at most the track
length: the sample read is the one at `pos mod L`. -/
theorem instrumentalLoop_succ (instrumental : List α) (hne : 0 < instrumental.length)
    (n pos : Nat) (hpos : pos ≤ instrumental.length) :
    instrumentalLoop instrumental (n + 1) pos =
      (instrumental.getD (pos % instrumental.length) 0 ::
          (instrumentalLoop instrumental n (pos % instrumental.length + 1)).1,
        (instrumentalLoop instrumental n (pos % instrumental.length + 1)).2) := by
  have hemp : instrumental.isEmpty = false := by
    cases instrumental with
    | nil => exact absurd hne (by simp)
    | cons _ _ => rfl
  have hp1 : (if pos ≥ instrumental.length then 0 else pos) = pos % instrumental.length := by
    split_ifs with h
    · rw [le_antisymm hpos h, Nat.mod_self]
    · rw [Nat.mod_eq_of_lt (by omega)]
  simp only [instrumentalLoop, hemp, hp1, Bool.false_eq_true, if_false]

theorem instrumentalLoop_chunk (instrumental : List α) (hne : 0 < instrumental.length)
    (n pos : Nat) (hpos : pos ≤ instrumental.length) :
    (instrumentalLoop instrumental n pos).1 =
      (List.range n).map (fun i => instrumental.getD ((pos + i) % instrumental.length) 0) := by
  induction n generalizing pos with
  | zero => rfl
  | succ n ih =>
    rw [instrumentalLoop_succ instrumental hne n pos hpos,
      ih _ (Nat.mod_lt _ hne), List.range_succ_eq_map, List.map_cons, List.map_map]
    dsimp only
    rw [Nat.add_zero]
    congr 1
    apply List.map_congr_left
    intro i _
    simp only [Function.comp, Nat.succ_eq_add_one]
    rw [Nat.add_assoc, Nat.mod_add_mod, Nat.add_comm 1 i]

theorem instrumentalLoop_cursor (instrumental : List α) (hne : 0 < instrumental.length)
    (n pos : Nat) (hpos : pos ≤ instrumental.length) :
    (instrumentalLoop instrumental (n + 1) pos).2 = (pos + n) % instrumental.length + 1 := by
  induction n generalizing pos with
  | zero =>
    rw [instrumentalLoop_succ instrumental hne 0 pos hpos]
    rfl
  | succ n ih =>
    rw [instrumentalLoop_succ instrumental hne (n + 1) pos hpos]
    show (instrumentalLoop instrumental (n + 1) (pos % instrumental.length + 1)).2 =
      (pos + (n + 1)) % instrumental.length + 1
    rw [ih _ (Nat.mod_lt _ hne), Nat.succ_eq_add_one, Nat.add_assoc, Nat.mod_add_mod,
      Nat.add_comm 1 n]

/-- After at least one pass of the copy loop on a non-empty track the cursor is in
`[1, L]`, whatever its value before. -/
theorem instrumentalLoop_cursor_range (instrumental : List α) (hne : 0 < instrumental.length)
    (n pos : Nat) :
    0 < (instrumentalLoop instrumental (n + 1) pos).2 ∧
      (instrumentalLoop instrumental (n + 1) pos).2 ≤ instrumental.length := by
  by_cases hpos : pos ≤ instrumental.length
  · rw [instrumentalLoop_cursor instrumental hne n pos hpos]
    have := Nat.mod_lt (pos + n) hne
    omega
  · have hstep : instrumentalLoop instrumental (n + 1) pos =
        instrumentalLoop instrumental (n + 1) 0 := by
      have h0 : (if pos ≥ instrumental.length then 0 else pos) = 0 := by
        rw [if_pos (by omega)]
      have h1 : (if 0 ≥ instrumental.length then 0 else 0) = 0 := by
        split_ifs <;> rfl
      simp only [instrumentalLoop, h0, h1]
    rw [hstep, instrumentalLoop_cursor instrumental hne n 0 (Nat.zero_le _)]
    have := Nat.mod_lt (0 + n) hne
    omega

theorem cursorAfter_range (instrumental : List α) (hne : 0 < instrumental.length)
    (F : Nat) (hF : 0 < F) (k : Nat) :
    0 < cursorAfter instrumental F (k + 1) ∧
      cursorAfter instrumental F (k + 1) ≤ instrumental.length := by
  obtain ⟨F1, rfl⟩ : ∃ F1, F = F1 + 1 := ⟨F - 1, by omega⟩
  exact instrumentalLoop_cursor_range instrumental hne F1 _

theorem cursorAfter_le (instrumental : List α) (hne : 0 < instrumental.length)
    (F : Nat) (hF : 0 < F) (k : Nat) :
    cursorAfter instrumental F k ≤ instrumental.length := by
  cases k with
  | zero => exact Nat.zero_le _
  | succ k => exact (cursorAfter_range instrumental hne F hF k).2

/-- The cursor after `k` frames of `F` samples is `k * F` modulo the track length. -/
theorem cursorAfter_mod (instrumental : List α) (hne : 0 < instrumental.length)
    (F : Nat) (hF : 0 < F) (k : Nat) :
    cursorAfter instrumental F k % instrumental.length = (k * F) % instrumental.length := by
  induction k with
  | zero => simp [cursorAfter]
  | succ k ih =>
    obtain ⟨F1, rfl⟩ : ∃ F1, F = F1 + 1 := ⟨F - 1, by omega⟩
    show (instrumentalLoop instrumental (F1 + 1) (cursorAfter instrumental (F1 + 1) k)).2 %
      instrumental.length = _
    rw [instrumentalLoop_cursor instrumental hne F1 _
      (cursorAfter_le instrumental hne (F1 + 1) hF k), Nat.mod_add_mod, Nat.add_assoc,
      ← Nat.mod_add_mod, ih, Nat.mod_add_mod, Nat.succ_mul]

theorem frameSetup_cursor (data : AudioData α) (inp : CallbackInput α) :
    (frameSetup data inp).1.instrumental_pos =
        (instrumentalLoop data.instrumental FRAMES_PER_BUFFER data.instrumental_pos).2 ∧
      (frameSetup data inp).2 =
        (instrumentalLoop data.instrumental FRAMES_PER_BUFFER data.instrumental_pos).1 := by
  obtain ⟨vv, st, ps, iv, lc, h⟩ := checkParameterUpdates_eq data inp.now inp.paramFile
  simp only [frameSetup, updatePitchEstimate, h]
  split_ifs <;> simp

/-- A returning callback leaves the track alone and moves the cursor by one run of the
copy loop. -/
theorem audioCallback_cursor (m : CMath α) (data data1 : AudioData α) (inp : CallbackInput α)
    (out : List α) (h : audioCallback m data inp = some (data1, out)) :
    data1.instrumental = data.instrumental ∧
      data1.instrumental_pos =
        (instrumentalLoop data.instrumental FRAMES_PER_BUFFER data.instrumental_pos).2 := by
  obtain ⟨ns, hns⟩ := audioCallback_state m data data1 inp out h
  obtain ⟨ct, ph, th, tih, hfin⟩ := frameFinish_eq
    { (frameSetup data inp).1 with noise_suppressor := ns }
    (lookupTargetPitch (frameSetup data inp).1.melody_map (frameSetup data inp).1.current_time)
  rw [hfin] at hns
  have hi : data1.instrumental = (frameSetup data inp).1.instrumental := by rw [hns]
  have hp : data1.instrumental_pos = (frameSetup data inp).1.instrumental_pos := by rw [hns]
  rw [hi, hp]
  exact ⟨(frameSetup_kept data inp).2.2.1, (frameSetup_cursor data inp).1⟩

theorem sessionAfter_succ (m : CMath α) (data d1 : AudioData α)
    (inps : Nat → CallbackInput α) (n : Nat)
    (h : sessionAfter m data inps (n + 1) = some d1) :
    ∃ d out, sessionAfter m data inps n = some d ∧
      audioCallback m d (inps n) = some (d1, out) := by
  cases hs : sessionAfter m data inps n with
  | none => simp [sessionAfter, hs] at h
  | some d =>
    cases hc : audioCallback m d (inps n) with
    | none => simp [sessionAfter, hs, hc] at h
    | some r =>
      simp only [sessionAfter, hs, hc, Option.some.injEq] at h
      exact ⟨d, r.2, rfl, by rw [← h, hc]⟩

theorem sessionAfter_step (m : CMath α) (data d d1 : AudioData α)
    (inps : Nat → CallbackInput α) (n : Nat) (out : List α)
    (hs : sessionAfter m data inps n = some d)
    (hc : audioCallback m d (inps n) = some (d1, out)) :
    sessionAfter m data inps (n + 1) = some d1 := by
  simp only [sessionAfter, hs, hc]

/-- The cursor of a session that starts at 0 follows `cursorAfter`. -/
theorem sessionAfter_cursor (m : CMath α) (data : AudioData α) (inps : Nat → CallbackInput α)
    (h0 : data.instrumental_pos = 0) (n : Nat) (d : AudioData α)
    (h : sessionAfter m data inps n = some d) :
    d.instrumental = data.instrumental ∧
      d.instrumental_pos = cursorAfter data.instrumental FRAMES_PER_BUFFER n := by
  induction n generalizing d with
  | zero =>
    simp only [sessionAfter, Option.some.injEq] at h
    rw [← h]
    exact ⟨rfl, h0⟩
  | succ n ih =>
    obtain ⟨d0, out, hs, hc⟩ := sessionAfter_succ m data d inps n h
    obtain ⟨hi, hp⟩ := ih d0 hs
    obtain ⟨hi1, hp1⟩ := audioCallback_cursor m d0 d (inps n) out hc
    refine ⟨hi1.trans hi, ?_⟩
    rw [hp1, hi, hp]
    rfl

/-- A returning callback leaves the melody and the chorus settings alone. -/
theorem audioCallback_kept (m : CMath α) (data data1 : AudioData α) (inp : CallbackInput α)
    (out : List α) (h : audioCallback m data inp = some (data1, out)) :
    data1.melody_map = data.melody_map ∧ data1.enable_chorus = data.enable_chorus ∧
      data1.chorus_depth = data.chorus_depth := by
  obtain ⟨ns, hns⟩ := audioCallback_state m data data1 inp out h
  obtain ⟨ct, ph, th, tih, hfin⟩ := frameFinish_eq
    { (frameSetup data inp).1 with noise_suppressor := ns }
    (lookupTargetPitch (frameSetup data inp).1.melody_map (frameSetup data inp).1.current_time)
  rw [hfin] at hns
  have hm : data1.melody_map = (frameSetup data inp).1.melody_map := by rw [hns]
  have he : data1.enable_chorus = (frameSetup data inp).1.enable_chorus := by rw [hns]
  have hd : data1.chorus_depth = (frameSetup data inp).1.chorus_depth := by rw [hns]
  obtain ⟨k1, _, _, _, k5, k6, _⟩ := frameSetup_kept data inp
  exact ⟨hm.trans k1, he.trans k5, hd.trans k6⟩

/-- A session without melody and with the chorus off, whose parameter file is never
malformed, returns on every frame of 256 input samples. -/
theorem sessionAfter_returns (m : CMath α) (data : AudioData α) (inps : Nat → CallbackInput α)
    (hthrow : ∀ (d : AudioData α) (k : Nat),
      checkParameterUpdatesThrows d (inps k).now (inps k).paramFile = false)
    (hlen : ∀ k, (inps k).inputBuffer.length = FRAMES_PER_BUFFER)
    (hmel : data.melody_map = [])
    (hns : ∀ ns, data.noise_suppressor = some ns → SimpleNoiseSuppressor.WellFormed ns)
    (hch : data.enable_chorus = false) (n : Nat) :
    ∃ d, sessionAfter m data inps n = some d ∧ d.melody_map = [] ∧
      (∀ ns, d.noise_suppressor = some ns → SimpleNoiseSuppressor.WellFormed ns) ∧
      d.enable_chorus = false := by
  induction n with
  | zero => exact ⟨data, rfl, hmel, hns, hch⟩
  | succ n ih =>
    obtain ⟨d, hd, hm, hw, hc⟩ := ih
    have hgate : correctionApplies (frameSetup d (inps n)).1
        (lookupTargetPitch (frameSetup d (inps n)).1.melody_map
          (frameSetup d (inps n)).1.current_time) = false := by
      rw [(frameSetup_kept d (inps n)).1, hm, lookupTargetPitch_nil]
      exact correctionApplies_zero _
    obtain ⟨d1, out, hcb, hw1⟩ := audioCallback_returns m d (inps n) (hthrow d n) (hlen n)
      hgate hw
      (fun h => absurd (hc ▸ h) (by simp))
    obtain ⟨k1, k2, _⟩ := audioCallback_kept m d d1 (inps n) out hcb
    exact ⟨d1, sessionAfter_step m data d d1 inps n out hd hcb, k1.trans hm, hw1,
      k2.trans hc⟩

theorem silentInput_length :
    (silentInput : CallbackInput α).inputBuffer.length = FRAMES_PER_BUFFER := by
  simp only [silentInput, List.length_replicate]

/-- The session that `main` sets up without melody, fed silent frames, returns on every
frame. -/
theorem sessionAfter_silent (m : CMath α) (instrumental : List α) (n : Nat) :
    ∃ d, sessionAfter m (initialAudioData instrumental []) (fun _ => silentInput) n =
      some d := by
  obtain ⟨d, hd, _⟩ := sessionAfter_returns m (initialAudioData instrumental [])
    (fun _ => silentInput) (fun _ _ => checkParameterUpdatesThrows_none _ _)
    (fun _ => silentInput_length) rfl
    (by
      intro ns hns
      simp only [initialAudioData, Option.some.injEq] at hns
      rw [← hns]
      exact wellFormed_mainSuppressor)
    rfl n
  exact ⟨d, hd⟩

theorem cursorAfter_eq_length_iff (instrumental : List α) (hne : 0 < instrumental.length)
    (F : Nat) (hF : 0 < F) (k : Nat) :
    cursorAfter instrumental F (k + 1) = instrumental.length ↔
      instrumental.length ∣ (k + 1) * F := by
  obtain ⟨hpos, hle⟩ := cursorAfter_range instrumental hne F hF k
  have hmod := cursorAfter_mod instrumental hne F hF (k + 1)
  constructor
  · intro h
    rw [h, Nat.mod_self] at hmod
    exact Nat.dvd_of_mod_eq_zero hmod.symm
  · intro h
    rw [Nat.mod_eq_zero_of_dvd h] at hmod
    exact le_antisymm hle (Nat.le_of_dvd hpos (Nat.dvd_of_mod_eq_zero hmod))

/-- C14 (amended). Cursor range invariant: for a non-empty instrumental track of length `L`
and a session that starts with the cursor at 0, after each returning `audioCallback` the
track is unchanged and `0 < instrumental_pos ≤ L`. The cursor equals `L` exactly when the
number of samples consumed so far is a multiple of `L`: the reset to 0 is made by the next
read, not at the end of the frame. -/
theorem cursor_range_invariant (m : CMath α) (data : AudioData α)
    (inps : Nat → CallbackInput α) (n : Nat) (d : AudioData α)
    (hne : data.instrumental ≠ []) (h0 : data.instrumental_pos = 0)
    (h : sessionAfter m data inps (n + 1) = some d) :
    d.instrumental = data.instrumental ∧
      0 < d.instrumental_pos ∧ d.instrumental_pos ≤ data.instrumental.length ∧
      (d.instrumental_pos = data.instrumental.length ↔
        data.instrumental.length ∣ (n + 1) * FRAMES_PER_BUFFER) := by
  have hL : 0 < data.instrumental.length := List.length_pos.mpr hne
  have hF : 0 < FRAMES_PER_BUFFER := by decide
  obtain ⟨hi, hp⟩ := sessionAfter_cursor m data inps h0 (n + 1) d h
  obtain ⟨hpos, hle⟩ := cursorAfter_range data.instrumental hL FRAMES_PER_BUFFER hF n
  rw [hp]
  exact ⟨hi, hpos, hle, cursorAfter_eq_length_iff data.instrumental hL FRAMES_PER_BUFFER hF n⟩

/-- C14 on the first frame of a session with a three-sample track. -/
theorem cursor_range_invariant_witness :
    (initialAudioData [1, 2, 3] [] : AudioData ℝ).instrumental ≠ [] ∧
    (initialAudioData [1, 2, 3] [] : AudioData ℝ).instrumental_pos = 0 ∧
    ∃ d : AudioData ℝ,
      sessionAfter (CMath.mk Real.sqrt Real.exp (fun x y => x ^ y) Real.sin Real.pi)
        (initialAudioData [1, 2, 3] []) (fun _ => silentInput) (0 + 1) = some d ∧
      d.instrumental = (initialAudioData [1, 2, 3] [] : AudioData ℝ).instrumental ∧
      0 < d.instrumental_pos ∧
      d.instrumental_pos ≤ (initialAudioData [1, 2, 3] [] : AudioData ℝ).instrumental.length ∧
      (d.instrumental_pos = (initialAudioData [1, 2, 3] [] : AudioData ℝ).instrumental.length ↔
        (initialAudioData [1, 2, 3] [] : AudioData ℝ).instrumental.length ∣
          (0 + 1) * FRAMES_PER_BUFFER) := by
  obtain ⟨d, hd⟩ := sessionAfter_silent
    (CMath.mk Real.sqrt Real.exp (fun x y => x ^ y) Real.sin Real.pi) [1, 2, 3] (0 + 1)
  exact ⟨by simp [initialAudioData], rfl, d, hd,
    cursor_range_invariant _ _ _ 0 d (by simp [initialAudioData]) rfl hd⟩

/-- C14 as first stated (`instrumental_pos < L` after each callback) fails for a track of
exactly one frame: after the first callback the cursor is 256, the track length. -/
theorem cursor_range_counterexample :
    ∃ d : AudioData ℝ,
      sessionAfter (CMath.mk Real.sqrt Real.exp (fun x y => x ^ y) Real.sin Real.pi)
        (initialAudioData (List.replicate 256 1) []) (fun _ => silentInput) 1 = some d ∧
      d.instrumental.length = 256 ∧ d.instrumental_pos = 256 ∧
      ¬ d.instrumental_pos < d.instrumental.length := by
  obtain ⟨d, hd⟩ := sessionAfter_silent
    (CMath.mk Real.sqrt Real.exp (fun x y => x ^ y) Real.sin Real.pi) (List.replicate 256 1) 1
  obtain ⟨hi, hp⟩ := sessionAfter_cursor _ _ _ rfl 1 d hd
  have hlen : (initialAudioData (List.replicate 256 (1 : ℝ)) [] : AudioData ℝ).instrumental.length
      = 256 := by
    simp only [initialAudioData, List.length_replicate]
  have hc : cursorAfter (initialAudioData (List.replicate 256 (1 : ℝ)) [] :
      AudioData ℝ).instrumental FRAMES_PER_BUFFER (0 + 1) = 256 := by
    have h := (cursorAfter_eq_length_iff (initialAudioData (List.replicate 256 (1 : ℝ)) [] :
      AudioData ℝ).instrumental (by rw [hlen]; decide) FRAMES_PER_BUFFER (by decide) 0).mpr
      (by rw [hlen]; decide)
    rw [h, hlen]
  have hp1 : d.instrumental_pos = 256 := hp.trans hc
  have hl1 : d.instrumental.length = 256 := by rw [hi, hlen]
  exact ⟨d, hd, hl1, hp1, by rw [hp1, hl1]; decide⟩

/-- C15 (amended). Cursor wrap: for every track length `L ≥ 1` and frame size `F ≥ 1`,
starting from cursor 0, after `⌈L/F⌉` frames the cursor is in `[1, L]` and its residue
modulo `L`, the position of the next sample read, is less than `F`. For the frames of
`audioCallback` (`F = FRAMES_PER_BUFFER`) the session cursor is the one described. -/
theorem cursor_wrap (instrumental : List α) (F : Nat) (hL : 1 ≤ instrumental.length)
    (hF : 1 ≤ F) :
    cursorAfter instrumental F ((instrumental.length + F - 1) / F) % instrumental.length < F ∧
      0 < cursorAfter instrumental F ((instrumental.length + F - 1) / F) ∧
      cursorAfter instrumental F ((instrumental.length + F - 1) / F) ≤ instrumental.length ∧
      ∀ (m : CMath α) (data : AudioData α) (inps : Nat → CallbackInput α) (d : AudioData α),
        data.instrumental = instrumental → data.instrumental_pos = 0 →
        sessionAfter m data inps
          ((instrumental.length + FRAMES_PER_BUFFER - 1) / FRAMES_PER_BUFFER) = some d →
        d.instrumental_pos % instrumental.length < FRAMES_PER_BUFFER := by
  have key : ∀ G : Nat, 1 ≤ G →
      cursorAfter instrumental G ((instrumental.length + G - 1) / G) % instrumental.length
        < G := by
    intro G hG
    have h1 := Nat.div_add_mod (instrumental.length + G - 1) G
    have h2 := Nat.mod_lt (instrumental.length + G - 1) (by omega : G > 0)
    rw [cursorAfter_mod instrumental hL G hG, Nat.mul_comm]
    generalize G * ((instrumental.length + G - 1) / G) = t at h1 ⊢
    have ht : t = instrumental.length + (t - instrumental.length) := by omega
    rw [ht, Nat.add_mod_left]
    exact lt_of_le_of_lt (Nat.mod_le _ _) (by omega)
  have hk : (instrumental.length + F - 1) / F =
      ((instrumental.length + F - 1) / F - 1) + 1 := by
    have : 0 < (instrumental.length + F - 1) / F := Nat.div_pos (by omega) (by omega)
    omega
  refine ⟨key F hF, ?_, ?_, ?_⟩
  · rw [hk]
    exact (cursorAfter_range instrumental hL F hF _).1
  · exact cursorAfter_le instrumental hL F hF _
  · intro m data inps d hi h0 h
    obtain ⟨_, hp⟩ := sessionAfter_cursor m data inps h0 _ d h
    rw [hp, hi]
    exact key FRAMES_PER_BUFFER (by decide)

/-- C15 for the three-sample track `[1, 2, 3]` and frames of two samples. -/
theorem cursor_wrap_witness :
    1 ≤ ([1, 2, 3] : List ℚ).length ∧ 1 ≤ 2 ∧
    cursorAfter ([1, 2, 3] : List ℚ) 2 ((([1, 2, 3] : List ℚ).length + 2 - 1) / 2) %
        ([1, 2, 3] : List ℚ).length < 2 ∧
      0 < cursorAfter ([1, 2, 3] : List ℚ) 2 ((([1, 2, 3] : List ℚ).length + 2 - 1) / 2) ∧
      cursorAfter ([1, 2, 3] : List ℚ) 2 ((([1, 2, 3] : List ℚ).length + 2 - 1) / 2) ≤
        ([1, 2, 3] : List ℚ).length ∧
      ∀ (m : CMath ℚ) (data : AudioData ℚ) (inps : Nat → CallbackInput ℚ) (d : AudioData ℚ),
        data.instrumental = [1, 2, 3] → data.instrumental_pos = 0 →
        sessionAfter m data inps
          ((([1, 2, 3] : List ℚ).length + FRAMES_PER_BUFFER - 1) / FRAMES_PER_BUFFER) =
            some d →
        d.instrumental_pos % ([1, 2, 3] : List ℚ).length < FRAMES_PER_BUFFER :=
  ⟨by decide, by decide, cursor_wrap [1, 2, 3] 2 (by decide) (by decide)⟩

/-- C15 as first stated fails for a track of two frames: `⌈512/256⌉ = 2`, and after two
callbacks the cursor is 512, which differs from the starting offset 0 by 512, not by less
than 256. -/
theorem cursor_wrap_counterexample :
    (512 + FRAMES_PER_BUFFER - 1) / FRAMES_PER_BUFFER = 2 ∧
    ∃ d : AudioData ℝ,
      sessionAfter (CMath.mk Real.sqrt Real.exp (fun x y => x ^ y) Real.sin Real.pi)
        (initialAudioData (List.replicate 512 1) []) (fun _ => silentInput) 2 = some d ∧
      d.instrumental.length = 512 ∧ d.instrumental_pos = 512 ∧
      ¬ d.instrumental_pos - 0 < FRAMES_PER_BUFFER := by
  refine ⟨by decide, ?_⟩
  obtain ⟨d, hd⟩ := sessionAfter_silent
    (CMath.mk Real.sqrt Real.exp (fun x y => x ^ y) Real.sin Real.pi) (List.replicate 512 1) 2
  obtain ⟨hi, hp⟩ := sessionAfter_cursor _ _ _ rfl 2 d hd
  have hlen : (initialAudioData (List.replicate 512 (1 : ℝ)) [] : AudioData ℝ).instrumental.length
      = 512 := by
    simp only [initialAudioData, List.length_replicate]
  have hc : cursorAfter (initialAudioData (List.replicate 512 (1 : ℝ)) [] :
      AudioData ℝ).instrumental FRAMES_PER_BUFFER (1 + 1) = 512 := by
    have h := (cursorAfter_eq_length_iff (initialAudioData (List.replicate 512 (1 : ℝ)) [] :
      AudioData ℝ).instrumental (by rw [hlen]; decide) FRAMES_PER_BUFFER (by decide) 1).mpr
      (by rw [hlen]; decide)
    rw [h, hlen]
  have hp1 : d.instrumental_pos = 512 := hp.trans hc
  have hl1 : d.instrumental.length = 512 := by rw [hi, hlen]
  exact ⟨d, hd, hl1, hp1, by rw [hp1]; decide⟩

/-! ## The seamless loop -/

/-- The chunk copied by a frame that starts with the cursor at `pos ≤ L`. -/
theorem instrumentalLoop_getElem? (instrumental : List α) (hne : 0 < instrumental.length)
    (n pos : Nat) (hpos : pos ≤ instrumental.length) (i : Nat) (hi : i < n) :
    (instrumentalLoop instrumental n pos).1[i]? =
      instrumental[(pos + i) % instrumental.length]? := by
  rw [instrumentalLoop_chunk instrumental hne n pos hpos, List.getElem?_map,
    List.getElem?_range hi, Option.map_some', List.getD_eq_getElem?_getD,
    List.getElem?_eq_getElem (Nat.mod_lt _ hne), Option.getD_some]

/-- C16. Seamless loop: in a session that starts with the cursor at 0, the callback number
`n` (counted from 0) copies, for a non-empty track of length `L`, the slice
`chunk[i] = instrumental[(n*F + i) mod L]` for every `i < F`, and leaves the cursor at
`(n+1)*F` modulo `L`; for an empty track the slice is all zeros and the cursor stays 0. -/
theorem seamless_loop (m : CMath α) (data : AudioData α) (inps : Nat → CallbackInput α)
    (n : Nat) (d : AudioData α) (h0 : data.instrumental_pos = 0)
    (h : sessionAfter m data inps n = some d) :
    (data.instrumental ≠ [] →
      (∀ i, i < FRAMES_PER_BUFFER →
        (frameSetup d (inps n)).2[i]? =
          data.instrumental[(n * FRAMES_PER_BUFFER + i) % data.instrumental.length]?) ∧
      d.instrumental_pos % data.instrumental.length =
        (n * FRAMES_PER_BUFFER) % data.instrumental.length ∧
      (frameSetup d (inps n)).1.instrumental_pos % data.instrumental.length =
        ((n + 1) * FRAMES_PER_BUFFER) % data.instrumental.length) ∧
    (data.instrumental = [] →
      (frameSetup d (inps n)).2 = List.replicate FRAMES_PER_BUFFER 0 ∧
      d.instrumental_pos = 0 ∧ (frameSetup d (inps n)).1.instrumental_pos = 0) := by
  have hF : 0 < FRAMES_PER_BUFFER := by decide
  obtain ⟨hi, hp⟩ := sessionAfter_cursor m data inps h0 n d h
  obtain ⟨hc1, hc2⟩ := frameSetup_cursor d (inps n)
  constructor
  · intro hne
    have hL : 0 < data.instrumental.length := List.length_pos.mpr hne
    have hmod := cursorAfter_mod data.instrumental hL FRAMES_PER_BUFFER hF n
    refine ⟨?_, ?_, ?_⟩
    · intro i hi1
      rw [hc2, hi, hp, instrumentalLoop_getElem? data.instrumental hL _ _
        (cursorAfter_le data.instrumental hL FRAMES_PER_BUFFER hF n) i hi1,
        ← Nat.mod_add_mod, hmod, Nat.mod_add_mod]
    · rw [hp, hmod]
    · rw [hc1, hi, hp]
      exact cursorAfter_mod data.instrumental hL FRAMES_PER_BUFFER hF (n + 1)
  · intro hemp
    have hz : ∀ k, cursorAfter data.instrumental FRAMES_PER_BUFFER k = 0 := by
      intro k
      induction k with
      | zero => rfl
      | succ k _ =>
        show (instrumentalLoop data.instrumental FRAMES_PER_BUFFER _).2 = 0
        rw [hemp, instrumentalLoop_nil]
        rfl
    have hp0 : d.instrumental_pos = 0 := hp.trans (hz n)
    refine ⟨?_, hp0, ?_⟩
    · rw [hc2, hi, hemp, instrumentalLoop_nil]
    · rw [hc1, hi, hemp, instrumentalLoop_nil]
      rfl

/-- C16 on the second frame of a session over the three-sample track `[1, 2, 3]`. -/
theorem seamless_loop_witness :
    (initialAudioData [1, 2, 3] [] : AudioData ℝ).instrumental_pos = 0 ∧
    ∃ d : AudioData ℝ,
      sessionAfter (CMath.mk Real.sqrt Real.exp (fun x y => x ^ y) Real.sin Real.pi) (initialAudioData [1, 2, 3] []) (fun _ => silentInput) 1 = some d ∧
      ((initialAudioData [1, 2, 3] [] : AudioData ℝ).instrumental ≠ [] →
        (∀ i, i < FRAMES_PER_BUFFER →
          (frameSetup d silentInput).2[i]? =
            (initialAudioData [1, 2, 3] [] : AudioData ℝ).instrumental[
              (1 * FRAMES_PER_BUFFER + i) %
                (initialAudioData [1, 2, 3] [] : AudioData ℝ).instrumental.length]?) ∧
        d.instrumental_pos % (initialAudioData [1, 2, 3] [] : AudioData ℝ).instrumental.length =
          (1 * FRAMES_PER_BUFFER) %
            (initialAudioData [1, 2, 3] [] : AudioData ℝ).instrumental.length ∧
        (frameSetup d silentInput).1.instrumental_pos %
            (initialAudioData [1, 2, 3] [] : AudioData ℝ).instrumental.length =
          ((1 + 1) * FRAMES_PER_BUFFER) %
            (initialAudioData [1, 2, 3] [] : AudioData ℝ).instrumental.length) ∧
      ((initialAudioData [1, 2, 3] [] : AudioData ℝ).instrumental = [] →
        (frameSetup d silentInput).2 = List.replicate FRAMES_PER_BUFFER 0 ∧
        d.instrumental_pos = 0 ∧ (frameSetup d silentInput).1.instrumental_pos = 0) := by
  obtain ⟨d, hd⟩ := sessionAfter_silent (CMath.mk Real.sqrt Real.exp (fun x y => x ^ y) Real.sin Real.pi) [1, 2, 3] 1
  exact ⟨rfl, d, hd, seamless_loop _ _ (fun _ => silentInput) 1 d rfl hd⟩

/-! ## The plot histories -/

/-- Push one value on a history that holds the last `K` of `vals`, then drop the oldest
entry if a history of length `c` has grown past `K`: the result holds the last `K` of
`vals ++ [v]`. -/
theorem ring_push {β : Type} (K : Nat) (vals : List β) (v : β) (c : Nat)
    (hc : c = (vals.drop (vals.length - K)).length) :
    (if c + 1 > K then (vals.drop (vals.length - K) ++ [v]).tail
      else vals.drop (vals.length - K) ++ [v]) =
      (vals ++ [v]).drop (vals.length + 1 - K) := by
  rw [List.length_drop] at hc
  by_cases hk : vals.length < K
  · have h1 : vals.length - K = 0 := by omega
    have h2 : vals.length + 1 - K = 0 := by omega
    rw [if_neg (by omega), h1, h2, List.drop_zero, List.drop_zero]
  · have h2 : vals.length + 1 - K = (vals.length - K) + 1 := by omega
    rw [if_pos (by omega), h2, ← List.tail_drop,
      List.drop_append_of_le_length (Nat.sub_le _ _)]

theorem frameFinish_history (data : AudioData α) (target_pitch : α) :
    (frameFinish data target_pitch).current_time =
        data.current_time + (FRAMES_PER_BUFFER : α) / (SAMPLE_RATE : α) ∧
      (frameFinish data target_pitch).last_pitch = data.last_pitch ∧
      (frameFinish data target_pitch).pitch_history =
        (if data.pitch_history.length + 1 > PLOT_HISTORY
          then (data.pitch_history ++ [data.last_pitch]).tail
          else data.pitch_history ++ [data.last_pitch]) ∧
      (frameFinish data target_pitch).target_history =
        (if data.pitch_history.length + 1 > PLOT_HISTORY
          then (data.target_history ++ [target_pitch]).tail
          else data.target_history ++ [target_pitch]) ∧
      (frameFinish data target_pitch).time_history =
        (if data.pitch_history.length + 1 > PLOT_HISTORY
          then (data.time_history ++
            [data.current_time + (FRAMES_PER_BUFFER : α) / (SAMPLE_RATE : α)]).tail
          else data.time_history ++
            [data.current_time + (FRAMES_PER_BUFFER : α) / (SAMPLE_RATE : α)]) := by
  simp only [frameFinish, updateHistory, List.length_append, List.length_singleton]
  split_ifs <;> exact ⟨rfl, rfl, rfl, rfl, rfl⟩

/-- The history update of one returning callback: the stored pitch estimate, the target of
the frame and the advanced clock are pushed, and the oldest entry of each history is
dropped when the pitch history has grown past `PLOT_HISTORY`. -/
theorem audioCallback_history (m : CMath α) (data data1 : AudioData α)
    (inp : CallbackInput α) (out : List α)
    (h : audioCallback m data inp = some (data1, out)) :
    data1.pitch_history =
        (if data.pitch_history.length + 1 > PLOT_HISTORY
          then (data.pitch_history ++ [data1.last_pitch]).tail
          else data.pitch_history ++ [data1.last_pitch]) ∧
      data1.target_history =
        (if data.pitch_history.length + 1 > PLOT_HISTORY
          then (data.target_history ++
            [lookupTargetPitch data.melody_map data.current_time]).tail
          else data.target_history ++
            [lookupTargetPitch data.melody_map data.current_time]) ∧
      data1.time_history =
        (if data.pitch_history.length + 1 > PLOT_HISTORY
          then (data.time_history ++ [data1.current_time]).tail
          else data.time_history ++ [data1.current_time]) := by
  obtain ⟨ns, hns⟩ := audioCallback_state m data data1 inp out h
  obtain ⟨k1, k2, _, _, _, _, k7, k8, k9⟩ := frameSetup_kept data inp
  obtain ⟨f1, f2, f3, f4, f5⟩ := frameFinish_history
    { (frameSetup data inp).1 with noise_suppressor := ns }
    (lookupTargetPitch (frameSetup data inp).1.melody_map (frameSetup data inp).1.current_time)
  rw [← hns] at f1 f2 f3 f4 f5
  simp only [k1, k2, k7, k8, k9] at f1 f2 f3 f4 f5
  rw [← f1] at f5
  rw [← f2] at f3
  exact ⟨f3, f4, f5⟩

/-- The histories after `n` returning callbacks of a session that starts with empty
histories. -/
theorem sessionAfter_history (m : CMath α) (data : AudioData α)
    (inps : Nat → CallbackInput α) (d : Nat → AudioData α) (n : Nat)
    (hp : data.pitch_history = []) (ht : data.target_history = [])
    (hti : data.time_history = [])
    (hrun : ∀ i, i ≤ n → sessionAfter m data inps i = some (d i)) :
    (d n).pitch_history =
        ((List.range n).map (fun i => (d (i + 1)).last_pitch)).drop (n - PLOT_HISTORY) ∧
      (d n).target_history =
        ((List.range n).map
          (fun i => lookupTargetPitch (d i).melody_map (d i).current_time)).drop
            (n - PLOT_HISTORY) ∧
      (d n).time_history =
        ((List.range n).map (fun i => (d (i + 1)).current_time)).drop (n - PLOT_HISTORY) := by
  induction n with
  | zero =>
    have h := hrun 0 (Nat.le_refl 0)
    simp only [sessionAfter, Option.some.injEq] at h
    rw [← h, hp, ht, hti]
    exact ⟨rfl, rfl, rfl⟩
  | succ n ih =>
    obtain ⟨ihp, iht, ihti⟩ := ih (fun i hi => hrun i (Nat.le_succ_of_le hi))
    obtain ⟨d0, out, hs, hc⟩ := sessionAfter_succ m data (d (n + 1)) inps n
      (hrun (n + 1) (Nat.le_refl _))
    have hd0 : d0 = d n := by
      have h := hrun n (Nat.le_succ n)
      rw [hs] at h
      exact Option.some.inj h
    rw [hd0] at hc
    obtain ⟨h1, h2, h3⟩ := audioCallback_history m (d n) (d (n + 1)) (inps n) out hc
    have hlen : ∀ {β : Type} (f : Nat → β), ((List.range n).map f).length = n := by
      intro β f
      rw [List.length_map, List.length_range]
    have hcnt : ∀ {β : Type} (f : Nat → β), (d n).pitch_history.length =
        (((List.range n).map f).drop (((List.range n).map f).length - PLOT_HISTORY)).length := by
      intro β f
      rw [ihp, hlen, List.length_drop, List.length_drop, hlen, hlen]
    have hpush : ∀ {β : Type} (f : Nat → β),
        (if (d n).pitch_history.length + 1 > PLOT_HISTORY
          then (((List.range n).map f).drop (n - PLOT_HISTORY) ++ [f n]).tail
          else ((List.range n).map f).drop (n - PLOT_HISTORY) ++ [f n]) =
        ((List.range (n + 1)).map f).drop (n + 1 - PLOT_HISTORY) := by
      intro β f
      have h := ring_push PLOT_HISTORY ((List.range n).map f) (f n)
        (d n).pitch_history.length (hcnt f)
      rw [hlen] at h
      rw [h, List.range_succ, List.map_append, List.map_singleton]
    refine ⟨?_, ?_, ?_⟩
    · rw [h1, ← hpush (fun i => (d (i + 1)).last_pitch), ihp]
    · rw [h2, ← hpush (fun i => lookupTargetPitch (d i).melody_map (d i).current_time), iht]
    · rw [h3, ← hpush (fun i => (d (i + 1)).current_time), ihti]

/-- C13. History ring buffers: in a session that starts with empty histories and whose
first `n` callbacks return (`d i` is the state after `i` callbacks), each of
`pitch_history`, `target_history` and `time_history` holds, in insertion order, the values
pushed on the last `min n 200` frames (the stored pitch estimate, the target of the frame,
the advanced clock), and so has length `min n 200`, never more than `PLOT_HISTORY`. -/
theorem history_ring_buffers (m : CMath α) (data : AudioData α)
    (inps : Nat → CallbackInput α) (d : Nat → AudioData α) (n : Nat)
    (hp : data.pitch_history = []) (ht : data.target_history = [])
    (hti : data.time_history = [])
    (hrun : ∀ i, i ≤ n → sessionAfter m data inps i = some (d i)) :
    ((d n).pitch_history =
        ((List.range n).map (fun i => (d (i + 1)).last_pitch)).drop (n - min n 200) ∧
      (d n).target_history =
        ((List.range n).map
          (fun i => lookupTargetPitch (d i).melody_map (d i).current_time)).drop
            (n - min n 200) ∧
      (d n).time_history =
        ((List.range n).map (fun i => (d (i + 1)).current_time)).drop (n - min n 200)) ∧
    ((d n).pitch_history.length = min n 200 ∧ (d n).target_history.length = min n 200 ∧
      (d n).time_history.length = min n 200) ∧
    (d n).pitch_history.length ≤ PLOT_HISTORY ∧ (d n).target_history.length ≤ PLOT_HISTORY ∧
      (d n).time_history.length ≤ PLOT_HISTORY := by
  obtain ⟨h1, h2, h3⟩ := sessionAfter_history m data inps d n hp ht hti hrun
  have hk : n - min n 200 = n - PLOT_HISTORY := by
    unfold PLOT_HISTORY
    omega
  have hl : ∀ {β : Type} (f : Nat → β),
      (((List.range n).map f).drop (n - PLOT_HISTORY)).length = min n 200 := by
    intro β f
    rw [List.length_drop, List.length_map, List.length_range]
    unfold PLOT_HISTORY
    omega
  have hm : min n 200 ≤ PLOT_HISTORY := by
    unfold PLOT_HISTORY
    omega
  rw [hk]
  refine ⟨⟨h1, h2, h3⟩, ⟨?_, ?_, ?_⟩, ?_, ?_, ?_⟩
  · rw [h1]; exact hl _
  · rw [h2]; exact hl _
  · rw [h3]; exact hl _
  · rw [h1, hl]; exact hm
  · rw [h2, hl]; exact hm
  · rw [h3, hl]; exact hm

/-- C13 on 201 silent frames of the session that `main` sets up without track and without
melody: every callback returns, and each history holds the values of the last 200 frames. -/
theorem history_ring_buffers_witness :
    ∃ d : Nat → AudioData ℝ,
      (initialAudioData [] [] : AudioData ℝ).pitch_history = [] ∧
      (initialAudioData [] [] : AudioData ℝ).target_history = [] ∧
      (initialAudioData [] [] : AudioData ℝ).time_history = [] ∧
      (∀ i, i ≤ 201 →
        sessionAfter (CMath.mk Real.sqrt Real.exp (fun x y => x ^ y) Real.sin Real.pi)
          (initialAudioData [] []) (fun _ => silentInput) i = some (d i)) ∧
      ((d 201).pitch_history =
          ((List.range 201).map (fun i => (d (i + 1)).last_pitch)).drop (201 - min 201 200) ∧
        (d 201).target_history =
          ((List.range 201).map
            (fun i => lookupTargetPitch (d i).melody_map (d i).current_time)).drop
              (201 - min 201 200) ∧
        (d 201).time_history =
          ((List.range 201).map (fun i => (d (i + 1)).current_time)).drop
            (201 - min 201 200)) ∧
      ((d 201).pitch_history.length = min 201 200 ∧
        (d 201).target_history.length = min 201 200 ∧
        (d 201).time_history.length = min 201 200) ∧
      (d 201).pitch_history.length ≤ PLOT_HISTORY ∧
        (d 201).target_history.length ≤ PLOT_HISTORY ∧
        (d 201).time_history.length ≤ PLOT_HISTORY := by
  have hrun : ∀ i, i ≤ 201 →
      sessionAfter (CMath.mk Real.sqrt Real.exp (fun x y => x ^ y) Real.sin Real.pi)
          (initialAudioData [] []) (fun _ => silentInput) i =
        some ((sessionAfter (CMath.mk Real.sqrt Real.exp (fun x y => x ^ y) Real.sin Real.pi)
          (initialAudioData [] []) (fun _ => silentInput) i).getD (initialAudioData [] [])) := by
    intro i _
    obtain ⟨x, hx⟩ := sessionAfter_silent
      (CMath.mk Real.sqrt Real.exp (fun x y => x ^ y) Real.sin Real.pi) ([] : List ℝ) i
    rw [hx, Option.getD_some]
  refine ⟨fun i => (sessionAfter (CMath.mk Real.sqrt Real.exp (fun x y => x ^ y) Real.sin Real.pi)
    (initialAudioData [] []) (fun _ => silentInput) i).getD (initialAudioData [] []),
    rfl, rfl, rfl, hrun, ?_⟩
  exact history_ring_buffers (CMath.mk Real.sqrt Real.exp (fun x y => x ^ y) Real.sin Real.pi)
    (initialAudioData [] []) (fun _ => silentInput)
    (fun i => (sessionAfter (CMath.mk Real.sqrt Real.exp (fun x y => x ^ y) Real.sin Real.pi)
      (initialAudioData [] []) (fun _ => silentInput) i).getD (initialAudioData [] []))
    201 rfl rfl rfl hrun

/-! ## The parameter channel -/

theorem getLast?_getD_cons (v prev : α) (rest : List α) :
    ((v :: rest).getLast?).getD prev = (rest.getLast?).getD v := by
  cases rest with
  | nil => rfl
  | cons a t =>
    rw [List.getLast?_cons_cons, List.getLast?_eq_getLast _ (List.cons_ne_nil a t)]
    rfl

/-- Reject-and-retain, line by line: the first line of the file replaces the previous
value when it names the parameter with a value in range. -/
theorem retainedValue_cons (sel : ParamLine α → Option α) (lo hi prev : α) (l : ParamLine α)
    (ls : List (ParamLine α)) :
    retainedValue sel lo hi prev (l :: ls) =
      retainedValue sel lo hi
        (match sel l with
          | some v => if lo ≤ v ∧ v ≤ hi then v else prev
          | none => prev) ls := by
  unfold retainedValue
  cases h : sel l with
  | none => simp only [List.filterMap_cons, h]
  | some v =>
    simp only [List.filterMap_cons, h]
    by_cases hin : lo ≤ v ∧ v ≤ hi
    · rw [List.filter_cons_of_pos (by simpa using hin), getLast?_getD_cons, if_pos hin]
    · rw [List.filter_cons_of_neg (by simpa using hin), if_neg hin]

theorem retainedValue_nil (sel : ParamLine α → Option α) (lo hi prev : α) :
    retainedValue sel lo hi prev [] = prev := rfl

/-- The loop over a file without malformed line ends at the end of the file, and each of
the four parameters holds the value that reject-and-retain gives it. -/
theorem paramLoop_wellFormed (lines : List (ParamLine α)) : ∀ d : AudioData α,
    ParamLine.malformed ∉ lines →
    paramLoop d lines =
      ({ d with
          voice_volume := retainedValue ParamLine.voiceVolumeValue 0 5 d.voice_volume lines
          autotune_strength :=
            retainedValue ParamLine.autotuneStrengthValue 0 2 d.autotune_strength lines
          pitch_shift_amount :=
            retainedValue ParamLine.pitchShiftValue (-12) 12 d.pitch_shift_amount lines
          instrument_volume :=
            retainedValue ParamLine.instrumentVolumeValue 0 5 d.instrument_volume lines },
        false) := by
  induction lines with
  | nil =>
    intro d _
    simp only [paramLoop, retainedValue_nil]
  | cons l ls ih =>
    intro d hwf
    have hwf1 : ParamLine.malformed ∉ ls := fun h => hwf (List.mem_cons_of_mem _ h)
    cases l with
    | malformed => exact absurd (List.mem_cons_self _ _) hwf
    | other =>
      simp only [paramLoop, applyParamLine, ih d hwf1, retainedValue_cons,
        ParamLine.voiceVolumeValue, ParamLine.autotuneStrengthValue,
        ParamLine.pitchShiftValue, ParamLine.instrumentVolumeValue]
    | voice_volume v =>
      by_cases hin : 0 ≤ v ∧ v ≤ 5
      · simp only [paramLoop, applyParamLine, ge_iff_le, hin, and_self, if_true, ih _ hwf1,
          retainedValue_cons, ParamLine.voiceVolumeValue, ParamLine.autotuneStrengthValue,
          ParamLine.pitchShiftValue, ParamLine.instrumentVolumeValue]
      · simp only [paramLoop, applyParamLine, ge_iff_le, hin, if_false, ih _ hwf1,
          retainedValue_cons, ParamLine.voiceVolumeValue, ParamLine.autotuneStrengthValue,
          ParamLine.pitchShiftValue, ParamLine.instrumentVolumeValue]
    | autotune_strength v =>
      by_cases hin : 0 ≤ v ∧ v ≤ 2
      · simp only [paramLoop, applyParamLine, ge_iff_le, hin, and_self, if_true, ih _ hwf1,
          retainedValue_cons, ParamLine.voiceVolumeValue, ParamLine.autotuneStrengthValue,
          ParamLine.pitchShiftValue, ParamLine.instrumentVolumeValue]
      · simp only [paramLoop, applyParamLine, ge_iff_le, hin, if_false, ih _ hwf1,
          retainedValue_cons, ParamLine.voiceVolumeValue, ParamLine.autotuneStrengthValue,
          ParamLine.pitchShiftValue, ParamLine.instrumentVolumeValue]
    | pitch_shift v =>
      by_cases hin : -12 ≤ v ∧ v ≤ 12
      · simp only [paramLoop, applyParamLine, ge_iff_le, hin, and_self, if_true, ih _ hwf1,
          retainedValue_cons, ParamLine.voiceVolumeValue, ParamLine.autotuneStrengthValue,
          ParamLine.pitchShiftValue, ParamLine.instrumentVolumeValue]
      · simp only [paramLoop, applyParamLine, ge_iff_le, hin, if_false, ih _ hwf1,
          retainedValue_cons, ParamLine.voiceVolumeValue, ParamLine.autotuneStrengthValue,
          ParamLine.pitchShiftValue, ParamLine.instrumentVolumeValue]
    | instrument_volume v =>
      by_cases hin : 0 ≤ v ∧ v ≤ 5
      · simp only [paramLoop, applyParamLine, ge_iff_le, hin, and_self, if_true, ih _ hwf1,
          retainedValue_cons, ParamLine.voiceVolumeValue, ParamLine.autotuneStrengthValue,
          ParamLine.pitchShiftValue, ParamLine.instrumentVolumeValue]
      · simp only [paramLoop, applyParamLine, ge_iff_le, hin, if_false, ih _ hwf1,
          retainedValue_cons, ParamLine.voiceVolumeValue, ParamLine.autotuneStrengthValue,
          ParamLine.pitchShiftValue, ParamLine.instrumentVolumeValue]

/-- The loop is left by the exception at the first malformed line: the lines before it
have been applied, the lines after it are never read. -/
theorem paramLoop_malformed (pre post : List (ParamLine α)) : ∀ d : AudioData α,
    paramLoop d (pre ++ ParamLine.malformed :: post) = ((paramLoop d pre).1, true) := by
  induction pre with
  | nil =>
    intro d
    simp only [List.nil_append, paramLoop, applyParamLine]
  | cons l ls ih =>
    intro d
    cases hl : applyParamLine d l with
    | none => simp only [List.cons_append, paramLoop, hl]
    | some d1 =>
      simp only [List.cons_append, paramLoop, hl]
      exact ih d1

/-- A call of `checkParameterUpdates` that is not throttled and finds the file runs the
loop on the state with the new time stamp. -/
theorem checkParameterUpdatesExit_due (data : AudioData α) (now : Int)
    (lines : List (ParamLine α)) (hnow : ¬ ((now - data.last_check : Int) : α) < 0.1) :
    checkParameterUpdatesExit data now (some lines) =
      paramLoop { data with last_check := now } lines := by
  simp only [checkParameterUpdatesExit, hnow, if_false]

/-- C22 fails on the code for a line whose value does not parse.  On a call of
`checkParameterUpdates` that is not throttled, a file without malformed line is read to
its end and leaves each of the four parameters at the value of the last line that names
it with a value in range (`voice_volume` and `instrument_volume` in [0, 5],
`autotune_strength` in [0, 2], `pitch_shift` in [-12, 12]), at its previous value when
there is no such line, and changes nothing else but the time stamp of the throttle: on
such files invalid values are rejected and the previous value retained.  But when a line
with one of the four keys carries a value that `std::stof` cannot convert, the value is
not rejected: `std::stof` throws, nothing catches the exception, the lines after it are
not applied whatever they hold, and the callback does not return. -/
theorem parameter_line_exception (m : CMath α) (data : AudioData α) (inp : CallbackInput α)
    (lines post : List (ParamLine α))
    (hnow : ¬ ((inp.now - data.last_check : Int) : α) < 0.1)
    (hwf : ParamLine.malformed ∉ lines) :
    (checkParameterUpdatesThrows data inp.now (some lines) = false ∧
      checkParameterUpdates data inp.now (some lines) =
        { data with
          last_check := inp.now
          voice_volume :=
            retainedValue ParamLine.voiceVolumeValue 0 5 data.voice_volume lines
          autotune_strength :=
            retainedValue ParamLine.autotuneStrengthValue 0 2 data.autotune_strength lines
          pitch_shift_amount :=
            retainedValue ParamLine.pitchShiftValue (-12) 12 data.pitch_shift_amount lines
          instrument_volume :=
            retainedValue ParamLine.instrumentVolumeValue 0 5 data.instrument_volume lines }) ∧
    (checkParameterUpdatesThrows data inp.now
        (some (lines ++ ParamLine.malformed :: post)) = true ∧
      checkParameterUpdates data inp.now (some (lines ++ ParamLine.malformed :: post)) =
        checkParameterUpdates data inp.now (some lines) ∧
      audioCallback m data
        { inp with paramFile := some (lines ++ ParamLine.malformed :: post) } = none) := by
  have hdue := checkParameterUpdatesExit_due data inp.now lines hnow
  have hdue2 := checkParameterUpdatesExit_due data inp.now
    (lines ++ ParamLine.malformed :: post) hnow
  have hloop := paramLoop_wellFormed lines { data with last_check := inp.now } hwf
  have hbad := paramLoop_malformed lines post { data with last_check := inp.now }
  have hthrow : checkParameterUpdatesThrows data inp.now
      (some (lines ++ ParamLine.malformed :: post)) = true := by
    simp only [checkParameterUpdatesThrows, hdue2, hbad]
  refine ⟨⟨?_, ?_⟩, hthrow, ?_, ?_⟩
  · simp only [checkParameterUpdatesThrows, hdue, hloop]
  · simp only [checkParameterUpdates, hdue, hloop]
  · simp only [checkParameterUpdates, hdue, hdue2, hbad]
  · exact audioCallback_throw m data _ hthrow

/-- C22 on a session that `main` has just set up, at clock second 1: the file
`voice_volume=2`, `voice_volume=7`, an unrelated line, then a line with a recognised key
and no number, then `autotune_strength=0.5`.  Without the malformed line and what follows
it, the voice volume becomes 2 (7 is rejected); with it the callback does not return. -/
theorem parameter_line_exception_witness :
    (¬ (((({ inputBuffer := List.replicate 256 0, now := 1, paramFile := none, pitch := 0, confidence := 0 } : CallbackInput ℝ).now - (initialAudioData [] [] : AudioData ℝ).last_check : Int) : ℝ) < 0.1)) ∧
    ParamLine.malformed ∉ ([ParamLine.voice_volume 2, ParamLine.voice_volume 7, ParamLine.other] : List (ParamLine ℝ)) ∧
    retainedValue ParamLine.voiceVolumeValue 0 5 (initialAudioData [] [] : AudioData ℝ).voice_volume [ParamLine.voice_volume 2, ParamLine.voice_volume 7, ParamLine.other] = 2 ∧
    (checkParameterUpdatesThrows (initialAudioData [] [] : AudioData ℝ) ({ inputBuffer := List.replicate 256 0, now := 1, paramFile := none, pitch := 0, confidence := 0 } : CallbackInput ℝ).now (some [ParamLine.voice_volume 2, ParamLine.voice_volume 7, ParamLine.other]) = false ∧
      checkParameterUpdates (initialAudioData [] [] : AudioData ℝ) ({ inputBuffer := List.replicate 256 0, now := 1, paramFile := none, pitch := 0, confidence := 0 } : CallbackInput ℝ).now (some [ParamLine.voice_volume 2, ParamLine.voice_volume 7, ParamLine.other]) =
        { (initialAudioData [] [] : AudioData ℝ) with
          last_check := ({ inputBuffer := List.replicate 256 0, now := 1, paramFile := none, pitch := 0, confidence := 0 } : CallbackInput ℝ).now
          voice_volume :=
            retainedValue ParamLine.voiceVolumeValue 0 5 (initialAudioData [] [] : AudioData ℝ).voice_volume [ParamLine.voice_volume 2, ParamLine.voice_volume 7, ParamLine.other]
          autotune_strength :=
            retainedValue ParamLine.autotuneStrengthValue 0 2 (initialAudioData [] [] : AudioData ℝ).autotune_strength [ParamLine.voice_volume 2, ParamLine.voice_volume 7, ParamLine.other]
          pitch_shift_amount :=
            retainedValue ParamLine.pitchShiftValue (-12) 12 (initialAudioData [] [] : AudioData ℝ).pitch_shift_amount [ParamLine.voice_volume 2, ParamLine.voice_volume 7, ParamLine.other]
          instrument_volume :=
            retainedValue ParamLine.instrumentVolumeValue 0 5 (initialAudioData [] [] : AudioData ℝ).instrument_volume [ParamLine.voice_volume 2, ParamLine.voice_volume 7, ParamLine.other] }) ∧
    (checkParameterUpdatesThrows (initialAudioData [] [] : AudioData ℝ) ({ inputBuffer := List.replicate 256 0, now := 1, paramFile := none, pitch := 0, confidence := 0 } : CallbackInput ℝ).now
        (some ([ParamLine.voice_volume 2, ParamLine.voice_volume 7, ParamLine.other] ++ ParamLine.malformed :: [ParamLine.autotune_strength (1 / 2)])) = true ∧
      checkParameterUpdates (initialAudioData [] [] : AudioData ℝ) ({ inputBuffer := List.replicate 256 0, now := 1, paramFile := none, pitch := 0, confidence := 0 } : CallbackInput ℝ).now (some ([ParamLine.voice_volume 2, ParamLine.voice_volume 7, ParamLine.other] ++ ParamLine.malformed :: [ParamLine.autotune_strength (1 / 2)])) =
        checkParameterUpdates (initialAudioData [] [] : AudioData ℝ) ({ inputBuffer := List.replicate 256 0, now := 1, paramFile := none, pitch := 0, confidence := 0 } : CallbackInput ℝ).now (some [ParamLine.voice_volume 2, ParamLine.voice_volume 7, ParamLine.other]) ∧
      audioCallback (CMath.mk Real.sqrt Real.exp (fun x y => x ^ y) Real.sin Real.pi) (initialAudioData [] [] : AudioData ℝ)
        { ({ inputBuffer := List.replicate 256 0, now := 1, paramFile := none, pitch := 0, confidence := 0 } : CallbackInput ℝ) with paramFile := some ([ParamLine.voice_volume 2, ParamLine.voice_volume 7, ParamLine.other] ++ ParamLine.malformed :: [ParamLine.autotune_strength (1 / 2)]) } = none) := by
  have hnow : ¬ (((({ inputBuffer := List.replicate 256 0, now := 1, paramFile := none, pitch := 0, confidence := 0 } : CallbackInput ℝ).now - (initialAudioData [] [] : AudioData ℝ).last_check : Int) : ℝ) < 0.1) := by
    simp only [initialAudioData]
    norm_num
  have hwf : ParamLine.malformed ∉ ([ParamLine.voice_volume 2, ParamLine.voice_volume 7, ParamLine.other] : List (ParamLine ℝ)) := by
    simp
  refine ⟨hnow, hwf, ?_, parameter_line_exception _ _ _ _ _ hnow hwf⟩
  simp only [retainedValue_cons, retainedValue_nil, ParamLine.voiceVolumeValue]
  norm_num

/-! ## The melody loader -/

theorem skipHeaderLines_comments (comments rest : List (MelodyLine α))
    (hc : ∀ l ∈ comments, l.startsWithHash = true) :
    skipHeaderLines (comments ++ rest) = skipHeaderLines rest := by
  induction comments with
  | nil => rfl
  | cons c cs ih =>
    have h1 : c.startsWithHash = true := hc c (List.mem_cons_self _ _)
    simp only [List.cons_append, skipHeaderLines, h1, if_true]
    exact ih (fun l hl => hc l (List.mem_cons_of_mem _ hl))

theorem readMelodyData_dataLines (points : List (α × α)) :
    readMelodyData (points.map dataLine) = some points := by
  induction points with
  | nil => rfl
  | cons p ps ih =>
    simp only [List.map_cons, readMelodyData, dataLine, Bool.false_eq_true, if_false]
    rw [show List.map dataLine ps = List.map dataLine ps from rfl, ih]
    rfl

/-- A file name that ends in `.txt` does not end in `.npz`. -/
theorem hasExtension_txt (filename : List Char)
    (h : hasExtension filename ['.', 't', 'x', 't'] = true) :
    hasExtension filename ['.', 'n', 'p', 'z'] = false := by
  simp only [hasExtension, Bool.and_eq_true, decide_eq_true_eq, beq_iff_eq] at h
  simp only [hasExtension, h.2, Bool.and_eq_false_imp, decide_eq_true_eq]
  intro _
  decide

/-- What `loadMelodyMap` returns on a `.txt` file of comment lines followed by well-formed
data lines: the points of the data lines without the first. -/
theorem loadMelodyMap_eq (filename : List Char)
    (htxt : hasExtension filename ['.', 't', 'x', 't'] = true)
    (comments : List (MelodyLine α)) (points : List (α × α))
    (hc : ∀ l ∈ comments, l.startsWithHash = true) :
    loadMelodyMap filename (some (comments ++ points.map dataLine)) = some points.tail := by
  simp only [loadMelodyMap, hasExtension_txt filename htxt, htxt, Bool.false_eq_true, if_false,
    if_true, skipHeaderLines_comments comments _ hc]
  cases points with
  | nil => rfl
  | cons p ps =>
    simp only [List.map_cons, skipHeaderLines, dataLine, Bool.false_eq_true, if_false,
      List.tail_cons]
    exact readMelodyData_dataLines ps

/-- C23 (divergence). Melody loader: on a `.txt` file of `k ≥ 0` lines that start with
`#` followed by `n ≥ 0` well-formed data lines, `loadMelodyMap` returns the points of the
data lines in file order without the first one, `n - 1` points and not `n`: the header
loop has read the first data line when its test fails, and the data loop starts with the
line after it. -/
theorem melody_loader_drops_first_data_line (filename : List Char)
    (htxt : hasExtension filename ['.', 't', 'x', 't'] = true)
    (comments : List (MelodyLine α)) (points : List (α × α))
    (hc : ∀ l ∈ comments, l.startsWithHash = true) :
    ∃ loaded, loadMelodyMap filename (some (comments ++ points.map dataLine)) = some loaded ∧
      loaded = points.tail ∧ loaded.length = points.length - 1 ∧
      (0 < points.length → loaded.length ≠ points.length) := by
  refine ⟨points.tail, loadMelodyMap_eq filename htxt comments points hc, rfl, ?_, ?_⟩
  · exact List.length_tail points
  · intro hpos
    rw [List.length_tail]
    omega

/-- C23 on the file `m.txt` with one header line and the two data lines `0,440` and
`0.5,494`: only the second point is loaded. -/
theorem melody_loader_drops_first_data_line_witness :
    hasExtension ['m', '.', 't', 'x', 't'] ['.', 't', 'x', 't'] = true ∧
    (∀ l ∈ [(⟨true, false, none⟩ : MelodyLine ℚ)], l.startsWithHash = true) ∧
    ∃ loaded, loadMelodyMap ['m', '.', 't', 'x', 't']
        (some ([(⟨true, false, none⟩ : MelodyLine ℚ)] ++
          [((0 : ℚ), (440 : ℚ)), (1 / 2, 494)].map dataLine)) = some loaded ∧
      loaded = [((0 : ℚ), (440 : ℚ)), (1 / 2, 494)].tail ∧
      loaded.length = [((0 : ℚ), (440 : ℚ)), (1 / 2, 494)].length - 1 ∧
      (0 < [((0 : ℚ), (440 : ℚ)), (1 / 2, 494)].length →
        loaded.length ≠ [((0 : ℚ), (440 : ℚ)), (1 / 2, 494)].length) :=
  ⟨by decide, by simp,
    melody_loader_drops_first_data_line ['m', '.', 't', 'x', 't'] (by decide)
      [⟨true, false, none⟩] [(0, 440), (1 / 2, 494)] (by simp)⟩

/-! ## The stored pitch estimate as an invariant -/

/-- A returning callback leaves the stored estimate as its sticky update made it. -/
theorem audioCallback_estimate (m : CMath α) (data data1 : AudioData α)
    (inp : CallbackInput α) (out : List α)
    (h : audioCallback m data inp = some (data1, out)) :
    data1.last_pitch = (frameSetup data inp).1.last_pitch ∧
      data1.last_confidence = (frameSetup data inp).1.last_confidence := by
  obtain ⟨ns, hns⟩ := audioCallback_state m data data1 inp out h
  obtain ⟨ct, ph, th, tih, hfin⟩ := frameFinish_eq
    { (frameSetup data inp).1 with noise_suppressor := ns }
    (lookupTargetPitch (frameSetup data inp).1.melody_map (frameSetup data inp).1.current_time)
  rw [hfin] at hns
  exact ⟨by rw [hns], by rw [hns]⟩

/-- The sticky update keeps the estimate either unset or above both thresholds. -/
theorem frameSetup_estimate_invariant (data : AudioData α) (inp : CallbackInput α)
    (h : (data.last_pitch = 0 ∧ data.last_confidence = 0) ∨
      (data.last_pitch > 50 ∧ data.last_confidence > 0.3)) :
    ((frameSetup data inp).1.last_pitch = 0 ∧ (frameSetup data inp).1.last_confidence = 0) ∨
      ((frameSetup data inp).1.last_pitch > 50 ∧
        (frameSetup data inp).1.last_confidence > 0.3) := by
  obtain ⟨hp, hc⟩ := frameSetup_estimate data inp
  rw [hp, hc]
  by_cases hcond : inp.confidence > 0.3 ∧ inp.pitch > 50
  · rw [if_pos hcond, if_pos hcond]
    exact Or.inr ⟨hcond.2, hcond.1⟩
  · rw [if_neg hcond, if_neg hcond]
    exact h

theorem sessionAfter_estimate (m : CMath α) (data : AudioData α)
    (inps : Nat → CallbackInput α) (n : Nat) (d : AudioData α)
    (hp : data.last_pitch = 0) (hc : data.last_confidence = 0)
    (h : sessionAfter m data inps n = some d) :
    (d.last_pitch = 0 ∧ d.last_confidence = 0) ∨
      (d.last_pitch > 50 ∧ d.last_confidence > 0.3) := by
  induction n generalizing d with
  | zero =>
    simp only [sessionAfter, Option.some.injEq] at h
    rw [← h]
    exact Or.inl ⟨hp, hc⟩
  | succ n ih =>
    obtain ⟨d0, out, hs, hcb⟩ := sessionAfter_succ m data d inps n h
    obtain ⟨h1, h2⟩ := audioCallback_estimate m d0 d (inps n) out hcb
    rw [h1, h2]
    exact frameSetup_estimate_invariant d0 (inps n) (ih d0 hs)

/-- C30. Stored pitch estimate invariant: in a session that starts with `last_pitch = 0`
and `last_confidence = 0`, after any number of returning callbacks with arbitrary detector
outputs, and also at the correction test inside the next callback, either both stored
values are 0 or `last_pitch > 50` and `last_confidence > 0.3`; so the correction test of
that callback holds exactly when `last_confidence > 0.5` and the target pitch is `> 0`. -/
theorem stored_pitch_invariant (m : CMath α) (data : AudioData α)
    (inps : Nat → CallbackInput α) (n : Nat) (d : AudioData α)
    (hp : data.last_pitch = 0) (hc : data.last_confidence = 0)
    (h : sessionAfter m data inps n = some d) :
    ((d.last_pitch = 0 ∧ d.last_confidence = 0) ∨
      (d.last_pitch > 50 ∧ d.last_confidence > 0.3)) ∧
    (((frameSetup d (inps n)).1.last_pitch = 0 ∧
        (frameSetup d (inps n)).1.last_confidence = 0) ∨
      ((frameSetup d (inps n)).1.last_pitch > 50 ∧
        (frameSetup d (inps n)).1.last_confidence > 0.3)) ∧
    ∀ target_pitch : α,
      correctionApplies (frameSetup d (inps n)).1 target_pitch =
        decide ((frameSetup d (inps n)).1.last_confidence > 0.5 ∧ target_pitch > 0) := by
  have hd := sessionAfter_estimate m data inps n d hp hc h
  have hs := frameSetup_estimate_invariant d (inps n) hd
  refine ⟨hd, hs, ?_⟩
  intro target_pitch
  unfold correctionApplies
  rw [decide_eq_decide]
  constructor
  · exact fun hx => ⟨hx.1, hx.2.2⟩
  · intro hx
    refine ⟨hx.1, ?_, hx.2⟩
    rcases hs with ⟨_, hz⟩ | ⟨hpos, _⟩
    · rw [hz] at hx
      exact absurd hx.1 (by norm_num)
    · exact lt_trans (by norm_num) hpos

/-- C30 after three frames on which the detector reports 440 Hz with confidence 0.9, in a
session without melody. -/
theorem stored_pitch_invariant_witness :
    (initialAudioData [] [] : AudioData ℝ).last_pitch = 0 ∧
    (initialAudioData [] [] : AudioData ℝ).last_confidence = 0 ∧
    ∃ d : AudioData ℝ,
      sessionAfter (CMath.mk Real.sqrt Real.exp (fun x y => x ^ y) Real.sin Real.pi) (initialAudioData [] [])
        (fun _ => { inputBuffer := List.replicate 256 0, now := 0, paramFile := none,
                    pitch := 440, confidence := 0.9 }) 3 = some d ∧
      ((d.last_pitch = 0 ∧ d.last_confidence = 0) ∨
        (d.last_pitch > 50 ∧ d.last_confidence > 0.3)) ∧
      (((frameSetup d { inputBuffer := List.replicate 256 0, now := 0, paramFile := none,
                        pitch := 440, confidence := 0.9 }).1.last_pitch = 0 ∧
          (frameSetup d { inputBuffer := List.replicate 256 0, now := 0, paramFile := none,
                          pitch := 440, confidence := 0.9 }).1.last_confidence = 0) ∨
        ((frameSetup d { inputBuffer := List.replicate 256 0, now := 0, paramFile := none,
                         pitch := 440, confidence := 0.9 }).1.last_pitch > 50 ∧
          (frameSetup d { inputBuffer := List.replicate 256 0, now := 0, paramFile := none,
                          pitch := 440, confidence := 0.9 }).1.last_confidence > 0.3)) ∧
      ∀ target_pitch : ℝ,
        correctionApplies
            (frameSetup d { inputBuffer := List.replicate 256 0, now := 0, paramFile := none,
                            pitch := 440, confidence := 0.9 }).1 target_pitch =
          decide ((frameSetup d { inputBuffer := List.replicate 256 0, now := 0,
                                  paramFile := none, pitch := 440,
                                  confidence := 0.9 }).1.last_confidence > 0.5 ∧
            target_pitch > 0) := by
  obtain ⟨d, hd, _⟩ := sessionAfter_returns (CMath.mk Real.sqrt Real.exp (fun x y => x ^ y) Real.sin Real.pi) (initialAudioData [] [])
    (fun _ => { inputBuffer := List.replicate 256 0, now := 0, paramFile := none,
                pitch := 440, confidence := 0.9 })
    (fun _ _ => checkParameterUpdatesThrows_none _ _)
    (fun _ => by simp only [List.length_replicate, FRAMES_PER_BUFFER]) rfl
    (by
      intro ns hns
      simp only [initialAudioData, Option.some.injEq] at hns
      rw [← hns]
      exact wellFormed_mainSuppressor)
    rfl 3
  exact ⟨rfl, rfl, d, hd, stored_pitch_invariant
    (CMath.mk Real.sqrt Real.exp (fun x y => x ^ y) Real.sin Real.pi) (initialAudioData [] [])
    (fun _ => { inputBuffer := List.replicate 256 0, now := 0, paramFile := none,
                pitch := 440, confidence := 0.9 }) 3 d rfl rfl hd⟩

/-! ## The high-pass filter as a gain -/

namespace SimpleNoiseSuppressor

/-- In exact arithmetic the filter loop multiplies every sample by `alpha`, whatever the
carried `prevSample`. -/
theorem highPassLoop_eq (alpha prev : α) (samples : List α) :
    (highPassLoop alpha prev samples).1 = samples.map (fun x => alpha * x) := by
  induction samples generalizing prev with
  | nil => rfl
  | cons x xs ih =>
    simp only [highPassLoop, List.map_cons, ih, add_sub_cancel_left]

/-- With the voice flag set after the state update, the frame gets the filter when the
reduction strength is positive and nothing at all when it is 0. -/
theorem processAudio_active_output (m : CMath α) (s s1 : Karaoke.SimpleNoiseSuppressor α)
    (input output out : List α) (numSamples : Int) (hn : 0 < numSamples)
    (h : processAudio m s input output numSamples = some (s1, out))
    (hactive : s1.m_voiceActive = true) :
    out = (if 0 < s.m_noiseReductionStrength
        then (input.take numSamples.toNat).map (fun x => highPassAlpha m s.m_sampleRate * x)
        else input.take numSamples.toNat) ++ output.drop numSamples.toNat := by
  obtain ⟨s7, hv, _, _, hstr, hsr, _, hout⟩ :=
    processAudio_stages m s s1 input output out numSamples hn h
  rw [hv] at hactive
  rw [hout]
  by_cases hpos : 0 < s.m_noiseReductionStrength
  · have hpos7 : s7.m_noiseReductionStrength > 0 := by rw [hstr]; exact hpos
    simp only [gateAndReduce, applySpectralNoiseReduction, hactive, hpos7, hpos, hsr,
      highPassLoop_eq, Bool.not_true, Bool.false_and, Bool.false_eq_true, if_false, if_true]
  · have hpos7 : ¬ s7.m_noiseReductionStrength > 0 := by rw [hstr]; exact hpos
    simp only [gateAndReduce, hactive, hpos7, hpos, Bool.not_true, Bool.false_and,
      Bool.false_eq_true, if_false]

/-- C26 (amended). High-pass filter as a gain: in exact arithmetic the filter loop of
`applySpectralNoiseReduction` maps every sample `x` to `alpha * x` with
`alpha = rc / (rc + dt)`, `rc = 1 / (2 * pi * 80)`, `dt = 1 / sampleRate`, whatever the
carried `prevSample`; so a `processAudio` call with `noise_reduction_strength > 0` that
ends in the Active state outputs `alpha` times the input frame, and `0 < alpha < 1` for a
positive sample rate. -/
theorem high_pass_gain (m : CMath α) (s s1 : Karaoke.SimpleNoiseSuppressor α)
    (input output out : List α) (numSamples : Int) (hn : 0 < numSamples)
    (hstrength : 0 < s.m_noiseReductionStrength)
    (h : processAudio m s input output numSamples = some (s1, out))
    (hactive : s1.m_voiceActive = true) :
    (∀ (prev : α) (samples : List α),
      (highPassLoop (highPassAlpha m s.m_sampleRate) prev samples).1 =
        samples.map (fun x => highPassAlpha m s.m_sampleRate * x)) ∧
    highPassAlpha m s.m_sampleRate =
      (1 / (2 * m.M_PI * 80)) / (1 / (2 * m.M_PI * 80) + 1 / (s.m_sampleRate : α)) ∧
    out = (input.take numSamples.toNat).map (fun x => highPassAlpha m s.m_sampleRate * x) ++
      output.drop numSamples.toNat ∧
    (0 < m.M_PI → 0 < s.m_sampleRate →
      0 < highPassAlpha m s.m_sampleRate ∧ highPassAlpha m s.m_sampleRate < 1) := by
  refine ⟨fun prev samples => highPassLoop_eq _ prev samples, rfl, ?_, ?_⟩
  · have hout := processAudio_active_output m s s1 input output out numSamples hn h hactive
    rw [if_pos hstrength] at hout
    exact hout
  · intro hpi hsr
    exact ⟨highPassAlpha_pos m hpi _ hsr, highPassAlpha_lt_one m hpi _ hsr⟩

/-- At signal level at least 0.002 and noise level 0.001 the VAD probability is at least
1/2. -/
theorem calculateVADProbability_high (m : CMath ℝ) (he : m.exp = Real.exp) (signal : ℝ)
    (h : 0.002 ≤ signal) : 1 / 2 ≤ calculateVADProbability m signal 0.001 := by
  rw [calculateVADProbability_real m he]
  have he0 : -5 * (signal / 0.001 - 2) ≤ 0 := by
    have : signal / 0.001 = 1000 * signal := by ring
    rw [this]
    linarith
  have h1 : Real.exp (-5 * (signal / 0.001 - 2)) ≤ 1 := by
    rw [← Real.exp_zero]
    exact Real.exp_le_exp.2 he0
  have hpos := Real.exp_pos (-5 * (signal / 0.001 - 2))
  rw [div_le_div_iff₀ (by norm_num) (by linarith)]
  linarith

/-- A one-sample frame `[x]`, `x ≥ 1/50`, as first frame of a suppressor with threshold
0.3 and the noise level at its minimum: the call returns with the voice flag set. -/
theorem processAudio_loud_single (s : Karaoke.SimpleNoiseSuppressor ℝ) (x : ℝ)
    (hx : 1 / 50 ≤ x) (hwf : WellFormed s)
    (hq : QuietHistory s.m_noiseHistory (498 + 502)) (hnoise : s.m_noiseLevel = 0.001)
    (hsig : s.m_signalLevel = 0) (hthr : s.m_vadThreshold = 0.3) :
    ∃ s1 out, processAudio (CMath.mk Real.sqrt Real.exp (fun x y => x ^ y) Real.sin Real.pi) s [x] [x] 1 = some (s1, out) ∧ s1.m_voiceActive = true := by
  obtain ⟨s1, out, h1, _, _, _, _, _, _, _, hv1⟩ := processAudio_single
    (CMath.mk Real.sqrt Real.exp (fun x y => x ^ y) Real.sin Real.pi) rfl s x (by linarith) 498 hwf hq hnoise
  refine ⟨s1, out, h1, ?_⟩
  rw [hv1, hsig, hthr]
  have hhigh := calculateVADProbability_high (CMath.mk Real.sqrt Real.exp (fun x y => x ^ y) Real.sin Real.pi) rfl (0.9 * 0 + 0.1 * x) (by linarith)
  simp only [decide_eq_true_eq, gt_iff_lt]
  linarith

/-- C26 on the first frame `[1/10]` of the suppressor that `main` configures: the frame
ends in the Active state and comes out multiplied by `alpha`. -/
theorem high_pass_gain_witness :
    ∃ s1 out,
      (0 : Int) < 1 ∧
      0 < (mainSuppressor : Karaoke.SimpleNoiseSuppressor ℝ).m_noiseReductionStrength ∧
      processAudio (CMath.mk Real.sqrt Real.exp (fun x y => x ^ y) Real.sin Real.pi) mainSuppressor [1 / 10] [1 / 10] 1 = some (s1, out) ∧
      s1.m_voiceActive = true ∧
      (∀ (prev : ℝ) (samples : List ℝ),
        (highPassLoop (highPassAlpha (CMath.mk Real.sqrt Real.exp (fun x y => x ^ y) Real.sin Real.pi)
            (mainSuppressor : Karaoke.SimpleNoiseSuppressor ℝ).m_sampleRate) prev samples).1 =
          samples.map (fun x => highPassAlpha (CMath.mk Real.sqrt Real.exp (fun x y => x ^ y) Real.sin Real.pi)
            (mainSuppressor : Karaoke.SimpleNoiseSuppressor ℝ).m_sampleRate * x)) ∧
      highPassAlpha (CMath.mk Real.sqrt Real.exp (fun x y => x ^ y) Real.sin Real.pi) (mainSuppressor : Karaoke.SimpleNoiseSuppressor ℝ).m_sampleRate =
        (1 / (2 * ((CMath.mk Real.sqrt Real.exp (fun x y => x ^ y) Real.sin Real.pi)).M_PI * 80)) / (1 / (2 * ((CMath.mk Real.sqrt Real.exp (fun x y => x ^ y) Real.sin Real.pi)).M_PI * 80) +
          1 / (((mainSuppressor : Karaoke.SimpleNoiseSuppressor ℝ).m_sampleRate : Int) : ℝ)) ∧
      out = (List.take (1 : Int).toNat [(1 / 10 : ℝ)]).map
          (fun x => highPassAlpha (CMath.mk Real.sqrt Real.exp (fun x y => x ^ y) Real.sin Real.pi)
            (mainSuppressor : Karaoke.SimpleNoiseSuppressor ℝ).m_sampleRate * x) ++
        List.drop (1 : Int).toNat [(1 / 10 : ℝ)] ∧
      (0 < ((CMath.mk Real.sqrt Real.exp (fun x y => x ^ y) Real.sin Real.pi)).M_PI → 0 < (mainSuppressor : Karaoke.SimpleNoiseSuppressor ℝ).m_sampleRate →
        0 < highPassAlpha (CMath.mk Real.sqrt Real.exp (fun x y => x ^ y) Real.sin Real.pi) (mainSuppressor : Karaoke.SimpleNoiseSuppressor ℝ).m_sampleRate ∧
        highPassAlpha (CMath.mk Real.sqrt Real.exp (fun x y => x ^ y) Real.sin Real.pi) (mainSuppressor : Karaoke.SimpleNoiseSuppressor ℝ).m_sampleRate < 1) := by
  have hstr : 0 < (mainSuppressor : Karaoke.SimpleNoiseSuppressor ℝ).m_noiseReductionStrength := by
    rw [mainSuppressor_eq]
    norm_num
  obtain ⟨s1, out, h1, hact⟩ := processAudio_loud_single mainSuppressor (1 / 10) (by norm_num)
    wellFormed_mainSuppressor (by rw [mainSuppressor_eq]; exact quietHistory_replicate)
    (by rw [mainSuppressor_eq]) (by rw [mainSuppressor_eq]) (by rw [mainSuppressor_eq])
  exact ⟨s1, out, by decide, hstr, h1, hact,
    high_pass_gain (CMath.mk Real.sqrt Real.exp (fun x y => x ^ y) Real.sin Real.pi) mainSuppressor s1 [1 / 10] [1 / 10] out 1 (by decide) hstr h1 hact⟩

/-- C26 as first stated fails for `noise_reduction_strength = 0`: on the suppressor
configured by `main` and then set to strength 0, the frame `[1/10]` ends in the Active
state and comes out unchanged, not multiplied by `alpha < 1`. -/
theorem high_pass_gain_counterexample :
    ∃ s1 out,
      processAudio (CMath.mk Real.sqrt Real.exp (fun x y => x ^ y) Real.sin Real.pi) (setNoiseReductionStrength mainSuppressor 0) [1 / 10] [1 / 10] 1 =
        some (s1, out) ∧
      s1.m_voiceActive = true ∧ out = [1 / 10] ∧
      out ≠ [highPassAlpha (CMath.mk Real.sqrt Real.exp (fun x y => x ^ y) Real.sin Real.pi) (setNoiseReductionStrength mainSuppressor 0 :
        Karaoke.SimpleNoiseSuppressor ℝ).m_sampleRate * (1 / 10)] := by
  have hwf0 : WellFormed (setNoiseReductionStrength mainSuppressor 0 :
      Karaoke.SimpleNoiseSuppressor ℝ) := by
    rw [zeroStrength_eq]
    refine ⟨List.length_replicate _ _, ?_, ?_, ?_, ?_⟩
    · show (0 : Int) < 48000
      decide
    · show (0 : Int) ≤ 200
      decide
    · show (200 : Int) ≤ INT_MAX
      decide
    · intro h
      exact absurd h (by simp)
  obtain ⟨s1, out, h1, hact⟩ := processAudio_loud_single
    (setNoiseReductionStrength mainSuppressor 0) (1 / 10) (by norm_num) hwf0
    (by rw [zeroStrength_eq]; exact quietHistory_replicate)
    (by rw [zeroStrength_eq]) (by rw [zeroStrength_eq]) (by rw [zeroStrength_eq])
  have hout := processAudio_active_output (CMath.mk Real.sqrt Real.exp (fun x y => x ^ y) Real.sin Real.pi) _ s1 [1 / 10] [1 / 10] out 1 (by decide) h1 hact
  have hstr0 : ¬ 0 < (setNoiseReductionStrength mainSuppressor 0 :
      Karaoke.SimpleNoiseSuppressor ℝ).m_noiseReductionStrength := by
    rw [zeroStrength_eq]
    exact lt_irrefl 0
  rw [if_neg hstr0] at hout
  have hout1 : out = [1 / 10] := by
    rw [hout]
    rfl
  refine ⟨s1, out, h1, hact, hout1, ?_⟩
  rw [hout1, zeroStrength_eq]
  have halpha := highPassAlpha_lt_one (CMath.mk Real.sqrt Real.exp (fun x y => x ^ y) Real.sin Real.pi) Real.pi_pos 48000 (by decide)
  simp only [ne_eq, List.cons.injEq, and_true]
  intro heq
  have h2 : highPassAlpha (CMath.mk Real.sqrt Real.exp (fun x y => x ^ y) Real.sin Real.pi) 48000 * (1 / 10) < 1 * (1 / 10) :=
    mul_lt_mul_of_pos_right halpha (by norm_num)
  rw [one_mul] at h2
  linarith

end SimpleNoiseSuppressor

/-! ## Silence -/

namespace SimpleNoiseSuppressor

theorem sumSquares_zeros (n : Nat) : sumSquares (List.replicate n (0 : α)) = 0 := by
  unfold sumSquares
  induction n with
  | zero => rfl
  | succ n ih =>
    rw [List.replicate_succ, List.foldl_cons, mul_zero, add_zero]
    exact ih

theorem frameRms_zeros (m : CMath α) (hsqrt : m.sqrt 0 = 0) (n : Nat) (numSamples : Int) :
    frameRms m (List.replicate n 0) numSamples = 0 := by
  unfold frameRms
  rw [sumSquares_zeros, zero_div, hsqrt]

/-- At signal level 0 and noise level 0.001 the VAD probability is `1 / (1 + exp 10)`, at
most 0.3 as soon as `exp 10 ≥ 7/3`. -/
theorem calculateVADProbability_silence (m : CMath α) (hexp : 7 / 3 ≤ m.exp 10) :
    calculateVADProbability m 0 0.001 ≤ 0.3 := by
  have harg : (-5 * ((0 : α) / 0.001 - 2)) = 10 := by norm_num
  have hnot : ¬ ((0.001 : α) < MIN_NOISE_LEVEL) := by
    unfold MIN_NOISE_LEVEL
    exact lt_irrefl _
  have hden : (0 : α) < 1 + m.exp 10 := by linarith
  have hp3 : 1 / (1 + m.exp 10) ≤ (0.3 : α) := by
    rw [div_le_iff₀ hden]
    linarith
  have hp0 : ¬ (1 / (1 + m.exp 10) < (0 : α)) := not_lt.2 (le_of_lt (by positivity))
  have hp1 : ¬ ((1 : α) < 1 / (1 + m.exp 10)) := not_lt.2 (le_trans hp3 (by norm_num))
  simp only [calculateVADProbability, hnot, if_false, harg, clamp, hp0, hp1]
  exact hp3

/-- One silent frame of `FRAMES_PER_BUFFER` samples on a quiet state with the gate open to
nothing: the voice flag stays clear, no grace period starts and the frame comes out as
zeros. -/
theorem processAudio_silent_frame (m : CMath α) (hsqrt : m.sqrt 0 = 0)
    (hexp : 7 / 3 ≤ m.exp 10) (s : Karaoke.SimpleNoiseSuppressor α) (hwf : WellFormed s)
    (hq : QuietHistory s.m_noiseHistory NOISE_HISTORY_SIZE) (hnoise : s.m_noiseLevel = 0.001)
    (hsig : s.m_signalLevel = 0) (hthr : s.m_vadThreshold = 0.3)
    (hstr : 0 < s.m_noiseReductionStrength) (hgr : s.m_inGracePeriod = false) :
    ∃ s1, processAudio m s (List.replicate FRAMES_PER_BUFFER 0)
        (List.replicate FRAMES_PER_BUFFER 0) (FRAMES_PER_BUFFER : Nat) =
          some (s1, List.replicate FRAMES_PER_BUFFER 0) ∧
      WellFormed s1 ∧ QuietHistory s1.m_noiseHistory NOISE_HISTORY_SIZE ∧
      s1.m_noiseLevel = 0.001 ∧ s1.m_signalLevel = 0 ∧ s1.m_vadThreshold = 0.3 ∧
      0 < s1.m_noiseReductionStrength ∧ s1.m_inGracePeriod = false ∧
      s1.m_voiceActive = false := by
  have htoNat : ((FRAMES_PER_BUFFER : Nat) : Int).toNat = FRAMES_PER_BUFFER := Int.toNat_ofNat _
  have htake : List.take ((FRAMES_PER_BUFFER : Nat) : Int).toNat
      (List.replicate FRAMES_PER_BUFFER (0 : α)) = List.replicate FRAMES_PER_BUFFER 0 := by
    rw [htoNat, List.take_replicate, Nat.min_self]
  have hdrop : List.drop ((FRAMES_PER_BUFFER : Nat) : Int).toNat
      (List.replicate FRAMES_PER_BUFFER (0 : α)) = [] := by
    rw [htoNat, List.drop_replicate, Nat.sub_self]
    rfl
  have hrms : frameRms m (List.take ((FRAMES_PER_BUFFER : Nat) : Int).toNat
      (List.replicate FRAMES_PER_BUFFER (0 : α))) (FRAMES_PER_BUFFER : Nat) = 0 := by
    rw [htake]
    exact frameRms_zeros m hsqrt _ _
  have hle : ((FRAMES_PER_BUFFER : Nat) : Int).toNat ≤
      (List.replicate FRAMES_PER_BUFFER (0 : α)).length := by
    rw [htoNat, List.length_replicate]
  obtain ⟨s1, out, h, h1, h2, h3, h4, h5, h6⟩ := processAudio_pinned m s
    (List.replicate FRAMES_PER_BUFFER 0) (List.replicate FRAMES_PER_BUFFER 0)
    (FRAMES_PER_BUFFER : Nat) hwf (by decide) (by decide) hle hle
    (by
      rw [hrms]
      exact quietHistory_mono _ _ _ (quietHistory_push_zero _ _ hq)
        (by unfold NOISE_HISTORY_SIZE; omega))
    hnoise
  rw [hrms] at h2 h3 h6
  have hsig1 : s1.m_signalLevel = 0 := by rw [h3, hsig]; norm_num
  have hva : s1.m_voiceActive = false := by
    rw [h6, hsig, hthr]
    have h0 : (0.9 : α) * 0 + 0.1 * 0 = 0 := by norm_num
    rw [h0]
    simp only [decide_eq_false_iff_not, not_lt, gt_iff_lt]
    exact calculateVADProbability_silence m hexp
  obtain ⟨_, _, hwf1, _, _, hsil⟩ := processAudio_grace_step m s s1 _ _ out
    (FRAMES_PER_BUFFER : Nat) hwf (by decide) (by decide) h
  have hgr1 : s1.m_inGracePeriod = false := hsil hva hgr
  obtain ⟨s7, hv7, hg7, _, hstr7, _, _, hout⟩ := processAudio_stages m s s1 _ _ out
    (FRAMES_PER_BUFFER : Nat) (by decide) h
  rw [hva] at hv7
  rw [hgr1] at hg7
  have hpos7 : s7.m_noiseReductionStrength > 0 := by rw [hstr7]; exact hstr
  have hout0 : out = List.replicate FRAMES_PER_BUFFER 0 := by
    rw [hout, htake, hdrop, List.append_nil]
    simp only [gateAndReduce, applySpectralNoiseReduction, applyNoiseGate, ← hv7, ← hg7, hpos7,
      highPassLoop_eq, Bool.not_false, Bool.and_self, if_true, List.map_replicate, ite_self,
      mul_zero, zero_mul]
  rw [hout0] at h
  refine ⟨s1, h, hwf1, ?_, h1, hsig1, by rw [h4, hthr], by rw [h5]; exact hstr, hgr1, hva⟩
  rw [h2]
  exact quietHistory_push_zero _ _ hq

/-- Every silent frame of a run on the suppressor that `main` configures. -/
theorem silent_run (m : CMath α) (hsqrt : m.sqrt 0 = 0) (hexp : 7 / 3 ≤ m.exp 10) (n : Nat) :
    ∃ t, stateAfter m mainSuppressor (fun _ => List.replicate FRAMES_PER_BUFFER 0)
        (FRAMES_PER_BUFFER : Nat) n = some t ∧
      WellFormed t ∧ QuietHistory t.m_noiseHistory NOISE_HISTORY_SIZE ∧
      t.m_noiseLevel = 0.001 ∧ t.m_signalLevel = 0 ∧ t.m_vadThreshold = 0.3 ∧
      0 < t.m_noiseReductionStrength ∧ t.m_inGracePeriod = false := by
  induction n with
  | zero =>
    refine ⟨mainSuppressor, rfl, wellFormed_mainSuppressor, ?_, ?_, ?_, ?_, ?_, ?_⟩ <;>
      rw [mainSuppressor_eq]
    · exact quietHistory_replicate
    · show (0 : α) < 0.6
      norm_num
  | succ n ih =>
    obtain ⟨t, ht, hwf, hq, hnoise, hsig, hthr, hstr, hgr⟩ := ih
    obtain ⟨t1, h, hwf1, hq1, hn1, hs1, ht1, hst1, hg1, _⟩ :=
      processAudio_silent_frame m hsqrt hexp t hwf hq hnoise hsig hthr hstr hgr
    refine ⟨t1, ?_, hwf1, hq1, hn1, hs1, ht1, hst1, hg1⟩
    rw [stateAfter_succ m _ t _ _ n ht, h]
    rfl

/-- C21. Silence end-to-end: on the suppressor configured as in `main` (48 kHz, gate
threshold 0.01, VAD threshold 0.3, grace 200 ms, reduction strength 0.6) and fed all-zero
frames of 256 samples, every frame is processed without fault, and after each of them, so
after frame 375 (take `n = 374`), `isVoiceActive()` is false and every sample of the output
of that frame is 0.  The library facts used are `sqrt 0 = 0` and `exp 10 ≥ 7/3`. -/
theorem silence_end_to_end (m : CMath α) (hsqrt : m.sqrt 0 = 0) (hexp : 7 / 3 ≤ m.exp 10)
    (n : Nat) :
    ∃ t0 t,
      stateAfter m mainSuppressor (fun _ => List.replicate FRAMES_PER_BUFFER 0)
        (FRAMES_PER_BUFFER : Nat) n = some t0 ∧
      processAudio m t0 (List.replicate FRAMES_PER_BUFFER 0)
        (List.replicate FRAMES_PER_BUFFER 0) (FRAMES_PER_BUFFER : Nat) =
          some (t, List.replicate FRAMES_PER_BUFFER 0) ∧
      stateAfter m mainSuppressor (fun _ => List.replicate FRAMES_PER_BUFFER 0)
        (FRAMES_PER_BUFFER : Nat) (n + 1) = some t ∧
      t.isVoiceActive = false := by
  obtain ⟨t0, ht0, hwf, hq, hnoise, hsig, hthr, hstr, hgr⟩ := silent_run m hsqrt hexp n
  obtain ⟨t, h, _, _, _, _, _, _, hg1, hva⟩ :=
    processAudio_silent_frame m hsqrt hexp t0 hwf hq hnoise hsig hthr hstr hgr
  refine ⟨t0, t, ht0, h, ?_, ?_⟩
  · rw [stateAfter_succ m _ t0 _ _ n ht0, h]
    rfl
  · simp only [isVoiceActive, hva, hg1, Bool.or_self]

/-- C21 for frame 375 with the real square root and exponential. -/
theorem silence_end_to_end_witness :
    Real.sqrt 0 = 0 ∧ (7 / 3 : ℝ) ≤ Real.exp 10 ∧
    ∃ t0 t,
      stateAfter (CMath.mk Real.sqrt Real.exp (fun x y => x ^ y) Real.sin Real.pi) mainSuppressor (fun _ => List.replicate FRAMES_PER_BUFFER 0)
        (FRAMES_PER_BUFFER : Nat) 374 = some t0 ∧
      processAudio (CMath.mk Real.sqrt Real.exp (fun x y => x ^ y) Real.sin Real.pi) t0 (List.replicate FRAMES_PER_BUFFER 0)
        (List.replicate FRAMES_PER_BUFFER 0) (FRAMES_PER_BUFFER : Nat) =
          some (t, List.replicate FRAMES_PER_BUFFER 0) ∧
      stateAfter (CMath.mk Real.sqrt Real.exp (fun x y => x ^ y) Real.sin Real.pi) mainSuppressor (fun _ => List.replicate FRAMES_PER_BUFFER 0)
        (FRAMES_PER_BUFFER : Nat) (374 + 1) = some t ∧
      t.isVoiceActive = false := by
  have hexp : (7 / 3 : ℝ) ≤ Real.exp 10 := by
    have := Real.add_one_le_exp 10
    linarith
  exact ⟨Real.sqrt_zero, hexp, silence_end_to_end (CMath.mk Real.sqrt Real.exp (fun x y => x ^ y) Real.sin Real.pi) Real.sqrt_zero hexp 374⟩

/-! ### The noise floor after a reset -/

theorem wellFormed_reset (s0 : Karaoke.SimpleNoiseSuppressor α) (h : WellFormed s0) :
    WellFormed (reset s0) := by
  obtain ⟨hlen, hsr, hg0, hg1, _⟩ := h
  refine ⟨?_, hsr, hg0, hg1, ?_⟩
  · simp only [reset, List.length_map]
    exact hlen
  · intro hgr
    simp [reset] at hgr

theorem quietHistory_reset (s0 : Karaoke.SimpleNoiseSuppressor α) (h : WellFormed s0) :
    QuietHistory (reset s0).m_noiseHistory NOISE_HISTORY_SIZE := by
  have hmap : (reset s0).m_noiseHistory = List.replicate NOISE_HISTORY_SIZE 0 := by
    simp only [reset]
    rw [List.map_const', h.1]
  rw [hmap]
  exact quietHistory_replicate

/-- The run of the first 499 frames after construction or reset, whatever the frames. -/
theorem pinned_run (m : CMath α) (hsqrt : ∀ x, 0 ≤ m.sqrt x)
    (s : Karaoke.SimpleNoiseSuppressor α) (hwf : WellFormed s)
    (hq : QuietHistory s.m_noiseHistory NOISE_HISTORY_SIZE) (hnoise : s.m_noiseLevel = 0.001)
    (frames : Nat → List α) (numSamples : Int) (hn : 0 < numSamples)
    (hn1 : numSamples * 1000 ≤ INT_MAX) (hlen : ∀ i, numSamples.toNat ≤ (frames i).length)
    (j : Nat) (hj : j ≤ 499) :
    ∃ t, stateAfter m s frames numSamples j = some t ∧ WellFormed t ∧
      QuietHistory t.m_noiseHistory (NOISE_HISTORY_SIZE - j) ∧ t.m_noiseLevel = 0.001 := by
  induction j with
  | zero => exact ⟨s, rfl, hwf, hq, hnoise⟩
  | succ j ih =>
    obtain ⟨t, ht, hwft, hqt, hnt⟩ := ih (by omega)
    have hk : NOISE_HISTORY_SIZE - j = (NOISE_HISTORY_SIZE - (j + 1)) + 1 := by
      unfold NOISE_HISTORY_SIZE
      omega
    rw [hk] at hqt
    have hq1 := quietHistory_push _ _
      (frameRms m ((frames j).take numSamples.toNat) numSamples) hqt (hsqrt _)
    obtain ⟨t1, out, h, h1, h2, _⟩ := processAudio_pinned m t (frames j) (frames j)
      numSamples hwft hn hn1 (hlen j) (hlen j)
      (quietHistory_mono _ _ _ hq1 (by unfold NOISE_HISTORY_SIZE; omega)) hnt
    obtain ⟨_, _, hwf1, _⟩ := processAudio_grace_step m t t1 _ _ out numSamples hwft hn hn1 h
    refine ⟨t1, ?_, hwf1, by rw [h2]; exact hq1, h1⟩
    rw [stateAfter_succ m s t frames numSamples j ht, h]
    rfl

/-- C27. Noise floor pinned after reset: for every sequence of input frames, after each of
the first 499 `processAudio` calls (with `numSamples > 0`) that follow construction or
`reset()`, at least `1000 - j` of the 1000 history entries are still 0, the median the
code takes of the history is 0, and `noise_level` is exactly 0.001, whatever the input
energy.  The library fact used is that `sqrt` returns non-negative values. -/
theorem noise_floor_pinned (m : CMath α) (hsqrt : ∀ x, 0 ≤ m.sqrt x)
    (s : Karaoke.SimpleNoiseSuppressor α)
    (hs : s = SimpleNoiseSuppressor.SimpleNoiseSuppressor ∨ ∃ s0, WellFormed s0 ∧ s = reset s0)
    (frames : Nat → List α) (numSamples : Int) (hn : 0 < numSamples)
    (hn1 : numSamples * 1000 ≤ INT_MAX) (hlen : ∀ i, numSamples.toNat ≤ (frames i).length)
    (j : Nat) (hj : j ≤ 499) :
    ∃ t, stateAfter m s frames numSamples j = some t ∧
      t.m_noiseHistory.length = 1000 ∧ 1000 - j ≤ t.m_noiseHistory.count 0 ∧
      (t.m_noiseHistory.insertionSort (fun a b => a ≤ b))[
        (t.m_noiseHistory.insertionSort (fun a b => a ≤ b)).length / 2]? = some 0 ∧
      t.m_noiseLevel = 0.001 := by
  have hstart : WellFormed s ∧ QuietHistory s.m_noiseHistory NOISE_HISTORY_SIZE ∧
      s.m_noiseLevel = 0.001 := by
    rcases hs with rfl | ⟨s0, hwf0, rfl⟩
    · exact ⟨wellFormed_constructor, quietHistory_replicate, rfl⟩
    · exact ⟨wellFormed_reset s0 hwf0, quietHistory_reset s0 hwf0, rfl⟩
  obtain ⟨hwf, hq, hnoise⟩ := hstart
  obtain ⟨t, ht, _, hqt, hnt⟩ :=
    pinned_run m hsqrt s hwf hq hnoise frames numSamples hn hn1 hlen j hj
  obtain ⟨hl, hnn, hc⟩ := hqt
  refine ⟨t, ht, hl, hc, ?_, hnt⟩
  apply median_zero _ hnn
  rw [hl]
  unfold NOISE_HISTORY_SIZE at hc ⊢
  omega

/-- C27 after 499 one-sample frames `[1]` fed to a freshly constructed suppressor. -/
theorem noise_floor_pinned_witness :
    (∀ x, 0 ≤ Real.sqrt x) ∧ (0 : Int) < 1 ∧ (1 : Int) * 1000 ≤ INT_MAX ∧
    (∀ i : Nat, (1 : Int).toNat ≤ ((fun _ => [(1 : ℝ)]) i).length) ∧ 499 ≤ 499 ∧
    ∃ t, stateAfter (CMath.mk Real.sqrt Real.exp (fun x y => x ^ y) Real.sin Real.pi) SimpleNoiseSuppressor.SimpleNoiseSuppressor (fun _ => [(1 : ℝ)]) 1 499 =
        some t ∧
      t.m_noiseHistory.length = 1000 ∧ 1000 - 499 ≤ t.m_noiseHistory.count 0 ∧
      (t.m_noiseHistory.insertionSort (fun a b => a ≤ b))[
        (t.m_noiseHistory.insertionSort (fun a b => a ≤ b)).length / 2]? = some 0 ∧
      t.m_noiseLevel = 0.001 :=
  ⟨Real.sqrt_nonneg, by decide, by decide, fun _ => by simp, le_refl _,
    noise_floor_pinned (CMath.mk Real.sqrt Real.exp (fun x y => x ^ y) Real.sin Real.pi) Real.sqrt_nonneg _ (Or.inl rfl) (fun _ => [(1 : ℝ)]) 1 (by decide)
      (by decide) (fun _ => by simp) 499 (le_refl _)⟩

end SimpleNoiseSuppressor

/-! ## The noise-floor update -/

namespace SimpleNoiseSuppressor

/-- The level fields after a returning call on `numSamples > 0` samples. -/
theorem processAudio_levels (m : CMath α) (s s1 : Karaoke.SimpleNoiseSuppressor α)
    (input output out : List α) (numSamples : Int) (hn : 0 < numSamples)
    (h : processAudio m s input output numSamples = some (s1, out)) :
    ∃ medianNoise,
      (s1.m_noiseHistory.insertionSort (fun a b => a ≤ b))[
        (s1.m_noiseHistory.insertionSort (fun a b => a ≤ b)).length / 2]? = some medianNoise ∧
      s1.m_noiseHistory =
        (s.m_noiseHistory ++ [frameRms m (input.take numSamples.toNat) numSamples]).tail ∧
      s1.m_noiseLevel = clamp (0.95 * s.m_noiseLevel + 0.05 * medianNoise)
        MIN_NOISE_LEVEL MAX_NOISE_LEVEL ∧
      s1.m_signalLevel =
        0.9 * s.m_signalLevel + 0.1 * frameRms m (input.take numSamples.toNat) numSamples := by
  obtain ⟨s6, s7, h6, h7, hs1, _, _, _⟩ := processAudio_eq_some m s s1 input output out _ hn h
  obtain ⟨med, hmed, hs6⟩ := updateLevels_eq_some m s s6 _ _ h6
  obtain ⟨c, g, hcg⟩ := handleGracePeriod_eq_some s6 s7 numSamples h7
  obtain ⟨p, hp⟩ := gateAndReduce_fst m s7 (input.take numSamples.toNat)
  have hh : s1.m_noiseHistory =
      (s.m_noiseHistory ++ [frameRms m (input.take numSamples.toNat) numSamples]).tail := by
    rw [hs1, hp, hcg, hs6]
  refine ⟨med, by rw [hh]; exact hmed, hh, ?_, ?_⟩ <;> rw [hs1, hp, hcg, hs6]

/-- C24 (amended). Noise-floor update: on every `processAudio` call with `numSamples > 0`
on a well-formed suppressor, the frame (CMath.mk Real.sqrt Real.exp (fun x y => x ^ y) Real.sin Real.pi)S is appended to the (CMath.mk Real.sqrt Real.exp (fun x y => x ^ y) Real.sin Real.pi)S history while the oldest
entry is dropped (the length stays 1000), the new `noise_level` is
`clamp(0.95 * old_noise_level + 0.05 * med, 0.001, 0.5)` where `med` is the entry of index
500 of the sorted updated history, the upper of its two middle values and not their mean,
and `signal_level` becomes `0.9 * old_signal_level + 0.1 * (CMath.mk Real.sqrt Real.exp (fun x y => x ^ y) Real.sin Real.pi)S`. -/
theorem noise_floor_update (m : CMath α) (s : Karaoke.SimpleNoiseSuppressor α)
    (input output : List α) (numSamples : Int) (hwf : WellFormed s) (hn : 0 < numSamples)
    (hn1 : numSamples * 1000 ≤ INT_MAX) (hin : numSamples.toNat ≤ input.length)
    (hout : numSamples.toNat ≤ output.length) :
    ∃ s1 out med, processAudio m s input output numSamples = some (s1, out) ∧
      s1.m_noiseHistory =
        (s.m_noiseHistory ++ [frameRms m (input.take numSamples.toNat) numSamples]).tail ∧
      s1.m_noiseHistory.length = 1000 ∧
      List.Sorted (fun a b => a ≤ b) (s1.m_noiseHistory.insertionSort (fun a b => a ≤ b)) ∧
      (s1.m_noiseHistory.insertionSort (fun a b => a ≤ b)).Perm s1.m_noiseHistory ∧
      (s1.m_noiseHistory.insertionSort (fun a b => a ≤ b))[500]? = some med ∧
      s1.m_noiseLevel = clamp (0.95 * s.m_noiseLevel + 0.05 * med) 0.001 0.5 ∧
      s1.m_signalLevel =
        0.9 * s.m_signalLevel + 0.1 * frameRms m (input.take numSamples.toNat) numSamples := by
  obtain ⟨s1, out, h, hwf1, _⟩ := processAudio_total m s input output numSamples hwf hn hn1
    hin hout
  obtain ⟨med, hmed, hh, hnl, hsl⟩ := processAudio_levels m s s1 input output out _ hn h
  have hlen : s1.m_noiseHistory.length = 1000 := hwf1.1
  rw [List.length_insertionSort, hlen] at hmed
  exact ⟨s1, out, med, h, hh, hlen, List.sorted_insertionSort _ _,
    List.perm_insertionSort _ _, hmed, hnl, hsl⟩

/-- C24 on a one-sample frame fed to the freshly constructed suppressor. -/
theorem noise_floor_update_witness :
    WellFormed (SimpleNoiseSuppressor.SimpleNoiseSuppressor : Karaoke.SimpleNoiseSuppressor ℝ) ∧
    (0 : Int) < 1 ∧ (1 : Int) * 1000 ≤ INT_MAX ∧
    (1 : Int).toNat ≤ [(1 : ℝ)].length ∧
    ∃ s1 out med,
      processAudio (CMath.mk Real.sqrt Real.exp (fun x y => x ^ y) Real.sin Real.pi) SimpleNoiseSuppressor.SimpleNoiseSuppressor [(1 : ℝ)] [1] 1 =
        some (s1, out) ∧
      s1.m_noiseHistory =
        ((SimpleNoiseSuppressor.SimpleNoiseSuppressor :
            Karaoke.SimpleNoiseSuppressor ℝ).m_noiseHistory ++
          [frameRms (CMath.mk Real.sqrt Real.exp (fun x y => x ^ y) Real.sin Real.pi) ([(1 : ℝ)].take (1 : Int).toNat) 1]).tail ∧
      s1.m_noiseHistory.length = 1000 ∧
      List.Sorted (fun a b => a ≤ b) (s1.m_noiseHistory.insertionSort (fun a b => a ≤ b)) ∧
      (s1.m_noiseHistory.insertionSort (fun a b => a ≤ b)).Perm s1.m_noiseHistory ∧
      (s1.m_noiseHistory.insertionSort (fun a b => a ≤ b))[500]? = some med ∧
      s1.m_noiseLevel = clamp (0.95 * (SimpleNoiseSuppressor.SimpleNoiseSuppressor :
          Karaoke.SimpleNoiseSuppressor ℝ).m_noiseLevel + 0.05 * med) 0.001 0.5 ∧
      s1.m_signalLevel =
        0.9 * (SimpleNoiseSuppressor.SimpleNoiseSuppressor :
            Karaoke.SimpleNoiseSuppressor ℝ).m_signalLevel +
          0.1 * frameRms (CMath.mk Real.sqrt Real.exp (fun x y => x ^ y) Real.sin Real.pi) ([(1 : ℝ)].take (1 : Int).toNat) 1 :=
  ⟨wellFormed_constructor, by decide, by decide, by simp,
    noise_floor_update (CMath.mk Real.sqrt Real.exp (fun x y => x ^ y) Real.sin Real.pi) SimpleNoiseSuppressor.SimpleNoiseSuppressor [1] [1] 1
      wellFormed_constructor (by decide) (by decide) (by simp) (by simp)⟩

theorem quietHistory_zeros_ones (a b : Nat) (h : a + b = NOISE_HISTORY_SIZE) :
    QuietHistory (List.replicate a (0 : ℝ) ++ List.replicate b 1) a := by
  refine ⟨by rw [List.length_append, List.length_replicate, List.length_replicate, h], ?_, ?_⟩
  · intro x hx
    rcases List.mem_append.1 hx with hx | hx
    · rw [List.eq_of_mem_replicate hx]
    · rw [List.eq_of_mem_replicate hx]
      exact zero_le_one
  · rw [List.count_append, List.count_replicate_self]
    exact Nat.le_add_right _ _

theorem zeros_ones_push (a b : Nat) :
    (List.replicate (a + 1) (0 : ℝ) ++ List.replicate b 1 ++ [1]).tail =
      List.replicate a 0 ++ List.replicate (b + 1) 1 := by
  rw [List.replicate_succ, List.cons_append, List.cons_append, List.tail_cons,
    List.append_assoc, ← List.replicate_succ']

/-- The run of one-sample frames `[1]` on the freshly constructed suppressor: after
`j ≤ 499` frames the history is `1000 - j` zeros followed by `j` ones and the noise level
is still 0.001. -/
theorem ones_run (j : Nat) (hj : j ≤ 499) :
    ∃ t, stateAfter (CMath.mk Real.sqrt Real.exp (fun x y => x ^ y) Real.sin Real.pi) SimpleNoiseSuppressor.SimpleNoiseSuppressor (fun _ => [(1 : ℝ)]) 1 j =
        some t ∧
      WellFormed t ∧
      t.m_noiseHistory = List.replicate (NOISE_HISTORY_SIZE - j) 0 ++ List.replicate j 1 ∧
      t.m_noiseLevel = 0.001 := by
  induction j with
  | zero =>
    refine ⟨_, rfl, wellFormed_constructor, ?_, rfl⟩
    show List.replicate NOISE_HISTORY_SIZE (0 : ℝ) =
      List.replicate (NOISE_HISTORY_SIZE - 0) 0 ++ List.replicate 0 1
    rw [Nat.sub_zero, List.replicate_zero, List.append_nil]
  | succ j ih =>
    obtain ⟨t, ht, hwft, hht, hnt⟩ := ih (by omega)
    have hk : NOISE_HISTORY_SIZE - j = (NOISE_HISTORY_SIZE - (j + 1)) + 1 := by
      unfold NOISE_HISTORY_SIZE
      omega
    have hrms : frameRms (CMath.mk Real.sqrt Real.exp (fun x y => x ^ y) Real.sin Real.pi) (List.take (1 : Int).toNat [(1 : ℝ)]) 1 = 1 :=
      frameRms_single (CMath.mk Real.sqrt Real.exp (fun x y => x ^ y) Real.sin Real.pi) rfl 1 zero_le_one
    have hpush : (t.m_noiseHistory ++ [frameRms (CMath.mk Real.sqrt Real.exp (fun x y => x ^ y) Real.sin Real.pi) (List.take (1 : Int).toNat [(1 : ℝ)]) 1]).tail
        = List.replicate (NOISE_HISTORY_SIZE - (j + 1)) 0 ++ List.replicate (j + 1) 1 := by
      rw [hrms, hht, hk]
      exact zeros_ones_push _ _
    have hq : QuietHistory
        (t.m_noiseHistory ++ [frameRms (CMath.mk Real.sqrt Real.exp (fun x y => x ^ y) Real.sin Real.pi) (List.take (1 : Int).toNat [(1 : ℝ)]) 1]).tail 501 := by
      rw [hpush]
      exact quietHistory_mono _ _ _ (quietHistory_zeros_ones _ _
        (by unfold NOISE_HISTORY_SIZE; omega)) (by unfold NOISE_HISTORY_SIZE; omega)
    obtain ⟨t1, out, h, h1, h2, _⟩ := processAudio_pinned (CMath.mk Real.sqrt Real.exp (fun x y => x ^ y) Real.sin Real.pi) t [1] [1] 1 hwft (by decide)
      (by decide) (by simp) (by simp) hq hnt
    obtain ⟨_, _, hwf1, _⟩ := processAudio_grace_step (CMath.mk Real.sqrt Real.exp (fun x y => x ^ y) Real.sin Real.pi) t t1 _ _ out 1 hwft (by decide)
      (by decide) h
    refine ⟨t1, ?_, hwf1, by rw [h2, hpush], h1⟩
    rw [stateAfter_succ (CMath.mk Real.sqrt Real.exp (fun x y => x ^ y) Real.sin Real.pi) _ t _ 1 j ht, h]
    rfl

set_option maxRecDepth 8000 in
/-- C24 as first stated fails on frame 500 of a run of one-sample frames `[1]` fed to the
freshly constructed suppressor.  The updated history is 500 zeros and 500 ones; its
statistical median is 1/2, which would give the noise level
`0.95 * 0.001 + 0.05 * 0.5 = 0.02595`, while the code takes the entry of index 500 of the
sorted history, 1, and stores `0.95 * 0.001 + 0.05 * 1 = 0.05095`. -/
theorem statistical_median_counterexample :
    ∃ t s1 out,
      stateAfter (CMath.mk Real.sqrt Real.exp (fun x y => x ^ y) Real.sin Real.pi) SimpleNoiseSuppressor.SimpleNoiseSuppressor (fun _ => [(1 : ℝ)]) 1 499 =
        some t ∧
      processAudio (CMath.mk Real.sqrt Real.exp (fun x y => x ^ y) Real.sin Real.pi) t [1] [1] 1 = some (s1, out) ∧
      s1.m_noiseHistory = List.replicate 500 0 ++ List.replicate 500 1 ∧
      statisticalMedian s1.m_noiseHistory = 1 / 2 ∧
      t.m_noiseLevel = 0.001 ∧ s1.m_noiseLevel = 0.05095 ∧
      clamp (0.95 * t.m_noiseLevel + 0.05 * statisticalMedian s1.m_noiseHistory) 0.001 0.5 =
        0.02595 := by
  obtain ⟨t, ht, hwft, hht, hnt⟩ := ones_run 499 (le_refl _)
  obtain ⟨s1, out, h, _, _⟩ := processAudio_total (CMath.mk Real.sqrt Real.exp (fun x y => x ^ y) Real.sin Real.pi) t [1] [1] 1 hwft (by decide) (by decide)
    (by simp) (by simp)
  obtain ⟨med, hmed, hh, hnl, _⟩ := processAudio_levels (CMath.mk Real.sqrt Real.exp (fun x y => x ^ y) Real.sin Real.pi) t s1 [1] [1] out 1 (by decide) h
  have hrms : frameRms (CMath.mk Real.sqrt Real.exp (fun x y => x ^ y) Real.sin Real.pi) (List.take (1 : Int).toNat [(1 : ℝ)]) 1 = 1 :=
    frameRms_single (CMath.mk Real.sqrt Real.exp (fun x y => x ^ y) Real.sin Real.pi) rfl 1 zero_le_one
  have hhist : s1.m_noiseHistory = List.replicate 500 0 ++ List.replicate 500 1 := by
    have e1 : NOISE_HISTORY_SIZE - 499 = 500 + 1 := by
      unfold NOISE_HISTORY_SIZE
      omega
    have e2 : (499 : Nat) + 1 = 500 := by omega
    rw [hh, hrms, hht, e1, zeros_ones_push, e2]
  have hsorted : List.Sorted (fun a b => a ≤ b)
      (List.replicate 500 (0 : ℝ) ++ List.replicate 500 1) := by
    unfold List.Sorted
    rw [List.pairwise_append]
    refine ⟨List.pairwise_replicate.2 (Or.inr (le_refl _)),
      List.pairwise_replicate.2 (Or.inr (le_refl _)), ?_⟩
    intro a ha b hb
    rw [List.eq_of_mem_replicate ha, List.eq_of_mem_replicate hb]
    exact zero_le_one
  have hsort : (List.replicate 500 (0 : ℝ) ++ List.replicate 500 1).insertionSort
      (fun a b => a ≤ b) = List.replicate 500 0 ++ List.replicate 500 1 :=
    List.Sorted.insertionSort_eq hsorted
  have hlen : (List.replicate 500 (0 : ℝ) ++ List.replicate 500 1).length = 1000 := by
    rw [List.length_append, List.length_replicate, List.length_replicate]
  have h500 : (List.replicate 500 (0 : ℝ) ++ List.replicate 500 1)[500]? = some 1 := by
    rw [List.getElem?_append_right (by rw [List.length_replicate]), List.length_replicate,
      List.getElem?_replicate, if_pos (by decide)]
  have h499 : (List.replicate 500 (0 : ℝ) ++ List.replicate 500 1)[499]? = some 0 := by
    rw [List.getElem?_append_left (by rw [List.length_replicate]; decide),
      List.getElem?_replicate, if_pos (by decide)]
  have hmed1 : med = 1 := by
    rw [hhist, hsort, hlen] at hmed
    have h5 : (1000 : Nat) / 2 = 500 := by omega
    rw [h5, h500] at hmed
    exact (Option.some.inj hmed).symm
  have hstat : statisticalMedian s1.m_noiseHistory = 1 / 2 := by
    rw [hhist]
    unfold statisticalMedian
    simp only [hsort, hlen]
    have h5 : (1000 : Nat) / 2 = 500 := by omega
    have h4 : (500 : Nat) - 1 = 499 := by omega
    rw [if_pos trivial, h5, h4, List.getD_eq_getElem?_getD, List.getD_eq_getElem?_getD, h499,
      h500, Option.getD_some, Option.getD_some]
    norm_num
  refine ⟨t, s1, out, ht, h, hhist, hstat, hnt, ?_, ?_⟩
  · rw [hnl, hnt, hmed1]
    unfold clamp MIN_NOISE_LEVEL MAX_NOISE_LEVEL
    norm_num
  · rw [hstat, hnt]
    unfold clamp
    norm_num

end SimpleNoiseSuppressor

/-! ## The state machine of the voice-activity detector -/

namespace SimpleNoiseSuppressor

/-- The grace-period block leaves the voice flag alone and establishes: the voice flag
implies the grace flag, and a grace flag without voice flag has a positive counter. -/
theorem handleGracePeriod_invariant (s s7 : Karaoke.SimpleNoiseSuppressor α)
    (numSamples : Int) (h : handleGracePeriod s numSamples = some s7) :
    (s7.m_voiceActive = true → s7.m_inGracePeriod = true) ∧
      (s7.m_inGracePeriod = true → s7.m_voiceActive = false → 0 < s7.m_graceCounter) := by
  unfold handleGracePeriod at h
  by_cases hv : s.m_voiceActive = true
  · rw [if_pos hv] at h
    rw [← Option.some.inj h]
    exact ⟨fun _ => rfl, fun _ hf => absurd (hv.symm.trans hf) (by simp)⟩
  · rw [if_neg hv] at h
    by_cases hg : s.m_inGracePeriod = true
    · rw [if_pos hg] at h
      cases hc : checkInt (numSamples * 1000) with
      | none =>
        rw [hc] at h
        simp at h
      | some ms =>
        rw [hc] at h
        simp only at h
        by_cases hz : s.m_sampleRate = 0
        · rw [if_pos hz] at h
          simp at h
        · rw [if_neg hz] at h
          cases hc2 : checkInt (s.m_graceCounter - ms.tdiv s.m_sampleRate) with
          | none =>
            rw [hc2] at h
            simp at h
          | some c =>
            rw [hc2] at h
            rw [← Option.some.inj h]
            refine ⟨fun hva => absurd hva hv, ?_⟩
            intro hig _
            by_cases hle : c ≤ 0
            · simp only [hle, if_true] at hig
              exact absurd hig (by simp)
            · exact not_le.1 hle
    · rw [if_neg hg] at h
      rw [← Option.some.inj h]
      exact ⟨fun hva => absurd hva hv, fun hig => absurd hig hg⟩

/-- The invariant of the state machine holds after every returning call on
`numSamples > 0` samples, whatever the state before. -/
theorem processAudio_vad_invariant (m : CMath α) (s s1 : Karaoke.SimpleNoiseSuppressor α)
    (input output out : List α) (numSamples : Int) (hn : 0 < numSamples)
    (h : processAudio m s input output numSamples = some (s1, out)) :
    (s1.m_voiceActive = true → s1.m_inGracePeriod = true) ∧
      (s1.m_inGracePeriod = true → s1.m_voiceActive = false → 0 < s1.m_graceCounter) := by
  obtain ⟨s6, s7, _, h7, hs1, _, _, _⟩ := processAudio_eq_some m s s1 input output out _ hn h
  obtain ⟨p, hp⟩ := gateAndReduce_fst m s7 (input.take numSamples.toNat)
  have hv : s1.m_voiceActive = s7.m_voiceActive := by rw [hs1, hp]
  have hg : s1.m_inGracePeriod = s7.m_inGracePeriod := by rw [hs1, hp]
  have hc : s1.m_graceCounter = s7.m_graceCounter := by rw [hs1, hp]
  rw [hv, hg, hc]
  exact handleGracePeriod_invariant s6 s7 numSamples h7

/-- The output of a returning call: the hard gate is applied exactly when the grace flag
is clear after the state update, and the reduction stage runs on the result when the
strength is positive. -/
theorem processAudio_gate_iff (m : CMath α) (s s1 : Karaoke.SimpleNoiseSuppressor α)
    (input output out : List α) (numSamples : Int) (hn : 0 < numSamples)
    (h : processAudio m s input output numSamples = some (s1, out)) :
    out = (if 0 < s.m_noiseReductionStrength
        then (applySpectralNoiseReduction m { s with m_voiceActive := s1.m_voiceActive }
          (if s1.m_inGracePeriod then input.take numSamples.toNat
            else applyNoiseGate s (input.take numSamples.toNat))).2
        else (if s1.m_inGracePeriod then input.take numSamples.toNat
          else applyNoiseGate s (input.take numSamples.toNat))) ++
      output.drop numSamples.toNat := by
  obtain ⟨hinv, _⟩ := processAudio_vad_invariant m s s1 input output out numSamples hn h
  obtain ⟨s7, hv, hg, hthr, hstr, hsr, hprev, hout⟩ :=
    processAudio_stages m s s1 input output out numSamples hn h
  have hgate : applyNoiseGate s7 (input.take numSamples.toNat) =
      applyNoiseGate s (input.take numSamples.toNat) := by
    simp only [applyNoiseGate, hthr]
  rw [hout]
  congr 1
  cases hva : s1.m_voiceActive with
  | true =>
    have hig : s1.m_inGracePeriod = true := hinv hva
    have hva7 : s7.m_voiceActive = true := by rw [← hv]; exact hva
    have hig7 : s7.m_inGracePeriod = true := by rw [← hg]; exact hig
    by_cases hpos : 0 < s.m_noiseReductionStrength
    · have hpos7 : s7.m_noiseReductionStrength > 0 := by rw [hstr]; exact hpos
      simp only [gateAndReduce, applySpectralNoiseReduction, hva7, hig7, hig, hpos, hpos7,
        hsr, hprev, Bool.not_true, Bool.false_and, Bool.false_eq_true, if_false, if_true]
    · have hpos7 : ¬ s7.m_noiseReductionStrength > 0 := by rw [hstr]; exact hpos
      simp only [gateAndReduce, hva7, hig7, hig, hpos, hpos7, Bool.not_true, Bool.false_and,
        Bool.false_eq_true, if_false, if_true]
  | false =>
    have hva7 : s7.m_voiceActive = false := by rw [← hv]; exact hva
    cases hig : s1.m_inGracePeriod with
    | true =>
      have hig7 : s7.m_inGracePeriod = true := by rw [← hg]; exact hig
      by_cases hpos : 0 < s.m_noiseReductionStrength
      · have hpos7 : s7.m_noiseReductionStrength > 0 := by rw [hstr]; exact hpos
        simp only [gateAndReduce, applySpectralNoiseReduction, hva7, hig7, hpos, hpos7,
          hsr, hprev, hstr, Bool.not_true, Bool.not_false, Bool.and_false, Bool.false_eq_true,
          if_false, if_true]
      · have hpos7 : ¬ s7.m_noiseReductionStrength > 0 := by rw [hstr]; exact hpos
        simp only [gateAndReduce, hva7, hig7, hpos, hpos7, Bool.not_true, Bool.not_false,
          Bool.and_false, Bool.false_eq_true, if_false, if_true]
    | false =>
      have hig7 : s7.m_inGracePeriod = false := by rw [← hg]; exact hig
      by_cases hpos : 0 < s.m_noiseReductionStrength
      · have hpos7 : s7.m_noiseReductionStrength > 0 := by rw [hstr]; exact hpos
        simp only [gateAndReduce, applySpectralNoiseReduction, hva7, hig7, hpos, hpos7,
          hsr, hprev, hstr, hgate, Bool.not_false, Bool.and_self, Bool.false_eq_true,
          if_false, if_true]
      · have hpos7 : ¬ s7.m_noiseReductionStrength > 0 := by rw [hstr]; exact hpos
        simp only [gateAndReduce, hva7, hig7, hpos, hpos7, hgate, Bool.not_false,
          Bool.and_self, Bool.false_eq_true, if_false, if_true]

/-- Every state of a run from a well-formed state that satisfies the invariant satisfies
it. -/
theorem vad_run (m : CMath α) (s : Karaoke.SimpleNoiseSuppressor α)
    (frames : Nat → List α) (numSamples : Int) (hwf : WellFormed s)
    (hinv1 : s.m_voiceActive = true → s.m_inGracePeriod = true)
    (hinv2 : s.m_inGracePeriod = true → s.m_voiceActive = false → 0 < s.m_graceCounter)
    (hn : 0 < numSamples) (hn1 : numSamples * 1000 ≤ INT_MAX)
    (hlen : ∀ i, numSamples.toNat ≤ (frames i).length) (j : Nat) :
    ∃ t, stateAfter m s frames numSamples j = some t ∧ WellFormed t ∧
      (t.m_voiceActive = true → t.m_inGracePeriod = true) ∧
      (t.m_inGracePeriod = true → t.m_voiceActive = false → 0 < t.m_graceCounter) := by
  cases j with
  | zero => exact ⟨s, rfl, hwf, hinv1, hinv2⟩
  | succ j =>
    obtain ⟨t, ht, hwft, _, _⟩ := stateAfter_total m s frames numSamples hwf hn hn1 hlen j
    obtain ⟨t1, out, hp, hwf1, _⟩ := processAudio_total m t (frames j) (frames j) numSamples
      hwft hn hn1 (hlen j) (hlen j)
    obtain ⟨h1, h2⟩ := processAudio_vad_invariant m t t1 _ _ out numSamples hn hp
    refine ⟨t1, ?_, hwf1, h1, h2⟩
    rw [stateAfter_succ m s t frames numSamples j ht, hp]
    rfl

/-- C25. VAD state-machine invariant: in the constructed and in the reset state both flags
are clear; in every state `t` of a run of `processAudio` calls (`numSamples > 0`) from a
well-formed state that satisfies the invariant, `voice_active` implies `in_grace_period`,
so `isVoiceActive()` equals `in_grace_period`, and `in_grace_period` without
`voice_active` has `grace_counter > 0`; and in the next call the hard gate is applied
exactly when `in_grace_period` is false after the state update. -/
theorem vad_state_invariant (m : CMath α) (s : Karaoke.SimpleNoiseSuppressor α)
    (frames : Nat → List α) (numSamples : Int) (hwf : WellFormed s)
    (hinv1 : s.m_voiceActive = true → s.m_inGracePeriod = true)
    (hinv2 : s.m_inGracePeriod = true → s.m_voiceActive = false → 0 < s.m_graceCounter)
    (hn : 0 < numSamples) (hn1 : numSamples * 1000 ≤ INT_MAX)
    (hlen : ∀ i, numSamples.toNat ≤ (frames i).length) (j : Nat) :
    ((SimpleNoiseSuppressor.SimpleNoiseSuppressor : Karaoke.SimpleNoiseSuppressor α).m_voiceActive = false ∧ (SimpleNoiseSuppressor.SimpleNoiseSuppressor : Karaoke.SimpleNoiseSuppressor α).m_inGracePeriod = false) ∧
    (∀ s0 : Karaoke.SimpleNoiseSuppressor α,
      (reset s0).m_voiceActive = false ∧ (reset s0).m_inGracePeriod = false) ∧
    ∃ t t1 out, stateAfter m s frames numSamples j = some t ∧
      (t.m_voiceActive = true → t.m_inGracePeriod = true) ∧
      t.isVoiceActive = t.m_inGracePeriod ∧
      (t.m_inGracePeriod = true → t.m_voiceActive = false → 0 < t.m_graceCounter) ∧
      processAudio m t (frames j) (frames j) numSamples = some (t1, out) ∧
      out = (if 0 < t.m_noiseReductionStrength
          then (applySpectralNoiseReduction m { t with m_voiceActive := t1.m_voiceActive }
            (if t1.m_inGracePeriod then (frames j).take (numSamples).toNat
              else applyNoiseGate t ((frames j).take (numSamples).toNat))).2
          else (if t1.m_inGracePeriod then (frames j).take (numSamples).toNat
            else applyNoiseGate t ((frames j).take (numSamples).toNat))) ++
        (frames j).drop (numSamples).toNat := by
  refine ⟨⟨rfl, rfl⟩, fun s0 => ⟨rfl, rfl⟩, ?_⟩
  obtain ⟨t, ht, hwft, h1, h2⟩ := vad_run m s frames numSamples hwf hinv1 hinv2 hn hn1 hlen j
  obtain ⟨t1, out, hp, _, _⟩ := processAudio_total m t (frames j) (frames j) numSamples
    hwft hn hn1 (hlen j) (hlen j)
  refine ⟨t, t1, out, ht, h1, ?_, h2, hp,
    processAudio_gate_iff m t t1 (frames j) (frames j) out numSamples hn hp⟩
  unfold isVoiceActive
  cases hva : t.m_voiceActive with
  | true => rw [h1 hva]; rfl
  | false => rfl

/-- C25 on a run of one-sample frames `[1/50]` fed to the suppressor that `main`
configures. -/
theorem vad_state_invariant_witness :
    WellFormed (mainSuppressor : Karaoke.SimpleNoiseSuppressor ℝ) ∧
    ((mainSuppressor : Karaoke.SimpleNoiseSuppressor ℝ).m_voiceActive = true →
      (mainSuppressor : Karaoke.SimpleNoiseSuppressor ℝ).m_inGracePeriod = true) ∧
    ((mainSuppressor : Karaoke.SimpleNoiseSuppressor ℝ).m_inGracePeriod = true →
      (mainSuppressor : Karaoke.SimpleNoiseSuppressor ℝ).m_voiceActive = false →
      0 < (mainSuppressor : Karaoke.SimpleNoiseSuppressor ℝ).m_graceCounter) ∧
    (0 : Int) < 1 ∧ (1 : Int) * 1000 ≤ INT_MAX ∧
    (∀ i : Nat, (1 : Int).toNat ≤ ((fun _ => [(1 / 50 : ℝ)]) i).length) ∧
    ((SimpleNoiseSuppressor.SimpleNoiseSuppressor : Karaoke.SimpleNoiseSuppressor ℝ).m_voiceActive = false ∧ (SimpleNoiseSuppressor.SimpleNoiseSuppressor : Karaoke.SimpleNoiseSuppressor ℝ).m_inGracePeriod = false) ∧
    (∀ s0 : Karaoke.SimpleNoiseSuppressor ℝ,
      (reset s0).m_voiceActive = false ∧ (reset s0).m_inGracePeriod = false) ∧
    ∃ t t1 out, stateAfter (CMath.mk Real.sqrt Real.exp (fun x y => x ^ y) Real.sin Real.pi) mainSuppressor (fun _ => [(1 / 50 : ℝ)]) (1 : Int) 3 = some t ∧
      (t.m_voiceActive = true → t.m_inGracePeriod = true) ∧
      t.isVoiceActive = t.m_inGracePeriod ∧
      (t.m_inGracePeriod = true → t.m_voiceActive = false → 0 < t.m_graceCounter) ∧
      processAudio (CMath.mk Real.sqrt Real.exp (fun x y => x ^ y) Real.sin Real.pi) t ((fun _ => [(1 / 50 : ℝ)]) 3) ((fun _ => [(1 / 50 : ℝ)]) 3) (1 : Int) = some (t1, out) ∧
      out = (if 0 < t.m_noiseReductionStrength
          then (applySpectralNoiseReduction (CMath.mk Real.sqrt Real.exp (fun x y => x ^ y) Real.sin Real.pi) { t with m_voiceActive := t1.m_voiceActive }
            (if t1.m_inGracePeriod then ((fun _ => [(1 / 50 : ℝ)]) 3).take ((1 : Int)).toNat
              else applyNoiseGate t (((fun _ => [(1 / 50 : ℝ)]) 3).take ((1 : Int)).toNat))).2
          else (if t1.m_inGracePeriod then ((fun _ => [(1 / 50 : ℝ)]) 3).take ((1 : Int)).toNat
            else applyNoiseGate t (((fun _ => [(1 / 50 : ℝ)]) 3).take ((1 : Int)).toNat))) ++
        ((fun _ => [(1 / 50 : ℝ)]) 3).drop ((1 : Int)).toNat := by
  have hva : (mainSuppressor : Karaoke.SimpleNoiseSuppressor ℝ).m_voiceActive = false := by
    rw [mainSuppressor_eq]
  have hig : (mainSuppressor : Karaoke.SimpleNoiseSuppressor ℝ).m_inGracePeriod = false := by
    rw [mainSuppressor_eq]
  have h1 : (mainSuppressor : Karaoke.SimpleNoiseSuppressor ℝ).m_voiceActive = true →
      (mainSuppressor : Karaoke.SimpleNoiseSuppressor ℝ).m_inGracePeriod = true := by
    intro h
    rw [hva] at h
    exact absurd h (by simp)
  have h2 : (mainSuppressor : Karaoke.SimpleNoiseSuppressor ℝ).m_inGracePeriod = true →
      (mainSuppressor : Karaoke.SimpleNoiseSuppressor ℝ).m_voiceActive = false →
      0 < (mainSuppressor : Karaoke.SimpleNoiseSuppressor ℝ).m_graceCounter := by
    intro h
    rw [hig] at h
    exact absurd h (by simp)
  exact ⟨wellFormed_mainSuppressor, h1, h2, by decide, by decide, fun _ => by simp,
    vad_state_invariant (CMath.mk Real.sqrt Real.exp (fun x y => x ^ y) Real.sin Real.pi) mainSuppressor (fun _ => [(1 / 50 : ℝ)]) 1
      wellFormed_mainSuppressor h1 h2 (by decide) (by decide) (fun _ => by simp) 3⟩

/-! ### A grace period that never ends -/

/-- C29. Grace period can stick: the per-frame decrement is the integer quotient
`(numSamples * 1000) / sampleRate`, which is 0 when `numSamples * 1000 < sampleRate`.  For
every such configuration with a grace period `> 0`, once a frame has set `voice_active`
(and with it `in_grace_period`), after any number `j` of further frames, active or not,
`in_grace_period` is still set with a positive counter, `isVoiceActive()` is true, and the
next frame is output without the hard gate. -/
theorem grace_period_sticks (m : CMath α) (s0 s : Karaoke.SimpleNoiseSuppressor α)
    (frame0 out0 : List α) (frames : Nat → List α) (numSamples : Int)
    (hwf : WellFormed s0) (hsr : s0.m_sampleRate ≤ INT_MAX) (hn : 0 < numSamples)
    (hlt : numSamples * 1000 < s0.m_sampleRate) (hgp : 0 < s0.m_gracePeriod)
    (hset : processAudio m s0 frame0 frame0 numSamples = some (s, out0))
    (hactive : s.m_voiceActive = true)
    (hlen : ∀ i, numSamples.toNat ≤ (frames i).length) (j : Nat) :
    (numSamples * 1000).tdiv s0.m_sampleRate = 0 ∧
    ∃ t t1 out, stateAfter m s frames numSamples j = some t ∧
      t.m_inGracePeriod = true ∧ t.isVoiceActive = true ∧ 0 < t.m_graceCounter ∧
      processAudio m t (frames j) (frames j) numSamples = some (t1, out) ∧
      t1.m_inGracePeriod = true ∧
      out = (if 0 < t.m_noiseReductionStrength
          then (applySpectralNoiseReduction m { t with m_voiceActive := t1.m_voiceActive }
            ((frames j).take (numSamples).toNat)).2
          else (frames j).take (numSamples).toNat) ++ (frames j).drop (numSamples).toNat := by
  have hn1 : numSamples * 1000 ≤ INT_MAX := le_trans (le_of_lt hlt) hsr
  have hdec : (numSamples * 1000).tdiv s0.m_sampleRate = 0 :=
    Int.tdiv_eq_zero_of_lt (by omega) hlt
  obtain ⟨hsr0, hgp0, hwfs, hact0, _, _⟩ :=
    processAudio_grace_step m s0 s frame0 frame0 out0 numSamples hwf hn hn1 hset
  obtain ⟨hc0, hig0⟩ := hact0 hactive
  have hstep : ∀ (t t1 : Karaoke.SimpleNoiseSuppressor α) (inp out : List α),
      WellFormed t → t.m_inGracePeriod = true → 0 < t.m_graceCounter →
      t.m_sampleRate = s0.m_sampleRate → t.m_gracePeriod = s0.m_gracePeriod →
      processAudio m t inp inp numSamples = some (t1, out) →
      WellFormed t1 ∧ t1.m_inGracePeriod = true ∧ 0 < t1.m_graceCounter ∧
        t1.m_sampleRate = s0.m_sampleRate ∧ t1.m_gracePeriod = s0.m_gracePeriod := by
    intro t t1 inp out hwft higt hct hsrt hgpt hp
    obtain ⟨hsr1, hgp1, hwf1, hact, hgrace, _⟩ :=
      processAudio_grace_step m t t1 inp inp out numSamples hwft hn hn1 hp
    refine ⟨hwf1, ?_, ?_, hsr1.trans hsrt, hgp1.trans hgpt⟩
    · cases hva : t1.m_voiceActive with
      | true => exact (hact hva).2
      | false =>
        rw [(hgrace hva higt).2, hsrt, hdec, sub_zero]
        exact decide_eq_true hct
    · cases hva : t1.m_voiceActive with
      | true =>
        rw [(hact hva).1, hgpt]
        exact hgp
      | false =>
        rw [(hgrace hva higt).1, hsrt, hdec, sub_zero]
        exact hct
  have hrun : ∀ k, ∃ t, stateAfter m s frames numSamples k = some t ∧ WellFormed t ∧
      t.m_inGracePeriod = true ∧ 0 < t.m_graceCounter ∧
      t.m_sampleRate = s0.m_sampleRate ∧ t.m_gracePeriod = s0.m_gracePeriod := by
    intro k
    induction k with
    | zero => exact ⟨s, rfl, hwfs, hig0, by rw [hc0]; exact hgp, hsr0, hgp0⟩
    | succ k ih =>
      obtain ⟨t, ht, hwft, higt, hct, hsrt, hgpt⟩ := ih
      obtain ⟨t1, out, hp, _, _⟩ := processAudio_total m t (frames k) (frames k) numSamples
        hwft hn hn1 (hlen k) (hlen k)
      obtain ⟨a, b, c, d, e⟩ := hstep t t1 _ out hwft higt hct hsrt hgpt hp
      refine ⟨t1, ?_, a, b, c, d, e⟩
      rw [stateAfter_succ m s t frames numSamples k ht, hp]
      rfl
  obtain ⟨t, ht, hwft, higt, hct, hsrt, hgpt⟩ := hrun j
  obtain ⟨t1, out, hp, _, _⟩ := processAudio_total m t (frames j) (frames j) numSamples
    hwft hn hn1 (hlen j) (hlen j)
  obtain ⟨_, hig1, _⟩ := hstep t t1 _ out hwft higt hct hsrt hgpt hp
  have hout := processAudio_gate_iff m t t1 (frames j) (frames j) out numSamples hn hp
  rw [hig1] at hout
  simp only [if_true] at hout
  refine ⟨hdec, t, t1, out, ht, higt, ?_, hct, hp, hig1, hout⟩
  simp only [isVoiceActive, higt, Bool.or_true]

/-- C29 at 48 kHz with one-sample frames (`1 * 1000 < 48000`) and a grace period of
200 ms: the frame `[1/50]` sets the flag, and 1000 silent frames later it is still set. -/
theorem grace_period_sticks_witness :
    ∃ s out0,
      WellFormed (configured 48000 200 : Karaoke.SimpleNoiseSuppressor ℝ) ∧
      (configured 48000 200 : Karaoke.SimpleNoiseSuppressor ℝ).m_sampleRate ≤ INT_MAX ∧
      (0 : Int) < 1 ∧
      (1 : Int) * 1000 < (configured 48000 200 : Karaoke.SimpleNoiseSuppressor ℝ).m_sampleRate ∧
      0 < (configured 48000 200 : Karaoke.SimpleNoiseSuppressor ℝ).m_gracePeriod ∧
      processAudio (CMath.mk Real.sqrt Real.exp (fun x y => x ^ y) Real.sin Real.pi) (configured 48000 200) [1 / 50] [1 / 50] 1 = some (s, out0) ∧
      s.m_voiceActive = true ∧
      (∀ i : Nat, (1 : Int).toNat ≤ ((fun _ => [(0 : ℝ)]) i).length) ∧
    ((1 : Int) * 1000).tdiv (configured 48000 200 : Karaoke.SimpleNoiseSuppressor ℝ).m_sampleRate = 0 ∧
    ∃ t t1 out, stateAfter (CMath.mk Real.sqrt Real.exp (fun x y => x ^ y) Real.sin Real.pi) s (fun _ => [(0 : ℝ)]) (1 : Int) 1000 = some t ∧
      t.m_inGracePeriod = true ∧ t.isVoiceActive = true ∧ 0 < t.m_graceCounter ∧
      processAudio (CMath.mk Real.sqrt Real.exp (fun x y => x ^ y) Real.sin Real.pi) t ((fun _ => [(0 : ℝ)]) 1000) ((fun _ => [(0 : ℝ)]) 1000) (1 : Int) = some (t1, out) ∧
      t1.m_inGracePeriod = true ∧
      out = (if 0 < t.m_noiseReductionStrength
          then (applySpectralNoiseReduction (CMath.mk Real.sqrt Real.exp (fun x y => x ^ y) Real.sin Real.pi) { t with m_voiceActive := t1.m_voiceActive }
            (((fun _ => [(0 : ℝ)]) 1000).take ((1 : Int)).toNat)).2
          else ((fun _ => [(0 : ℝ)]) 1000).take ((1 : Int)).toNat) ++ ((fun _ => [(0 : ℝ)]) 1000).drop ((1 : Int)).toNat := by
  have hwf := wellFormed_configured (α := ℝ) 48000 200 (by decide) (by decide) (by decide)
  have hsr : (configured 48000 200 : Karaoke.SimpleNoiseSuppressor ℝ).m_sampleRate ≤ INT_MAX := by
    rw [configured_eq 48000 200 (by decide)]
    decide
  have hlt : (1 : Int) * 1000 <
      (configured 48000 200 : Karaoke.SimpleNoiseSuppressor ℝ).m_sampleRate := by
    rw [configured_eq 48000 200 (by decide)]
    decide
  have hgp : 0 < (configured 48000 200 : Karaoke.SimpleNoiseSuppressor ℝ).m_gracePeriod := by
    rw [configured_eq 48000 200 (by decide)]
    decide
  obtain ⟨s, out0, hset, hact⟩ := processAudio_loud_single (configured 48000 200) (1 / 50)
    (le_refl _) hwf
    (by rw [configured_eq 48000 200 (by decide)]; exact quietHistory_replicate)
    (by rw [configured_eq 48000 200 (by decide)])
    (by rw [configured_eq 48000 200 (by decide)])
    (by rw [configured_eq 48000 200 (by decide)])
  exact ⟨s, out0, hwf, hsr, by decide, hlt, hgp, hset, hact, fun _ => by simp,
    grace_period_sticks (CMath.mk Real.sqrt Real.exp (fun x y => x ^ y) Real.sin Real.pi) (configured 48000 200) s [1 / 50] out0 (fun _ => [(0 : ℝ)]) 1
      hwf hsr (by decide) hlt hgp hset hact (fun _ => by simp) 1000⟩

end SimpleNoiseSuppressor

/-! ## The range of the resampling index -/

/-- With detected pitch and target at 440 Hz, full strength and a pitch shift of 384
semitones the final ratio is `2 ^ 32`, and the autotune branch faults at iteration 1: the
product does not fit an `int`. -/
theorem correctVoice_large_shift (data : AudioData ℝ) (inBuf : List ℝ)
    (hc : data.last_confidence = 0.9) (hp : data.last_pitch = 440)
    (hs : data.autotune_strength = 1) (hshift : data.pitch_shift_amount = 384) :
    shiftRatio (CMath.mk Real.sqrt Real.exp (fun x y => x ^ y) Real.sin Real.pi) data 440 = 4294967296 ∧
      truncate (toFloat (((1 : Nat) : ℝ) * 4294967296)) = 4294967296 ∧
      shiftedIdx (4294967296 : ℝ) 1 = none ∧
      resampleSample inBuf (4294967296 : ℝ) 1 = none ∧
      correctVoice (CMath.mk Real.sqrt Real.exp (fun x y => x ^ y) Real.sin Real.pi) data inBuf 440 = none := by
  have e1 : toFloat (440 / 440 : ℝ) = 1 := by
    rw [div_self (by norm_num)]
    exact toFloat_one
  have e2 : toFloat ((1 : ℝ) - 1) = 0 := by
    rw [sub_self]
    exact toFloat_zero
  have e3 : toFloat ((0 : ℝ) * 1) = 0 := by
    rw [zero_mul]
    exact toFloat_zero
  have e4 : toFloat ((1 : ℝ) + 0) = 1 := by
    rw [add_zero]
    exact toFloat_one
  have e5 : toFloat (384 / 12 : ℝ) = ((32 : Nat) : ℝ) :=
    toFloat_eq _ _ 32 0 (by norm_num) (by norm_num) (by decide) (by decide)
  have e6 : ((2 : ℝ) ^ ((32 : Nat) : ℝ)) = 4294967296 := by
    rw [Real.rpow_natCast]
    norm_num
  have e7 : toFloat (4294967296 : ℝ) = 4294967296 :=
    toFloat_eq_self _ 1 32 (by norm_num) (by decide) (by decide)
  have e8 : toFloat ((1 : ℝ) * 4294967296) = 4294967296 := by
    rw [one_mul]
    exact e7
  have hratio : shiftRatio (CMath.mk Real.sqrt Real.exp (fun x y => x ^ y) Real.sin Real.pi) data 440 = 4294967296 := by
    simp only [shiftRatio, hp, hs, hshift, e1, e2, e3, e4, e5, e6, e7, e8]
  have htr : truncate (toFloat (((1 : Nat) : ℝ) * 4294967296)) = 4294967296 := by
    rw [Nat.cast_one, e8]
    have h := truncate_natCast (α := ℝ) 4294967296
    exact_mod_cast h
  have hidx : shiftedIdx (4294967296 : ℝ) 1 = none := by
    unfold shiftedIdx floatToInt
    rw [htr]
    decide
  have hread : resampleSample inBuf (4294967296 : ℝ) 1 = none := by
    unfold resampleSample
    rw [hidx]
  refine ⟨hratio, htr, hidx, hread, ?_⟩
  apply correctVoice_eq_none _ _ _ _ 1
  · simp only [correctionApplies, hc, hp, decide_eq_true_eq]
    norm_num
  · decide
  · rw [hratio]
    exact hread

/-- C28 fails on the code.  The stored pitch and the target are 440 Hz and the autotune
strength is 1, inside [0, 1]; the pitch shift is 384 semitones, a value the command line
accepts unchecked although the field is documented as -12 to +12 semitones and the
parameter file admits only that range.  The final ratio is `2 ^ 32`, strictly positive,
yet at `i = 1` the product 4294967296 is more than `INT_MAX`: the conversion
`(int)(i * ratio)` is outside the range of `int`, so it yields no index `>= 0` in the
frame and the callback produces no output frame. -/
theorem pitch_shift_cast_out_of_range :
    0 < ({ (initialAudioData [] [((0 : ℝ), (440 : ℝ))] : AudioData ℝ) with pitch_shift_amount := 384 } : AudioData ℝ).autotune_strength ∧ ({ (initialAudioData [] [((0 : ℝ), (440 : ℝ))] : AudioData ℝ) with pitch_shift_amount := 384 } : AudioData ℝ).autotune_strength ≤ 1 ∧
    shiftRatio (CMath.mk Real.sqrt Real.exp (fun x y => x ^ y) Real.sin Real.pi)
      { ({ (initialAudioData [] [((0 : ℝ), (440 : ℝ))] : AudioData ℝ) with pitch_shift_amount := 384 } : AudioData ℝ) with last_pitch := 440, last_confidence := 0.9 } 440 = 4294967296 ∧
    truncate (toFloat (((1 : Nat) : ℝ) * 4294967296)) = 4294967296 ∧
    INT_MAX < 4294967296 ∧
    shiftedIdx (4294967296 : ℝ) 1 = none ∧
    (∀ inBuf : List ℝ, resampleSample inBuf (4294967296 : ℝ) 1 = none) ∧
    audioCallback (CMath.mk Real.sqrt Real.exp (fun x y => x ^ y) Real.sin Real.pi) ({ (initialAudioData [] [((0 : ℝ), (440 : ℝ))] : AudioData ℝ) with pitch_shift_amount := 384 } : AudioData ℝ) ({ inputBuffer := List.replicate 256 0, now := 0, paramFile := none, pitch := 440, confidence := 0.9 } : CallbackInput ℝ) = none := by
  have hparam : checkParameterUpdates ({ (initialAudioData [] [((0 : ℝ), (440 : ℝ))] : AudioData ℝ) with pitch_shift_amount := 384 } : AudioData ℝ) 0 none = ({ (initialAudioData [] [((0 : ℝ), (440 : ℝ))] : AudioData ℝ) with pitch_shift_amount := 384 } : AudioData ℝ) := by
    simp only [checkParameterUpdates, checkParameterUpdatesExit, initialAudioData]
    norm_num
  have hsetup : (frameSetup ({ (initialAudioData [] [((0 : ℝ), (440 : ℝ))] : AudioData ℝ) with pitch_shift_amount := 384 } : AudioData ℝ) ({ inputBuffer := List.replicate 256 0, now := 0, paramFile := none, pitch := 440, confidence := 0.9 } : CallbackInput ℝ)).1 =
      { ({ (initialAudioData [] [((0 : ℝ), (440 : ℝ))] : AudioData ℝ) with pitch_shift_amount := 384 } : AudioData ℝ) with
        instrumental_pos := (instrumentalLoop ([] : List ℝ) FRAMES_PER_BUFFER 0).2,
        last_pitch := 440, last_confidence := 0.9 } := by
    simp only [frameSetup, hparam, updatePitchEstimate]
    norm_num
    simp only [initialAudioData]
  have hbad := correctVoice_large_shift
    { ({ (initialAudioData [] [((0 : ℝ), (440 : ℝ))] : AudioData ℝ) with pitch_shift_amount := 384 } : AudioData ℝ) with
      instrumental_pos := (instrumentalLoop ([] : List ℝ) FRAMES_PER_BUFFER 0).2,
      last_pitch := 440, last_confidence := 0.9 }
    (List.replicate 256 (0 : ℝ)) rfl rfl rfl rfl
  have hbad2 := correctVoice_large_shift
    { ({ (initialAudioData [] [((0 : ℝ), (440 : ℝ))] : AudioData ℝ) with pitch_shift_amount := 384 } : AudioData ℝ) with last_pitch := 440, last_confidence := 0.9 }
    (List.replicate 256 (0 : ℝ)) rfl rfl rfl rfl
  refine ⟨?_, ?_, hbad2.1, hbad.2.1, by decide, hbad.2.2.1,
    fun inBuf => (correctVoice_large_shift
      { ({ (initialAudioData [] [((0 : ℝ), (440 : ℝ))] : AudioData ℝ) with pitch_shift_amount := 384 } : AudioData ℝ) with last_pitch := 440, last_confidence := 0.9 } inBuf rfl rfl rfl rfl).2.2.2.1,
    ?_⟩
  · show (0 : ℝ) < 1
    norm_num
  · show (1 : ℝ) ≤ 1
    norm_num
  · have htarget : lookupTargetPitch [((0 : ℝ), (440 : ℝ))] 0 = 440 := by
      simp only [lookupTargetPitch, List.foldl, melodyStep, sub_zero, abs_zero]
      norm_num
    apply audioCallback_correctVoice_none
    simp only [hsetup]
    simp only [initialAudioData, htarget] at hbad ⊢
    rw [hbad.2.2.2.2]

end Karaoke
